import Mathlib

/-!
# Brick-Breaker: laser reflection, hit resolution and basket scoring

A shallow embedding of the game logic of `src/brickbreaker.cpp`.

Modelling conventions.

* `float`/`double` values are elements of a linearly ordered field `K`
  (exact arithmetic, no rounding).  The one place where IEEE semantics
  decides control flow, a division by zero, is kept: `fdiv` returns `none`
  for the non-finite quotient, and every ordered comparison with it is false.
* The `<cmath>` functions and `M_PI` are external; they are the fields of a
  `Libm K` passed to every definition that calls them.
* `rand()` is external; the sequence of values it returns is the field `rnd`
  of the game state and `rpos` counts the calls made so far.
* `int` values are `Int`; fixed-size global arrays are functions of the index.
* `laser[i] != NULL` is the Boolean `laser i`.
* lines written to `cout` are appended to the field `out`.
-/

namespace BrickBreaker

/-! ## Data model -/

/-- External math library: the `<cmath>` functions used by the program and `M_PI`. -/
structure Libm (K : Type) where
  tan : K → K
  sin : K → K
  cos : K → K
  sqrt : K → K
  pi : K

/-- Falling brick, `struct rect`. -/
structure rect (K : Type) where
  x1 : K
  x2 : K
  y1 : K
  y2 : K
  translation : K
  c : Int
  alive : Bool

/-- Basket, `struct receptacle`. -/
structure receptacle (K : Type) where
  x1 : K
  x2 : K
  translate : K
  c : Int

/-- Cannon part, `struct cannon`. -/
structure cannon (K : Type) where
  x : K
  y : K
  translate : K
  rotate : K

/-- Mirror, `struct reflectors`. -/
structure reflectors (K : Type) where
  x1 : K
  x2 : K
  y1 : K
  y2 : K
  m : K
  c : K

/-- Stored ray leg, `struct rail`. -/
structure rail (K : Type) where
  x1 : K
  x2 : K
  y1 : K
  y2 : K
  m : K
  c : K

/-- The entries of `keystates_pressed` and `keystates_released` read by the game logic. -/
structure Keys where
  left_control : Bool
  left_alt : Bool
  right : Bool
  right_released : Bool
  left : Bool
  left_released : Bool
  s : Bool
  s_released : Bool
  f : Bool
  f_released : Bool
  a : Bool
  a_released : Bool
  d : Bool
  d_released : Bool
  n : Bool
  m : Bool
  space : Bool

/-- Global variables of the program that the game logic reads or writes. -/
structure Game (K : Type) where
  points : Int
  gameover : Bool
  hit_count : Int
  speed : K
  boxes : Nat → rect K
  bucket : Nat → receptacle K
  gun : Nat → cannon K
  mirror : Nat → reflectors K
  bullet : Nat → rail K
  laser : Nat → Bool
  y : Int
  rnd : Nat → Nat
  rpos : Nat
  out : List String
  count : Int
  last_update_time : K

variable {K : Type} [LinearOrderedField K]

/-! ## Geometry and `createLaser` -/

/-- Float division: `none` is the non-finite result (an infinity or NaN) of dividing by zero. -/
def fdiv (a b : K) : Option K :=
  if b = 0 then none else some (a / b)

/-- The test `x2 > mirror[i].x1 && x2 < mirror[i].x2`; false for a non-finite `x2`. -/
def inSpan (r : reflectors K) : Option K → Bool
  | none => false
  | some x => decide (x > r.x1 ∧ x < r.x2)

/-- The assignments of `createLaser` to `bullet[i]` and `laser[i]`. -/
def createLaser (L : Libm K) (s : Game K) (x1 y1 x2 y2 m c : K) (i : Nat) : Game K :=
  let x2' := if x2 = 0 ∧ y2 = 0 then x1 + 100 * L.cos m else x2
  let y2' := if x2 = 0 ∧ y2 = 0 then y1 + 100 * L.sin m else y2
  { s with
    bullet := Function.update s.bullet i ⟨x1, x2', y1, y2', m, c⟩
    laser := Function.update s.laser i true }

/-- The values assigned to `mirror[i]` by `createMirrors`. -/
def mirrorInit (L : Libm K) : Nat → reflectors K
  | 0 => { x1 := -1, x2 := 4, y1 := -2, y2 := -2 + 5 * L.sqrt 3,
           m := L.pi / 3, c := -2 + L.tan (L.pi / 3) }
  | 1 => { x1 := 28, x2 := 36, y1 := -25, y2 := -25 + 8 / L.sqrt 3,
           m := L.pi / 6, c := -25 - 28 * L.tan (L.pi / 6) }
  | _ => { x1 := 25, x2 := 32, y1 := 32, y2 := 25,
           m := (3 * L.pi) / 4, c := 32 - 25 * L.tan ((3 * L.pi) / 4) }

/-- The function `createMirrors`: sets `mirror[0..2]`. -/
def createMirrors (L : Libm K) (s : Game K) : Game K :=
  { s with mirror := fun i => if i < 3 then mirrorInit L i else s.mirror i }

/-! ## The reflection chain of `draw` -/

/-- One call `createLaser (x1,y1,x2,y2,m,c,i)` made by the firing code. -/
structure LaserCall (K : Type) where
  x1 : K
  y1 : K
  x2 : K
  y2 : K
  m : K
  c : K
  i : Nat

/-- Local variables of the firing block in `draw`, with the calls to `createLaser` made so far. -/
structure Locals (K : Type) where
  x1 : K
  y1 : K
  m1 : K
  c1 : K
  check : Nat → Bool
  count : Nat
  flag : Nat
  calls : List (LaserCall K)

/-- Abscissa of the intersection of the ray line with the line of mirror `r`:
`c1 = y1 - tan(m1)*x1; x2 = (c2-c1)/(tan(m1)-tan(m2))`. -/
def hitX (L : Libm K) (r : reflectors K) (x1 y1 m1 : K) : Option K :=
  fdiv (r.c - (y1 - L.tan m1 * x1)) (L.tan m1 - L.tan r.m)

/-- Intercept of the ray line, `c1 = y1 - tan(m1)*x1`. -/
def rayC (L : Libm K) (x y m : K) : K :=
  y - L.tan m * x

/-- The intersection abscissa `x2` as a field element (meaningful when the slopes differ). -/
def meetX (L : Libm K) (r : reflectors K) (x y m : K) : K :=
  (r.c - rayC L x y m) / (L.tan m - L.tan r.m)

/-- The intersection ordinate `y2 = tan(m1)*x2 + c1`. -/
def meetY (L : Libm K) (r : reflectors K) (x y m : K) : K :=
  L.tan m * meetX L r x y m + rayC L x y m

/-- Mirror `r` accepts the ray from `(x,y)` at angle `m`: the acceptance test of the chain. -/
def hits (L : Libm K) (r : reflectors K) (x y m : K) : Bool :=
  inSpan r (hitX L r x y m)

/-- The body of `for (int i=0;i<3;i++)`, run for the indices in the list; a `break` drops the rest. -/
def forMirrors (L : Libm K) (mirror : Nat → reflectors K) : List Nat → Locals K → Locals K
  | [], st => st
  | i :: rest, st =>
    if st.check i = false then
      let c1 := st.y1 - L.tan st.m1 * st.x1
      let m2 := (mirror i).m
      let ox2 := hitX L (mirror i) st.x1 st.y1 st.m1
      if inSpan (mirror i) ox2 = true then
        let x2 := ox2.getD 0
        let y2 := L.tan st.m1 * x2 + c1
        let m1' := 2 * m2 - st.m1
        forMirrors L mirror rest
          { x1 := x2, y1 := y2, m1 := m1', c1 := y2 - L.tan m1' * x2,
            check := Function.update st.check i true,
            count := st.count + 1, flag := st.flag,
            calls := st.calls ++ [⟨st.x1, st.y1, x2, y2, st.m1, c1, st.count⟩] }
      else if st.count > 0 then
        { st with c1 := c1, flag := 1,
                  calls := st.calls ++ [⟨st.x1, st.y1, 0, 0, st.m1, c1, st.count⟩] }
      else
        forMirrors L mirror rest { st with c1 := c1 }
    else
      forMirrors L mirror rest st

/-- One pass of the body of `while (flag == 0)`. -/
def chainPass (L : Libm K) (mirror : Nat → reflectors K) (st : Locals K) : Locals K :=
  let st1 := forMirrors L mirror [0, 1, 2] st
  if st1.count = 0 ∧ st1.flag = 0 then
    { st1 with flag := 1,
               calls := st1.calls ++ [⟨st1.x1, st1.y1, 0, 0, st1.m1, st1.c1, st1.count⟩] }
  else st1

/-- The loop `while (flag == 0)`; `none` when the fuel runs out before the loop exits. -/
def chainLoop (L : Libm K) (mirror : Nat → reflectors K) : Nat → Locals K → Option (Locals K)
  | 0, _ => none
  | fuel + 1, st =>
    if st.flag = 0 then chainLoop L mirror fuel (chainPass L mirror st) else some st

/-- Locals at the start of the loop for a ray from `(x1,y1)` at angle `m1`
(`c1` is not initialised by the source and is assigned before every use). -/
def chainInit (x1 y1 m1 : K) : Locals K :=
  { x1 := x1, y1 := y1, m1 := m1, c1 := 0, check := fun _ => false,
    count := 0, flag := 0, calls := [] }

/-- The calls to `createLaser` made by the reflection chain fired from `(x1,y1)` at angle `m1`. -/
def chain (L : Libm K) (mirror : Nat → reflectors K) (fuel : Nat) (x1 y1 m1 : K) :
    Option (List (LaserCall K)) :=
  (chainLoop L mirror fuel (chainInit x1 y1 m1)).map (fun st => st.calls)

/-- Effect of one recorded call on the globals. -/
def applyCall (L : Libm K) (s : Game K) (k : LaserCall K) : Game K :=
  createLaser L s k.x1 k.y1 k.x2 k.y2 k.m k.c k.i

/-- The firing block of `draw` (space pressed, one second elapsed): the origin is the cannon tip. -/
def fire (L : Libm K) (fuel : Nat) (s : Game K) : Option (Game K) :=
  let m1 := (s.gun 1).rotate
  let x1 := (s.gun 0).x + ((s.gun 1).x - (s.gun 0).x) * L.cos m1
  let y1 := (s.gun 1).y + ((s.gun 1).x - (s.gun 0).x) * L.sin m1
  (chain L s.mirror fuel x1 y1 m1).map (fun calls => calls.foldl (applyCall L) s)

/-! ## Bricks: `createRectangle`, `score`, `shoot` -/

/-- Spawn brick `i` (`createRectangle`): three calls to `rand()`, the running offset `y` grows. -/
def createRectangle (s : Game K) (i : Nat) : Game K :=
  let x : Int := (s.rnd s.rpos : Int) % 50 - 20
  let y : Int := s.y + (s.rnd (s.rpos + 1) : Int) % 20
  let c : Int := (s.rnd (s.rpos + 2) : Int) % 3
  { s with
    y := y
    rpos := s.rpos + 3
    boxes := Function.update s.boxes i
      { x1 := (x : K), x2 := (x : K) + 3 / 2, y1 := 42 + (y : K), y2 := 89 / 2 + (y : K),
        translation := 0, c := c, alive := true } }

/-- The two baskets as set by `createBasket`. -/
def createBasket (s : Game K) : Game K :=
  { s with
    bucket := fun j =>
      if j = 0 then { x1 := 21 / 2, x2 := 43 / 2, translate := 0, c := 2 }
      else if j = 1 then { x1 := -(43 / 2), x2 := -(21 / 2), translate := 0, c := 1 }
      else s.bucket j }

/-- The catch test of `score` for a brick and a basket. -/
def caught (b : rect K) (r : receptacle K) : Prop :=
  b.x1 ≥ r.x1 ∧ b.x2 ≤ r.x2 ∧ b.y2 ≤ -36

instance (b : rect K) (r : receptacle K) : Decidable (caught b r) := by
  unfold caught; infer_instance

/-- Body of the inner loop of `score` for brick `i` and basket `j`. -/
def scorePair (s : Game K) (i j : Nat) : Game K :=
  if caught (s.boxes i) (s.bucket j) then
    if (s.bucket j).c = (s.boxes i).c then
      { s with
        points := s.points + 10
        out := s.out ++ ["Nice catch, you earned 10 points", "Score = " ++ toString (s.points + 10)] }
    else if (s.boxes i).c = 0 then
      { s with
        gameover := true
        out := s.out ++ ["You caught the black brick!", "GAMEOVER"] }
    else
      { s with
        points := s.points - 5
        out := s.out ++ ["Oops, wrong basket, you lose 5 points", "Score = " ++ toString (s.points - 5)] }
  else s

/-- The function `score`: bricks 0..14, for each brick baskets 0..1. -/
def score (s : Game K) : Game K :=
  (List.range 15).foldl (fun s i => (List.range 2).foldl (fun s j => scorePair s i j) s) s

/-- Locals `x2`, `y2`, `min` of `shoot`; `min = -1` is `none`. -/
structure Scan (K : Type) where
  x2 : K
  y2 : K
  min : Option Nat

/-- The edge test of `shoot`: `y1 <= y && y2 >= y && y1 < 40 && y2 > -36` with `y = m*x + c`. -/
def qualifies (m c : K) (b : rect K) (x : K) : Prop :=
  b.y1 ≤ m * x + c ∧ b.y2 ≥ m * x + c ∧ b.y1 < 40 ∧ b.y2 > -36

instance (m c : K) (b : rect K) (x : K) : Decidable (qualifies m c b x) := by
  unfold qualifies; infer_instance

/-- One edge `x` of brick `j` in the scan of `shoot`. -/
def scanEdge (m c : K) (b : rect K) (x : K) (j : Nat) (a : Scan K) : Scan K :=
  if qualifies m c b x then
    if x < a.x2 then { x2 := x, y2 := m * x + c, min := some j } else a
  else a

/-- Body of the loop of `shoot` for brick `j`: edge `x1`, then edge `x2`. -/
def scanBrick (m c : K) (boxes : Nat → rect K) (a : Scan K) (j : Nat) : Scan K :=
  scanEdge m c (boxes j) (boxes j).x2 j (scanEdge m c (boxes j) (boxes j).x1 j a)

/-- The loop `for (j=0;j<15;j++)` of `shoot(i)`. -/
def shootScan (L : Libm K) (s : Game K) (i : Nat) : Scan K :=
  (List.range 15).foldl (scanBrick (L.tan (s.bullet i).m) (s.bullet i).c s.boxes)
    { x2 := (s.bullet i).x2, y2 := (s.bullet i).y2, min := none }

/-- The lines printed after a hit once `hit_count` has been updated. -/
def hitWarning (hit_count : Int) : List String :=
  if hit_count ≥ 500 then
    ["This was your 500th hit. Remember next time that you have only limited lasers.", "GAMEOVER"]
  else if hit_count ≥ 400 then
    ["Use your lasers wisely. You have only " ++ toString hit_count ++ " remaining"]
  else []

/-- The scoring branch of `shoot` for the selected brick `min`. -/
def shootScore (s : Game K) (min : Nat) : Game K :=
  if (s.boxes min).c > 0 then
    { s with
      hit_count := s.hit_count + 1
      points := s.points + 10
      gameover := if s.hit_count + 1 ≥ 500 then true else s.gameover
      out := s.out ++ ["Nice shot, you earned 10 points", "Score = " ++ toString (s.points + 10)]
        ++ hitWarning (s.hit_count + 1) }
  else if (s.boxes min).c = 0 then
    { s with
      hit_count := s.hit_count + 5
      points := s.points - 5
      gameover := if s.hit_count + 5 ≥ 500 then true else s.gameover
      out := s.out ++ ["Whoops you shot a black brick, you lose 5 points and 5 lasers",
                       "Score = " ++ toString (s.points - 5)]
        ++ hitWarning (s.hit_count + 5) }
  else s

/-- The function `shoot(i)`. -/
def shoot (L : Libm K) (s : Game K) (i : Nat) : Game K :=
  let a := shootScan L s i
  match a.min with
  | none => s
  | some min =>
    let s1 := shootScore s min
    let s2 := createLaser L s1 (s1.bullet i).x1 (s1.bullet i).y1 a.x2 a.y2
                (s1.bullet i).m (s1.bullet i).c i
    let s3 := { s2 with laser := fun k => if i + 1 ≤ k ∧ k < 10 then false else s2.laser k }
    createRectangle s3 min

/-! ## Speed, frame loop and final summary -/

/-- The function `block_speed`. -/
def block_speed (k : Keys) (s : Game K) : Game K :=
  let s1 := if k.n then
      { s with speed := if s.speed + 1 / 10 > 1 / 2 then 1 / 2 else s.speed + 1 / 10 }
    else s
  if k.m then
    { s1 with speed := if s1.speed - 1 / 10 < 1 / 10 then 1 / 10 else s1.speed - 1 / 10 }
  else s1

/-- The message chosen by the chain of `if`/`else if` after the frame loop; `none` if no branch fires. -/
def finalMessage (points : Int) : Option String :=
  if points ≤ 0 then some "Be more careful next time"
  else if points ≤ 100 ∧ points > 0 then some "Not bad, try harder next time"
  else if points ≤ 200 ∧ points > 100 then some "Well done. Good job"
  else if points ≤ 300 ∧ points > 200 then some "You\x27re a good player already"
  else if points ≤ 400 ∧ points > 300 then some "Great score! Cheers"
  else if points ≤ 500 ∧ points > 400 then some "Whohoho! Amazing game"
  else if points > 500 then some "You\x27re a legend!"
  else none

/-- The cannon as set by `createCannon` (`rotate` keeps its static zero). -/
def createCannon (s : Game K) : Game K :=
  { s with
    gun := fun j =>
      if j = 0 then { x := -39, y := 0, translate := 0, rotate := (s.gun 0).rotate }
      else if j = 1 then { x := -31, y := 0, translate := 0, rotate := (s.gun 1).rotate }
      else s.gun j }

/-- Shift basket `j` by `d`. -/
def moveBucket (s : Game K) (j : Nat) (d : K) : Game K :=
  { s with
    bucket := Function.update s.bucket j
      { s.bucket j with
        translate := (s.bucket j).translate + d
        x1 := (s.bucket j).x1 + d
        x2 := (s.bucket j).x2 + d } }

/-- The function `translateBaskets`. -/
def translateBaskets (k : Keys) (s : Game K) : Game K :=
  if k.left_control = true ∧ k.right = true ∧ k.right_released = false then moveBucket s 1 (1 / 2)
  else if k.left_control = true ∧ k.left = true ∧ k.left_released = false then
    moveBucket s 1 (-(1 / 2))
  else if k.left_alt = true ∧ k.right = true ∧ k.right_released = false then moveBucket s 0 (1 / 2)
  else if k.left_alt = true ∧ k.left = true ∧ k.left_released = false then
    moveBucket s 0 (-(1 / 2))
  else s

/-- Shift both cannon parts vertically by `d`. -/
def moveGun (s : Game K) (d : K) : Game K :=
  { s with
    gun := fun j =>
      if j = 0 ∨ j = 1 then
        { s.gun j with translate := (s.gun j).translate + d, y := (s.gun j).y + d }
      else s.gun j }

/-- The function `translateCannon`. -/
def translateCannon (k : Keys) (s : Game K) : Game K :=
  if k.s = true ∧ k.s_released = false then moveGun s (1 / 2)
  else if k.f = true ∧ k.f_released = false then moveGun s (-(1 / 2))
  else s

/-- Turn both cannon parts by `d`. -/
def turnGun (s : Game K) (d : K) : Game K :=
  { s with
    gun := fun j =>
      if j = 0 ∨ j = 1 then { s.gun j with rotate := (s.gun j).rotate + d } else s.gun j }

/-- The function `rotateCannon`. -/
def rotateCannon (k : Keys) (s : Game K) : Game K :=
  if k.a = true ∧ k.a_released = false then turnGun s (1 / 100)
  else if k.d = true ∧ k.d_released = false then turnGun s (-(1 / 100))
  else s

/-- Body of the respawn loop of `main` for brick `i` (`count` is the local of `main`). -/
def respawnStep (s : Game K) (i : Nat) : Game K :=
  if (s.boxes i).y2 < -36 ∧ (s.boxes i).alive = true then
    let s1 := { s with
      count := s.count + 1
      boxes := Function.update s.boxes i { s.boxes i with alive := false } }
    let s2 := createRectangle s1 i
    if s2.count = 15 then { s2 with y := 0, count := 0 } else s2
  else s

/-- The respawn loop of `main`. -/
def respawn (s : Game K) : Game K :=
  (List.range 15).foldl respawnStep s

/-- The brick fall step at the start of `draw`. -/
def fallStep (s : Game K) : Game K :=
  { s with
    boxes := fun i =>
      if i < 15 then
        { s.boxes i with
          y1 := (s.boxes i).y1 - s.speed
          y2 := (s.boxes i).y2 - s.speed
          translation := (s.boxes i).translation - s.speed }
      else s.boxes i }

/-- The laser resolution loop of `draw` over the listed indices; an empty slot is the `break`. -/
def laserLoop (L : Libm K) : List Nat → Game K → Game K
  | [], s => s
  | i :: rest, s => if s.laser i = true then laserLoop L rest (shoot L s i) else s

/-- The loop `for (int i=0;i<10;i++)` run while the laser is active. -/
def resolveLasers (L : Libm K) (s : Game K) : Game K :=
  laserLoop L (List.range 10) s

/-- The loop that clears `laser[0..9]` once the laser has expired. -/
def clearLasers (s : Game K) : Game K :=
  { s with laser := fun i => if i < 10 then false else s.laser i }

/-- The game logic of `draw`; `t1` and `t2` are its two readings of `glfwGetTime()`. -/
def draw (L : Libm K) (fuel : Nat) (k : Keys) (t1 t2 : K) (s : Game K) : Option (Game K) :=
  let s1 := fallStep s
  let fired : Option (Game K) :=
    if t1 - s1.last_update_time ≥ 1 then
      (if k.space = true then fire L fuel s1 else some s1).map
        (fun g => { g with last_update_time := t1 })
    else some s1
  fired.map (fun s2 =>
    if t2 - s2.last_update_time < 1 / 5 then resolveLasers L s2 else clearLasers s2)

/-- One iteration of the frame loop of `main` with the mouse untouched
(`zoom` and `pan` only move the camera). -/
def frame (L : Libm K) (fuel : Nat) (k : Keys) (t1 t2 : K) (s : Game K) : Option (Game K) :=
  draw L fuel k t1 t2
    (block_speed k (respawn (rotateCannon k (translateCannon k (score (translateBaskets k s))))))

/-! ## Initial state and a rational table of the math library -/

/-- The globals before `main` runs: static zero initialisation, the explicit initialisers
(`speed = 0.1`), `rand()` returning the sequence `rnd`, and `t0` the clock reading stored in
`last_update_time`. -/
def zeroGame (rnd : Nat → Nat) (t0 : K) : Game K :=
  { points := 0, gameover := false, hit_count := 0, speed := 1 / 10,
    boxes := fun _ => { x1 := 0, x2 := 0, y1 := 0, y2 := 0, translation := 0, c := 0, alive := false },
    bucket := fun _ => { x1 := 0, x2 := 0, translate := 0, c := 0 },
    gun := fun _ => { x := 0, y := 0, translate := 0, rotate := 0 },
    mirror := fun _ => { x1 := 0, x2 := 0, y1 := 0, y2 := 0, m := 0, c := 0 },
    bullet := fun _ => { x1 := 0, x2 := 0, y1 := 0, y2 := 0, m := 0, c := 0 },
    laser := fun _ => false,
    y := 0, rnd := rnd, rpos := 0, out := [], count := 0, last_update_time := t0 }

/-- The object creation of `initGL`: cannon, baskets, bricks 0..14, mirrors. -/
def initGL (L : Libm K) (s : Game K) : Game K :=
  createMirrors L ((List.range 15).foldl createRectangle (createBasket (createCannon s)))

/-- Rational table of the math library, to four decimals, at the angles of the worked examples
(with `M_PI` as 3.1416); at any other argument the first-order values at 0
(`tan x = x`, `sin x = x`, `cos x = 1`), which are exact at angle 0. -/
def tableLibm : Libm ℚ where
  pi := 3927 / 1250
  sqrt := fun x => if x = 3 then 17321 / 10000 else x
  tan := fun x =>
    if x = -(11 / 25) then -(4708 / 10000)
    else if x = 1309 / 1250 then 17321 / 10000
    else if x = 1309 / 2500 then 5774 / 10000
    else if x = 11781 / 5000 then -1
    else if x = 1309 / 625 then -(17320 / 10000)
    else if x = 1584 / 625 then -(6947 / 10000)
    else if x = -(1859 / 1250) then -(119344 / 10000)
    else x
  sin := fun x =>
    if x = -(11 / 25) then -(4259 / 10000)
    else if x = 1309 / 625 then 8660 / 10000
    else if x = -(1859 / 1250) then -(9965 / 10000)
    else x
  cos := fun x =>
    if x = -(11 / 25) then 9048 / 10000
    else if x = 1309 / 625 then -(5000 / 10000)
    else if x = -(1859 / 1250) then 835 / 10000
    else 1

/-- Key state with nothing pressed. -/
def noKeys : Keys :=
  { left_control := false, left_alt := false, right := false, right_released := false,
    left := false, left_released := false, s := false, s_released := false,
    f := false, f_released := false, a := false, a_released := false,
    d := false, d_released := false, n := false, m := false, space := false }

/-! ## Concrete states used to evaluate the definitions -/

/-- A brick above the visible field, as spawned when `rand()` returns 0. -/
def farBrick : rect ℚ :=
  { x1 := -20, x2 := -(37 / 2), y1 := 42, y2 := 89 / 2, translation := 0, c := 0, alive := true }

/-- Baskets as created, a red brick (colour 1) at abscissa `x` just below the catch line
(`y2 = -36.1`), every other brick above the field. -/
def catchGame (x : ℚ) : Game ℚ :=
  { createBasket (zeroGame (fun _ => 0) 0) with
    boxes := fun k =>
      if k = 0 then
        { x1 := x, x2 := x + 3 / 2, y1 := -(386 / 10), y2 := -(361 / 10),
          translation := -(806 / 10), c := 1, alive := true }
      else farBrick }

/-- The game as initialised (cannon at `y = 0`, angle 0, speed 0.1) with brick 0 at `x = 0`,
one fall step above the span `[-1, 1.5]`, and every other brick above the field. -/
def originGame : Game ℚ :=
  { createMirrors tableLibm (createBasket (createCannon (zeroGame (fun _ => 0) 0))) with
    boxes := fun k =>
      if k = 0 then
        { x1 := 0, x2 := 3 / 2, y1 := -(9 / 10), y2 := 16 / 10, translation := -(429 / 10),
          c := 1, alive := true }
      else farBrick }

/-- The state `originGame` inside the first frame, after the fall step and the firing block:
leg 0 runs along `y = 0` from the tip `(-31,0)` to mirror 1 at `x = 2679/17321`, leg 1 is the
reflected unbounded leg. -/
def originFired : Game ℚ :=
  { createLaser tableLibm
      (createLaser tableLibm (fallStep originGame) (-31) 0 (2679 / 17321) 0 0 0 0)
      (2679 / 17321) 0 0 0 (1309 / 625) (1160007 / 4330250) 1 with
    last_update_time := 1 }

/-- Key state with only `S` pressed (cannon up). -/
def sKey : Keys :=
  { noKeys with s := true }

/-- Key state with only `D` pressed (cannon turned clockwise). -/
def dKey : Keys :=
  { noKeys with d := true }

/-- Key state with only the space bar pressed. -/
def spaceKey : Keys :=
  { noKeys with space := true }

/-- Cannon lowered to `y = -10` at angle 0 (its ray `y = -10` misses every mirror), speed 0.3,
brick 0 at `x = 5` spanning the ray after one fall step, brick 1 at `x = -15` spanning it
only after two. -/
def twoHitGame : Game ℚ :=
  { moveGun (createMirrors tableLibm (createBasket (createCannon (zeroGame (fun _ => 0) 0))))
      (-10) with
    speed := 3 / 10
    boxes := fun k =>
      if k = 0 then
        { x1 := 5, x2 := 13 / 2, y1 := -(109 / 10), y2 := -(84 / 10),
          translation := -(529 / 10), c := 1, alive := true }
      else if k = 1 then
        { x1 := -15, x2 := -(27 / 2), y1 := -(95 / 10), y2 := -7,
          translation := -(515 / 10), c := 2, alive := true }
      else farBrick }

/-- The state `twoHitGame` after the fall step and the firing block of the first frame. -/
def twoHitFired : Game ℚ :=
  { createLaser tableLibm (fallStep twoHitGame) (-31) (-10) 0 0 0 (-10) 0 with
    last_update_time := 1 }

/-- The state `twoHitGame` after the first frame: brick 0 has been hit. -/
def twoHitAfter1 : Game ℚ :=
  shoot tableLibm twoHitFired 0

/-! ## Definitions for the loop invariants and further worked examples -/

/-- The locals of the firing block after `n` evaluations of `while (flag == 0)`: a pass is run
only while the flag is clear. -/
def chainRun (L : Libm K) (mirror : Nat → reflectors K) : Nat → Locals K → Locals K
  | 0, st => st
  | n + 1, st => if st.flag = 0 then chainRun L mirror n (chainPass L mirror st) else st

/-- Number of entries of `check[0..2]` that are set. -/
def consumed (st : Locals K) : Nat :=
  (if st.check 0 = true then 1 else 0) + (if st.check 1 = true then 1 else 0)
    + (if st.check 2 = true then 1 else 0)


/-- The table `tableLibm` extended by the values (to four decimals) at the angles `-0.05`,
`3*M_PI/2 + 0.05` and `M_PI/4`. -/
def tableLibm2 : Libm ℚ where
  pi := tableLibm.pi
  sqrt := tableLibm.sqrt
  tan := fun x =>
    if x = -(1 / 20) then -(500 / 10000)
    else if x = 5953 / 1250 then -(199789 / 10000)
    else if x = 3927 / 5000 then 1
    else tableLibm.tan x
  sin := fun x =>
    if x = -(1 / 20) then -(500 / 10000)
    else if x = 5953 / 1250 then -(9987 / 10000)
    else if x = 3927 / 5000 then 7071 / 10000
    else tableLibm.sin x
  cos := fun x =>
    if x = -(1 / 20) then 9988 / 10000
    else if x = 5953 / 1250 then 500 / 10000
    else if x = 3927 / 5000 then 7071 / 10000
    else tableLibm.cos x

/-- The game as initialised, after 61 frames with `S` pressed and 5 frames with `D` pressed:
the cannon is at `y = 30.5`, turned by `-0.05`. -/
def highGame : Game ℚ :=
  (rotateCannon dKey)^[5] ((translateCannon sKey)^[61]
    (initGL tableLibm2 (zeroGame (fun _ => 0) 0)))

/-- Cannon raised to `y = 30.5` and turned by `-0.05` (as in `highGame`), speed 0.1, brick 0
at `x = 28` (`rand() % 50 = 48`) spanning `y` in `[35, 37.5]` after one fall step, every other
brick above the field. -/
def behindGame : Game ℚ :=
  { turnGun (moveGun (createMirrors tableLibm2
      (createBasket (createCannon (zeroGame (fun _ => 0) 0)))) (61 / 2)) (-(1 / 20)) with
    boxes := fun k =>
      if k = 0 then
        { x1 := 28, x2 := 59 / 2, y1 := 351 / 10, y2 := 376 / 10, translation := -(69 / 10),
          c := 1, alive := true }
      else farBrick }

/-- The state `behindGame` inside the first frame, after the fall step and the firing block:
leg 0 runs from the tip `(-31.0096, 30.1)` to mirror 3 at `(29.9479, 27.0521)`, leg 1 is the
reflected unbounded leg at angle `4.7624`, stored with the far point `(34.9479, -72.8179)`. -/
def behindFired : Game ℚ :=
  { createLaser tableLibm2
      (createLaser tableLibm2 (fallStep behindGame) (-(19381 / 625)) (301 / 10)
        (355631 / 11875) (321244 / 11875) (-(1 / 20)) (356869 / 12500) 0)
      (355631 / 11875) (321244 / 11875) 0 0 (5953 / 1250) (74263601859 / 118750000) 1 with
    last_update_time := 1 }

/-- The frame loop of `main`, `while (!glfwWindowShouldClose(window) && !gameover)`, run on
the listed frames (keys held and the two clock readings of each frame); the end of the list
is the closing of the window. -/
def mainLoop (L : Libm K) (fuel : Nat) : List (Keys × K × K) → Game K → Option (Game K)
  | [], s => some s
  | (k, t1, t2) :: rest, s =>
    if s.gameover = true then some s
    else (frame L fuel k t1 t2 s).bind (mainLoop L fuel rest)

/-- Brick `k` of `t` is a freshly spawned brick no lower than its spawn height less `d`. -/
def fresh (d : K) (t : Game K) (k : Nat) : Prop :=
  (t.boxes k).alive = true ∧ 89 / 2 - d ≤ (t.boxes k).y2

/-- State `t` keeps the speed of `s`, has a nonnegative spawn offset `y`, and each of its
bricks is the brick of `s` or a freshly spawned one. -/
def spawnedFrom (s t : Game K) : Prop :=
  t.speed = s.speed ∧ 0 ≤ t.y ∧ ∀ k, t.boxes k = s.boxes k ∨ fresh 0 t k

/-- The field invariant at the start of a tick: bricks 0..14 are alive and no lower than
`-36.5`, the speed is within `[0.1, 0.5]` and the spawn offset `y` is nonnegative. -/
def fieldInv (s : Game K) : Prop :=
  (∀ i, i < 15 → (s.boxes i).alive = true ∧ -36 - 1 / 2 ≤ (s.boxes i).y2) ∧
  0 ≤ s.y ∧ 1 / 10 ≤ s.speed ∧ s.speed ≤ 1 / 2

/-! ## Definitions for the origin of leg 0 -/

/-- The part of one iteration of the frame loop that precedes `draw`. -/
def preDraw (k : Keys) (s : Game K) : Game K :=
  block_speed k (respawn (rotateCannon k (translateCannon k (score (translateBaskets k s)))))

/-- The state of `draw` after the fall step and the firing block: the state on which the laser
loops of `draw` run, and on which `shoot(0)` is called when `laser[0]` is set. -/
def drawFired (L : Libm K) (fuel : Nat) (k : Keys) (t1 : K) (s : Game K) : Option (Game K) :=
  let s1 := fallStep s
  if t1 - s1.last_update_time ≥ 1 then
    (if k.space = true then fire L fuel s1 else some s1).map
      (fun g => { g with last_update_time := t1 })
  else some s1

/-- Bricks 0..14 have their left edge at `x1 >= -20` and `x1 <= x2`, the cannon parts are at
`x = -39` and `x = -31`, and leg 0, when active, starts at `x <= -31`. -/
def cannonLeg (s : Game K) : Prop :=
  (∀ k, k < 15 → -20 ≤ (s.boxes k).x1 ∧ (s.boxes k).x1 ≤ (s.boxes k).x2) ∧
  (s.gun 0).x = -39 ∧ (s.gun 1).x = -31 ∧
  (s.laser 0 = true → (s.bullet 0).x1 ≤ -31)

/-! # Theorems -/

/-! ## The reflection chain -/

/-- Acceptance by a mirror, spelled out: the slopes differ and the intersection abscissa lies strictly inside the span. -/
theorem hits_iff (L : Libm K) (r : reflectors K) (x y m : K) :
    hits L r x y m = true ↔
      L.tan m ≠ L.tan r.m ∧ r.x1 < meetX L r x y m ∧ meetX L r x y m < r.x2 := by
  unfold hits hitX fdiv meetX rayC
  by_cases h : L.tan m - L.tan r.m = 0
  · have : L.tan m = L.tan r.m := sub_eq_zero.mp h
    simp [h, inSpan, this]
  · have : L.tan m ≠ L.tan r.m := fun e => h (sub_eq_zero.mpr e)
    simp [h, inSpan, this]

/-- For an accepted ray the float quotient is the finite intersection abscissa. -/
theorem hitX_of_hits (L : Libm K) (r : reflectors K) (x y m : K) (h : hits L r x y m = true) :
    hitX L r x y m = some (meetX L r x y m) := by
  have h1 := (hits_iff L r x y m).mp h
  have : L.tan m - L.tan r.m ≠ 0 := sub_ne_zero.mpr h1.1
  simp [hitX, fdiv, this, meetX, rayC]

/-- Mirror 0 accepts, the reflected ray is refused by mirror 1: exactly two calls to `createLaser`. -/
theorem chain_hit0_miss1 (L : Libm K) (mirror : Nat → reflectors K) (x1 y1 a : K)
    (h0 : hits L (mirror 0) x1 y1 a = true)
    (h1 : hits L (mirror 1) (meetX L (mirror 0) x1 y1 a) (meetY L (mirror 0) x1 y1 a)
            (2 * (mirror 0).m - a) = false) (n : Nat) :
    chain L mirror (n + 2) x1 y1 a =
      some [⟨x1, y1, meetX L (mirror 0) x1 y1 a, meetY L (mirror 0) x1 y1 a, a, rayC L x1 y1 a, 0⟩,
            ⟨meetX L (mirror 0) x1 y1 a, meetY L (mirror 0) x1 y1 a, 0, 0, 2 * (mirror 0).m - a,
              rayC L (meetX L (mirror 0) x1 y1 a) (meetY L (mirror 0) x1 y1 a)
                (2 * (mirror 0).m - a), 1⟩] := by
  have e0 := hitX_of_hits L _ _ _ _ h0
  have h0' : inSpan (mirror 0) (hitX L (mirror 0) x1 y1 a) = true := h0
  rw [e0] at h0'
  unfold hits at h1
  simp [chain, chainLoop, chainPass, forMirrors, chainInit, e0, h0', meetY, rayC] at h1 ⊢
  simp [h1]

/-- The intersection with a mirror whose line misses the origin is not `(0,0)`, the sentinel of `createLaser`. -/
theorem meet_ne_origin (L : Libm K) (r : reflectors K) (x y m : K)
    (h : hits L r x y m = true) (hc : r.c ≠ 0) :
    ¬ (meetX L r x y m = 0 ∧ meetY L r x y m = 0) := by
  rintro ⟨hx, hy⟩
  have h1 := (hits_iff L r x y m).mp h
  have hd : L.tan m - L.tan r.m ≠ 0 := sub_ne_zero.mpr h1.1
  have hy' : rayC L x y m = 0 := by simpa [meetY, hx] using hy
  have hx' : r.c - rayC L x y m = 0 := by
    unfold meetX at hx
    rcases div_eq_zero_iff.mp hx with h2 | h2
    · exact h2
    · exact absurd h2 hd
  apply hc
  rw [hy'] at hx'
  simpa using hx'

/-- No mirror accepts: exactly one call to `createLaser`, with the sentinel endpoint. -/
theorem chain_miss_all (L : Libm K) (mirror : Nat → reflectors K) (x1 y1 a : K)
    (h0 : hits L (mirror 0) x1 y1 a = false)
    (h1 : hits L (mirror 1) x1 y1 a = false)
    (h2 : hits L (mirror 2) x1 y1 a = false) (n : Nat) :
    chain L mirror (n + 2) x1 y1 a = some [⟨x1, y1, 0, 0, a, rayC L x1 y1 a, 0⟩] := by
  unfold hits at h0 h1 h2
  simp [chain, chainLoop, chainPass, forMirrors, chainInit, h0, h1, h2, rayC]

/-- With a bounce made and all three mirrors consumed, a pass of the loop body changes nothing. -/
theorem chainPass_consumed (L : Libm K) (mirror : Nat → reflectors K) (st : Locals K)
    (hc : 0 < st.count) (c0 : st.check 0 = true) (c1 : st.check 1 = true)
    (c2 : st.check 2 = true) : chainPass L mirror st = st := by
  have : st.count ≠ 0 := Nat.pos_iff_ne_zero.mp hc
  simp [chainPass, forMirrors, c0, c1, c2, this]

/-- From such a state the loop never exits, whatever the fuel. -/
theorem chainLoop_consumed (L : Libm K) (mirror : Nat → reflectors K) (st : Locals K)
    (hf : st.flag = 0) (hc : 0 < st.count) (c0 : st.check 0 = true) (c1 : st.check 1 = true)
    (c2 : st.check 2 = true) (fuel : Nat) : chainLoop L mirror fuel st = none := by
  induction fuel with
  | zero => rfl
  | succ n ih => simp [chainLoop, hf, chainPass_consumed L mirror st hc c0 c1 c2, ih]

/-- Three acceptances in index order consume all mirrors in the first pass; the loop then never exits. -/
theorem chain_three_bounces (L : Libm K) (mirror : Nat → reflectors K) (x1 y1 a : K)
    (h0 : hits L (mirror 0) x1 y1 a = true)
    (h1 : hits L (mirror 1) (meetX L (mirror 0) x1 y1 a) (meetY L (mirror 0) x1 y1 a)
            (2 * (mirror 0).m - a) = true)
    (h2 : hits L (mirror 2)
            (meetX L (mirror 1) (meetX L (mirror 0) x1 y1 a) (meetY L (mirror 0) x1 y1 a)
              (2 * (mirror 0).m - a))
            (meetY L (mirror 1) (meetX L (mirror 0) x1 y1 a) (meetY L (mirror 0) x1 y1 a)
              (2 * (mirror 0).m - a))
            (2 * (mirror 1).m - (2 * (mirror 0).m - a)) = true)
    (fuel : Nat) : chain L mirror fuel x1 y1 a = none := by
  cases fuel with
  | zero => rfl
  | succ n =>
    have e0 := hitX_of_hits L _ _ _ _ h0
    have e1 := hitX_of_hits L _ _ _ _ h1
    have e2 := hitX_of_hits L _ _ _ _ h2
    have i0 : inSpan (mirror 0) (some (meetX L (mirror 0) x1 y1 a)) = true := by
      rw [← e0]; exact h0
    have i1 := h1
    have i2 := h2
    unfold hits at i1 i2
    rw [e1] at i1
    rw [e2] at i2
    simp only [meetY, rayC] at e1 e2 i1 i2
    have hst : chainLoop L mirror n (chainPass L mirror (chainInit x1 y1 a)) = none := by
      apply chainLoop_consumed <;>
        simp [chainPass, forMirrors, chainInit, e0, i0, e1, i1, e2, i2, meetY, rayC]
    have hl : chainLoop L mirror (n + 1) (chainInit x1 y1 a) = none := by
      rw [chainLoop, if_pos (show (chainInit x1 y1 a).flag = 0 from rfl)]
      exact hst
    simp [chain, hl]

/-- The chain reads only `mirror[0..2]`. -/
theorem chain_congr (L : Libm K) (m m' : Nat → reflectors K)
    (h0 : m 0 = m' 0) (h1 : m 1 = m' 1) (h2 : m 2 = m' 2) (fuel : Nat) (x1 y1 a : K) :
    chain L m fuel x1 y1 a = chain L m' fuel x1 y1 a := by
  have hp : ∀ st, chainPass L m st = chainPass L m' st := by
    intro st
    simp [chainPass, forMirrors, h0, h1, h2]
  have hl : ∀ st, chainLoop L m fuel st = chainLoop L m' fuel st := by
    induction fuel with
    | zero => intro st; rfl
    | succ n ih => intro st; simp [chainLoop, hp, ih]
  simp [chain, hl]

theorem createRectangle_gun (s : Game K) (i : Nat) : (createRectangle s i).gun = s.gun := rfl

theorem foldl_createRectangle_gun (l : List Nat) (s : Game K) :
    (l.foldl createRectangle s).gun = s.gun := by
  induction l generalizing s with
  | nil => rfl
  | cons i l ih => simp [List.foldl, ih, createRectangle_gun]

/-- After `initGL` the mirrors are those of `createMirrors`. -/
theorem initGL_mirror (L : Libm K) (s : Game K) (i : Nat) (h : i < 3) :
    (initGL L s).mirror i = mirrorInit L i := by
  simp [initGL, createMirrors, h]

/-- After `initGL` the cannon is that of `createCannon`. -/
theorem initGL_gun (L : Libm K) (s : Game K) :
    (initGL L s).gun = (createCannon s).gun := by
  simp [initGL, createMirrors, foldl_createRectangle_gun, createBasket]

/-- First intersection of the ray fired from the cannon at `y = 17`, angle `-0.44`. -/
theorem table_hit0 :
    meetX tableLibm (mirrorInit tableLibm 0) (-(19851 / 625)) (16991 / 1250) (-(11 / 25))
      = -(6829133 / 13768125) ∧
    meetY tableLibm (mirrorInit tableLibm 0) (-(19851 / 625)) (16991 / 1250) (-(11 / 25))
      = -(9698263723 / 8605078125) := by
  norm_num [meetX, meetY, rayC, mirrorInit, tableLibm]

/-- Second intersection of that ray, on mirror 2. -/
theorem table_hit1 :
    meetX tableLibm (mirrorInit tableLibm 1) (-(6829133 / 13768125)) (-(9698263723 / 8605078125))
      (1584 / 625) = 5465337348481 / 175144318125 ∧
    meetY tableLibm (mirrorInit tableLibm 1) (-(6829133 / 13768125)) (-(9698263723 / 8605078125))
      (1584 / 625) = -(20272576940512853 / 875721590625000) := by
  norm_num [meetX, meetY, rayC, mirrorInit, tableLibm]

/-- The chain fired from the tip `(-31.7616, 13.5928)` at angle `-0.44` never returns. -/
theorem chain_table_hangs (fuel : Nat) :
    chain tableLibm (mirrorInit tableLibm) fuel (-(19851 / 625)) (16991 / 1250) (-(11 / 25)) = none := by
  have a1 : 2 * (mirrorInit tableLibm 0).m - (-(11 / 25)) = (1584 / 625 : ℚ) := by
    norm_num [mirrorInit, tableLibm]
  have a2 : 2 * (mirrorInit tableLibm 1).m - (1584 / 625) = (-(1859 / 1250) : ℚ) := by
    norm_num [mirrorInit, tableLibm]
  apply chain_three_bounces
  · norm_num [hits, inSpan, hitX, fdiv, mirrorInit, tableLibm]
  · rw [table_hit0.1, table_hit0.2, a1]
    norm_num [hits, inSpan, hitX, fdiv, mirrorInit, tableLibm]
  · rw [table_hit0.1, table_hit0.2, a1, table_hit1.1, table_hit1.2, a2]
    norm_num [hits, inSpan, hitX, fdiv, mirrorInit, tableLibm]

/-- The firing block never returns from a state with the cannon at `y = 17`, angle `-0.44`. -/
theorem fire_diverges_at (s : Game ℚ) (hm0 : s.mirror 0 = mirrorInit tableLibm 0)
    (hm1 : s.mirror 1 = mirrorInit tableLibm 1) (hm2 : s.mirror 2 = mirrorInit tableLibm 2)
    (hg0 : (s.gun 0).x = -39) (hg1 : (s.gun 1).x = -31) (hy : (s.gun 1).y = 17)
    (hr : (s.gun 1).rotate = -(11 / 25)) (fuel : Nat) : fire tableLibm fuel s = none := by
  have hc := chain_congr tableLibm s.mirror (mirrorInit tableLibm) hm0 hm1 hm2 fuel
    (-(19851 / 625)) (16991 / 1250) (-(11 / 25))
  have hcos : tableLibm.cos (-(11 / 25)) = 9048 / 10000 := by norm_num [tableLibm]
  have hsin : tableLibm.sin (-(11 / 25)) = -(4259 / 10000) := by norm_num [tableLibm]
  simp only [fire]
  rw [hr, hg0, hg1, hy, hcos, hsin]
  have e1 : (-39 + (-31 - -39) * (9048 / 10000) : ℚ) = -(19851 / 625) := by norm_num
  have e2 : (17 + (-31 - -39) * -(4259 / 10000) : ℚ) = 16991 / 1250 := by norm_num
  rw [e1, e2, hc, chain_table_hangs]
  rfl

/-- The firing block when no mirror accepts: one call of `createLaser` from the cannon tip. -/
theorem fire_of_miss_all (L : Libm K) (s : Game K) (n : Nat)
    (h0 : hits L (s.mirror 0) ((s.gun 0).x + ((s.gun 1).x - (s.gun 0).x) * L.cos (s.gun 1).rotate)
            ((s.gun 1).y + ((s.gun 1).x - (s.gun 0).x) * L.sin (s.gun 1).rotate)
            (s.gun 1).rotate = false)
    (h1 : hits L (s.mirror 1) ((s.gun 0).x + ((s.gun 1).x - (s.gun 0).x) * L.cos (s.gun 1).rotate)
            ((s.gun 1).y + ((s.gun 1).x - (s.gun 0).x) * L.sin (s.gun 1).rotate)
            (s.gun 1).rotate = false)
    (h2 : hits L (s.mirror 2) ((s.gun 0).x + ((s.gun 1).x - (s.gun 0).x) * L.cos (s.gun 1).rotate)
            ((s.gun 1).y + ((s.gun 1).x - (s.gun 0).x) * L.sin (s.gun 1).rotate)
            (s.gun 1).rotate = false) :
    fire L (n + 2) s =
      some (createLaser L s ((s.gun 0).x + ((s.gun 1).x - (s.gun 0).x) * L.cos (s.gun 1).rotate)
        ((s.gun 1).y + ((s.gun 1).x - (s.gun 0).x) * L.sin (s.gun 1).rotate) 0 0
        (s.gun 1).rotate
        (rayC L ((s.gun 0).x + ((s.gun 1).x - (s.gun 0).x) * L.cos (s.gun 1).rotate)
          ((s.gun 1).y + ((s.gun 1).x - (s.gun 0).x) * L.sin (s.gun 1).rotate)
          (s.gun 1).rotate) 0) := by
  simp only [fire]
  rw [chain_miss_all L s.mirror _ _ _ h0 h1 h2 n]
  rfl

/-- The firing block when mirror 0 accepts the ray from the cannon tip `(x1,y1)` at angle `a`
and mirror 1 refuses the reflected ray: two calls of `createLaser`. -/
theorem fire_of_hit0_miss1 (L : Libm K) (s : Game K) (n : Nat) (x1 y1 a : K)
    (hx : (s.gun 0).x + ((s.gun 1).x - (s.gun 0).x) * L.cos (s.gun 1).rotate = x1)
    (hy : (s.gun 1).y + ((s.gun 1).x - (s.gun 0).x) * L.sin (s.gun 1).rotate = y1)
    (ha : (s.gun 1).rotate = a)
    (h0 : hits L (s.mirror 0) x1 y1 a = true)
    (h1 : hits L (s.mirror 1) (meetX L (s.mirror 0) x1 y1 a) (meetY L (s.mirror 0) x1 y1 a)
            (2 * (s.mirror 0).m - a) = false) :
    fire L (n + 2) s =
      some (applyCall L
        (applyCall L s ⟨x1, y1, meetX L (s.mirror 0) x1 y1 a, meetY L (s.mirror 0) x1 y1 a, a,
          rayC L x1 y1 a, 0⟩)
        ⟨meetX L (s.mirror 0) x1 y1 a, meetY L (s.mirror 0) x1 y1 a, 0, 0,
          2 * (s.mirror 0).m - a,
          rayC L (meetX L (s.mirror 0) x1 y1 a) (meetY L (s.mirror 0) x1 y1 a)
            (2 * (s.mirror 0).m - a), 1⟩) := by
  subst hx hy ha
  simp only [fire]
  rw [chain_hit0_miss1 L s.mirror _ _ _ h0 h1 n]
  rfl

/-- C1: for every firing origin `(x1,y1)` and angle `a` whose ray line meets mirror 1
(`mirror[0]` as set by `createMirrors`) at an abscissa `X` strictly inside its span, and whose
reflection is refused by mirror 2, the reflection chain calls `createLaser` exactly twice: leg 0
from the firing point to the intersection `(X,Y)` on mirror 1 at angle `a`, and leg 1 from
`(X,Y)` at angle `a' = 2*mirror[0].m - a`; the stored legs `bullet[0]`, `bullet[1]` are these
(leg 1 unbounded, extended by 100).  Mirror 3 is never tested on this path, so no hypothesis
on it is needed.  `hlib` is the fact about the math library that `tan(M_PI/3)` is not 2, so
that the line of mirror 1 misses `(0,0)`, the sentinel endpoint of `createLaser`. -/
theorem fire_mirror1_two_segments (L : Libm K) (x1 y1 a X Y a' : K) (n : Nat) (s : Game K)
    (hlib : L.tan (L.pi / 3) ≠ 2)
    (h0 : hits L (mirrorInit L 0) x1 y1 a = true)
    (hX : X = meetX L (mirrorInit L 0) x1 y1 a)
    (hY : Y = meetY L (mirrorInit L 0) x1 y1 a)
    (ha : a' = 2 * (mirrorInit L 0).m - a)
    (h1 : hits L (mirrorInit L 1) X Y a' = false) :
    chain L (mirrorInit L) (n + 2) x1 y1 a =
      some [⟨x1, y1, X, Y, a, rayC L x1 y1 a, 0⟩, ⟨X, Y, 0, 0, a', rayC L X Y a', 1⟩] ∧
    ((mirrorInit L 0).x1 < X ∧ X < (mirrorInit L 0).x2 ∧
      Y = L.tan (mirrorInit L 0).m * X + (mirrorInit L 0).c) ∧
    (applyCall L (applyCall L s ⟨x1, y1, X, Y, a, rayC L x1 y1 a, 0⟩)
        ⟨X, Y, 0, 0, a', rayC L X Y a', 1⟩).bullet 0 =
      ⟨x1, X, y1, Y, a, rayC L x1 y1 a⟩ ∧
    (applyCall L (applyCall L s ⟨x1, y1, X, Y, a, rayC L x1 y1 a, 0⟩)
        ⟨X, Y, 0, 0, a', rayC L X Y a', 1⟩).bullet 1 =
      ⟨X, X + 100 * L.cos a', Y, Y + 100 * L.sin a', a', rayC L X Y a'⟩ := by
  subst hX hY ha
  have hc : (mirrorInit L 0).c ≠ 0 := by
    simp only [mirrorInit]
    intro h
    apply hlib
    linear_combination h
  have hne := meet_ne_origin L _ x1 y1 a h0 hc
  have hi := (hits_iff L _ x1 y1 a).mp h0
  refine ⟨chain_hit0_miss1 L _ x1 y1 a h0 h1 n, ⟨hi.2.1, hi.2.2, ?_⟩, ?_, ?_⟩
  · have hd : L.tan a - L.tan (mirrorInit L 0).m ≠ 0 := sub_ne_zero.mpr hi.1
    unfold meetY meetX
    field_simp
    ring
  · simp [applyCall, createLaser, hne]
  · simp [applyCall, createLaser]

/-- Witness for C1: the untouched cannon (tip `(-31,0)`, angle 0) with the tabulated math library. -/
theorem fire_mirror1_two_segments_witness :
    tableLibm.tan (tableLibm.pi / 3) ≠ 2 ∧
    hits tableLibm (mirrorInit tableLibm 0) (-31) 0 0 = true ∧
    hits tableLibm (mirrorInit tableLibm 1) (meetX tableLibm (mirrorInit tableLibm 0) (-31) 0 0)
      (meetY tableLibm (mirrorInit tableLibm 0) (-31) 0 0)
      (2 * (mirrorInit tableLibm 0).m - 0) = false ∧
    (chain tableLibm (mirrorInit tableLibm) 2 (-31) 0 0).map List.length = some 2 :=
  have hlib : tableLibm.tan (tableLibm.pi / 3) ≠ 2 := by norm_num [tableLibm]
  have h0 : hits tableLibm (mirrorInit tableLibm 0) (-31) 0 0 = true := by
    norm_num [hits, inSpan, hitX, fdiv, mirrorInit, tableLibm]
  have h1 : hits tableLibm (mirrorInit tableLibm 1)
      (meetX tableLibm (mirrorInit tableLibm 0) (-31) 0 0)
      (meetY tableLibm (mirrorInit tableLibm 0) (-31) 0 0)
      (2 * (mirrorInit tableLibm 0).m - 0) = false := by
    norm_num [hits, inSpan, hitX, fdiv, meetX, meetY, rayC, mirrorInit, tableLibm]
  ⟨hlib, h0, h1, by
    rw [(fire_mirror1_two_segments tableLibm (-31) 0 0 _ _ _ 0 (zeroGame (fun _ => 0) 0)
      hlib h0 rfl rfl rfl h1).1]
    rfl⟩

/-- C2: for every firing origin `(x1,y1)` and angle `a` for which none of the three mirrors
accepts the ray, the reflection chain calls `createLaser` exactly once, with index 0; the stored
leg starts at the firing point, has angle `a` and ends at `(x1 + 100*cos a, y1 + 100*sin a)`,
so its length is 100 as soon as `cos² a + sin² a = 1`. -/
theorem fire_no_mirror_one_segment (L : Libm K) (mirror : Nat → reflectors K) (x1 y1 a : K)
    (h0 : hits L (mirror 0) x1 y1 a = false)
    (h1 : hits L (mirror 1) x1 y1 a = false)
    (h2 : hits L (mirror 2) x1 y1 a = false) (n : Nat) (s : Game K) :
    chain L mirror (n + 2) x1 y1 a = some [⟨x1, y1, 0, 0, a, rayC L x1 y1 a, 0⟩] ∧
    (applyCall L s ⟨x1, y1, 0, 0, a, rayC L x1 y1 a, 0⟩).bullet 0 =
      ⟨x1, x1 + 100 * L.cos a, y1, y1 + 100 * L.sin a, a, rayC L x1 y1 a⟩ ∧
    (applyCall L s ⟨x1, y1, 0, 0, a, rayC L x1 y1 a, 0⟩).laser 0 = true ∧
    (L.cos a ^ 2 + L.sin a ^ 2 = 1 →
      ((x1 + 100 * L.cos a) - x1) ^ 2 + ((y1 + 100 * L.sin a) - y1) ^ 2 = 100 ^ 2) := by
  refine ⟨chain_miss_all L mirror x1 y1 a h0 h1 h2 n, ?_, ?_, ?_⟩
  · simp [applyCall, createLaser]
  · simp [applyCall, createLaser]
  · intro h
    linear_combination 10000 * h

/-- Witness for C2: the cannon tip raised to `(-31,50)`, angle 0. -/
theorem fire_no_mirror_one_segment_witness :
    hits tableLibm (mirrorInit tableLibm 0) (-31) 50 0 = false ∧
    hits tableLibm (mirrorInit tableLibm 1) (-31) 50 0 = false ∧
    hits tableLibm (mirrorInit tableLibm 2) (-31) 50 0 = false ∧
    chain tableLibm (mirrorInit tableLibm) 2 (-31) 50 0 =
      some [⟨-31, 50, 0, 0, 0, rayC tableLibm (-31) 50 0, 0⟩] :=
  ⟨by norm_num [hits, inSpan, hitX, fdiv, mirrorInit, tableLibm],
   by norm_num [hits, inSpan, hitX, fdiv, mirrorInit, tableLibm],
   by norm_num [hits, inSpan, hitX, fdiv, mirrorInit, tableLibm],
   (fire_no_mirror_one_segment tableLibm (mirrorInit tableLibm) (-31) 50 0
     (by norm_num [hits, inSpan, hitX, fdiv, mirrorInit, tableLibm])
     (by norm_num [hits, inSpan, hitX, fdiv, mirrorInit, tableLibm])
     (by norm_num [hits, inSpan, hitX, fdiv, mirrorInit, tableLibm]) 0
     (zeroGame (fun _ => 0) 0)).1⟩

/-- The `for` loop started with the flag clear and a bounce made: it either sets the flag, or
accepts every listed mirror that was not yet consumed. -/
theorem forMirrors_bounced (L : Libm K) (mirror : Nat → reflectors K) (l : List Nat) :
    ∀ st : Locals K, st.flag = 0 → 0 < st.count →
      (forMirrors L mirror l st).flag = 1 ∨
      ((forMirrors L mirror l st).flag = 0 ∧ 0 < (forMirrors L mirror l st).count ∧
        (∀ i, i ∈ l → (forMirrors L mirror l st).check i = true) ∧
        (∀ i, st.check i = true → (forMirrors L mirror l st).check i = true)) := by
  induction l with
  | nil =>
    intro st hf hc
    right
    exact ⟨hf, hc, fun i hi => absurd hi (List.not_mem_nil i), fun i h => h⟩
  | cons j l ih =>
    intro st hf hc
    by_cases hj : st.check j = false
    · by_cases hacc : inSpan (mirror j) (hitX L (mirror j) st.x1 st.y1 st.m1) = true
      · have key : ∀ st' : Locals K, st'.flag = 0 → 0 < st'.count →
            (∀ i, i = j ∨ st.check i = true → st'.check i = true) →
            ((forMirrors L mirror l st').flag = 1 ∨
              ((forMirrors L mirror l st').flag = 0 ∧ 0 < (forMirrors L mirror l st').count ∧
                (∀ i, i ∈ j :: l → (forMirrors L mirror l st').check i = true) ∧
                (∀ i, st.check i = true → (forMirrors L mirror l st').check i = true))) := by
          intro st' f c hck
          rcases ih st' f c with h | ⟨h1, h2, h3, h4⟩
          · left; exact h
          · right
            refine ⟨h1, h2, ?_, ?_⟩
            · intro i hi
              rcases List.mem_cons.mp hi with e | e
              · exact h4 i (hck i (Or.inl e))
              · exact h3 i e
            · intro i hi
              exact h4 i (hck i (Or.inr hi))
        simp only [forMirrors, hj, hacc, if_true]
        refine key _ hf (Nat.succ_pos _) ?_
        intro i hi
        by_cases e : i = j
        · subst e; simp
        · rcases hi with h | h
          · exact absurd h e
          · simp [Function.update, e, h]
      · left
        have hc' : st.count > 0 := hc
        simp [forMirrors, hj, hacc, hc']
    · have hj' : st.check j = true := by simpa using hj
      simp only [forMirrors, hj', Bool.true_eq_false, if_false]
      rcases ih st hf hc with h | ⟨h1, h2, h3, h4⟩
      · left; exact h
      · right
        refine ⟨h1, h2, ?_, h4⟩
        intro i hi
        rcases List.mem_cons.mp hi with e | e
        · subst e; exact h4 i hj'
        · exact h3 i e

/-- The `for` loop keeps the flag in {0,1}. -/
theorem forMirrors_flag (L : Libm K) (mirror : Nat → reflectors K) (l : List Nat) :
    ∀ st : Locals K, st.flag = 0 →
      (forMirrors L mirror l st).flag = 0 ∨ (forMirrors L mirror l st).flag = 1 := by
  induction l with
  | nil => intro st hf; left; exact hf
  | cons j l ih =>
    intro st hf
    by_cases hj : st.check j = false
    · by_cases hacc : inSpan (mirror j) (hitX L (mirror j) st.x1 st.y1 st.m1) = true
      · simp only [forMirrors, hj, hacc, if_true]
        exact ih _ hf
      · by_cases hc : st.count > 0
        · right; simp [forMirrors, hj, hacc, hc]
        · simp only [forMirrors, hj, hacc, hc, if_true, if_false]
          exact ih _ hf
    · have hj' : st.check j = true := by simpa using hj
      simp only [forMirrors, hj', Bool.true_eq_false, if_false]
      exact ih st hf

/-- A pass whose `for` loop set the flag or counted a bounce ends with the `for` loop. -/
theorem chainPass_eq_for (L : Libm K) (mirror : Nat → reflectors K) (st : Locals K)
    (h : (forMirrors L mirror [0, 1, 2] st).flag = 1 ∨
      0 < (forMirrors L mirror [0, 1, 2] st).count) :
    chainPass L mirror st = forMirrors L mirror [0, 1, 2] st := by
  unfold chainPass
  rcases h with h | h
  · simp [h]
  · simp [Nat.pos_iff_ne_zero.mp h]

/-- The reflection chain either returns within two passes of the loop, or all three mirrors
have been consumed after the second pass and it never returns. -/
theorem chain_exits_or_consumed (L : Libm K) (mirror : Nat → reflectors K) (x1 y1 a : K) :
    (∃ calls, ∀ n, chain L mirror (n + 3) x1 y1 a = some calls) ∨
    ((∀ i, i < 3 →
        (chainPass L mirror (chainPass L mirror (chainInit x1 y1 a))).check i = true) ∧
      ∀ fuel, chain L mirror fuel x1 y1 a = none) := by
  have hp1 : (chainPass L mirror (chainInit x1 y1 a)).flag = 1 ∨
      ((chainPass L mirror (chainInit x1 y1 a)).flag = 0 ∧
        0 < (chainPass L mirror (chainInit x1 y1 a)).count) := by
    unfold chainPass
    rcases forMirrors_flag L mirror [0, 1, 2] (chainInit x1 y1 a) rfl with h | h
    · by_cases hc : (forMirrors L mirror [0, 1, 2] (chainInit x1 y1 a)).count = 0
      · left; simp [hc, h]
      · right; simp [hc, h, Nat.pos_of_ne_zero hc]
    · left; simp [h]
  rcases hp1 with h1 | ⟨h1, c1⟩
  · left
    refine ⟨(chainPass L mirror (chainInit x1 y1 a)).calls, fun n => ?_⟩
    have : (chainInit x1 y1 a).flag = 0 := rfl
    simp [chain, chainLoop, this, h1]
  · have hp2 := forMirrors_bounced L mirror [0, 1, 2] _ h1 c1
    have e2 : chainPass L mirror (chainPass L mirror (chainInit x1 y1 a))
        = forMirrors L mirror [0, 1, 2] (chainPass L mirror (chainInit x1 y1 a)) := by
      rcases hp2 with h | ⟨_, h, _, _⟩
      · exact chainPass_eq_for L mirror _ (Or.inl h)
      · exact chainPass_eq_for L mirror _ (Or.inr h)
    rw [← e2] at hp2
    rcases hp2 with h2 | ⟨h2, c2, k2, _⟩
    · left
      refine ⟨(chainPass L mirror (chainPass L mirror (chainInit x1 y1 a))).calls, fun n => ?_⟩
      have : (chainInit x1 y1 a).flag = 0 := rfl
      simp [chain, chainLoop, this, h1, h2]
    · right
      refine ⟨fun i hi => k2 i (by
        have : i = 0 ∨ i = 1 ∨ i = 2 := by omega
        rcases this with e | e | e <;> simp [e]), fun fuel => ?_⟩
      have hstuck := chainLoop_consumed L mirror _ h2 c2 (k2 0 (by simp)) (k2 1 (by simp))
        (k2 2 (by simp))
      have : (chainInit x1 y1 a).flag = 0 := rfl
      cases fuel with
      | zero => rfl
      | succ n =>
        cases n with
        | zero => simp [chain, chainLoop, this, h1]
        | succ m => simp [chain, chainLoop, this, h1, hstuck m]

/-- The cannon after `n` frames with `S` pressed: raised by `n/2`, everything else the chain
reads unchanged. -/
theorem translateCannon_iterate (s : Game K) (n : Nat) :
    ((translateCannon sKey)^[n] s).mirror = s.mirror ∧
    (((translateCannon sKey)^[n] s).gun 0).x = (s.gun 0).x ∧
    (((translateCannon sKey)^[n] s).gun 1).x = (s.gun 1).x ∧
    (((translateCannon sKey)^[n] s).gun 1).rotate = (s.gun 1).rotate ∧
    (((translateCannon sKey)^[n] s).gun 1).y = (s.gun 1).y + n / 2 := by
  induction n with
  | zero => simp
  | succ n ih =>
    have e : ∀ t : Game K, translateCannon sKey t = moveGun t (1 / 2) := fun t => rfl
    rw [Function.iterate_succ_apply', e]
    obtain ⟨h1, h2, h3, h4, h5⟩ := ih
    refine ⟨h1, h2, h3, h4, ?_⟩
    simp only [moveGun, Nat.cast_succ]
    norm_num [h5]
    ring

/-- The cannon after `n` frames with `D` pressed: turned by `-n/100`, everything else the chain
reads unchanged. -/
theorem rotateCannon_iterate (s : Game K) (n : Nat) :
    ((rotateCannon dKey)^[n] s).mirror = s.mirror ∧
    (((rotateCannon dKey)^[n] s).gun 0).x = (s.gun 0).x ∧
    (((rotateCannon dKey)^[n] s).gun 1).x = (s.gun 1).x ∧
    (((rotateCannon dKey)^[n] s).gun 1).y = (s.gun 1).y ∧
    (((rotateCannon dKey)^[n] s).gun 1).rotate = (s.gun 1).rotate - n / 100 := by
  induction n with
  | zero => simp
  | succ n ih =>
    have e : ∀ t : Game K, rotateCannon dKey t = turnGun t (-(1 / 100)) := fun t => rfl
    rw [Function.iterate_succ_apply', e]
    obtain ⟨h1, h2, h3, h4, h5⟩ := ih
    refine ⟨h1, h2, h3, h4, ?_⟩
    simp only [turnGun, Nat.cast_succ]
    norm_num [h5]
    ring

/-- C3 (refuted on the code): from the game as initialised, `translateCannon` with `S` pressed
34 times and `rotateCannon` with `D` pressed 44 times bring the cannon to `y = 17`, angle
`-0.44`; the ray fired from there is accepted by mirrors 1, 2 and 3 in turn, and once all
three are consumed the loop `while (flag == 0)` has nothing left to set `flag`: the firing
block never returns, whatever the fuel. -/
theorem fire_hangs (fuel : Nat) :
    fire tableLibm fuel
      ((rotateCannon dKey)^[44] ((translateCannon sKey)^[34]
        (initGL tableLibm (zeroGame (fun _ => 0) 0)))) = none := by
  obtain ⟨r1, r2, r3, r4, r5⟩ := rotateCannon_iterate
    ((translateCannon sKey)^[34] (initGL tableLibm (zeroGame (fun _ => 0) (0 : ℚ)))) 44
  obtain ⟨t1, t2, t3, t4, t5⟩ := translateCannon_iterate
    (initGL tableLibm (zeroGame (fun _ => 0) (0 : ℚ))) 34
  apply fire_diverges_at
  · rw [r1, t1]; exact initGL_mirror _ _ 0 (by decide)
  · rw [r1, t1]; exact initGL_mirror _ _ 1 (by decide)
  · rw [r1, t1]; exact initGL_mirror _ _ 2 (by decide)
  · rw [r2, t2]; norm_num [initGL_gun, createCannon]
  · rw [r3, t3]; norm_num [initGL_gun, createCannon]
  · rw [r4, t5]; norm_num [initGL_gun, createCannon]
  · rw [r5, t4]; norm_num [initGL_gun, createCannon, zeroGame]

/-! ## Hit resolution: `shoot` -/

/-- Bricks none of whose edges qualifies leave the scan of `shoot` as it is. -/
theorem scan_none_qualify (m c : K) (boxes : Nat → rect K) (l : List Nat) (a : Scan K)
    (h : ∀ j ∈ l, ¬ qualifies m c (boxes j) (boxes j).x1 ∧ ¬ qualifies m c (boxes j) (boxes j).x2) :
    l.foldl (scanBrick m c boxes) a = a := by
  induction l generalizing a with
  | nil => rfl
  | cons j l ih =>
    have hj := h j (List.mem_cons_self j l)
    have hl : ∀ k ∈ l, ¬ qualifies m c (boxes k) (boxes k).x1 ∧
        ¬ qualifies m c (boxes k) (boxes k).x2 := fun k hk => h k (List.mem_cons_of_mem j hk)
    simp [List.foldl, scanBrick, scanEdge, hj.1, hj.2, ih a hl]

/-- The scan of `shoot` when only the first listed brick can qualify. -/
theorem scan_tail (m c : K) (boxes : Nat → rect K) (a : Scan K) (j : Nat) (l : List Nat)
    (h : ∀ k ∈ l, ¬ qualifies m c (boxes k) (boxes k).x1 ∧ ¬ qualifies m c (boxes k) (boxes k).x2) :
    (j :: l).foldl (scanBrick m c boxes) a = scanBrick m c boxes a j := by
  rw [List.foldl_cons, scan_none_qualify m c boxes l _ h]

/-- The scan of `shoot` when only bricks 0 and 1 can qualify. -/
theorem scan_two (m c : K) (boxes : Nat → rect K) (a : Scan K)
    (h : ∀ k ∈ List.range' 2 13,
      ¬ qualifies m c (boxes k) (boxes k).x1 ∧ ¬ qualifies m c (boxes k) (boxes k).x2) :
    (List.range 15).foldl (scanBrick m c boxes) a
      = scanBrick m c boxes (scanBrick m c boxes a 0) 1 := by
  have e : List.range 15 = 0 :: 1 :: List.range' 2 13 := by decide
  rw [e, List.foldl_cons, List.foldl_cons, scan_none_qualify m c boxes _ _ h]

theorem range15 : List.range 15 = 0 :: List.range' 1 14 := by decide

theorem shootScore_boxes {F : Type} (s : Game F) (j : Nat) : (shootScore s j).boxes = s.boxes := by
  unfold shootScore; split_ifs <;> rfl

theorem shootScore_laser {F : Type} (s : Game F) (j : Nat) : (shootScore s j).laser = s.laser := by
  unfold shootScore; split_ifs <;> rfl

theorem shootScore_rnd {F : Type} (s : Game F) (j : Nat) :
    (shootScore s j).rnd = s.rnd ∧ (shootScore s j).rpos = s.rpos ∧ (shootScore s j).y = s.y := by
  unfold shootScore; split_ifs <;> exact ⟨rfl, rfl, rfl⟩

theorem shootScore_fields {F : Type} (s : Game F) (j : Nat) :
    (shootScore s j).bucket = s.bucket ∧ (shootScore s j).speed = s.speed ∧
    (shootScore s j).last_update_time = s.last_update_time := by
  unfold shootScore; split_ifs <;> exact ⟨rfl, rfl, rfl⟩

/-- Without a selected brick `shoot` changes nothing. -/
theorem shoot_of_miss (L : Libm K) (s : Game K) (i : Nat)
    (h : (shootScan L s i).min = none) : shoot L s i = s := by
  simp [shoot, h]

/-- A hit changes no brick other than the selected one. -/
theorem shoot_boxes_of_hit (L : Libm K) (s : Game K) (i j k : Nat)
    (h : (shootScan L s i).min = some j) (hk : k ≠ j) :
    (shoot L s i).boxes k = s.boxes k := by
  simp [shoot, h, createLaser, createRectangle, shootScore_boxes, Function.update, hk]

/-- The selected brick is replaced by the brick spawned by `createRectangle`. -/
theorem shoot_boxes_self (L : Libm K) (s : Game K) (i j : Nat)
    (h : (shootScan L s i).min = some j) :
    (shoot L s i).boxes j =
      { x1 := (((s.rnd s.rpos : Int) % 50 - 20 : Int) : K)
        x2 := (((s.rnd s.rpos : Int) % 50 - 20 : Int) : K) + 3 / 2
        y1 := 42 + ((s.y + (s.rnd (s.rpos + 1) : Int) % 20 : Int) : K)
        y2 := 89 / 2 + ((s.y + (s.rnd (s.rpos + 1) : Int) % 20 : Int) : K)
        translation := 0
        c := (s.rnd (s.rpos + 2) : Int) % 3
        alive := true } := by
  obtain ⟨h1, h2, h3⟩ := shootScore_rnd s j
  simp [shoot, h, createLaser, createRectangle, h1, h2, h3]

/-- A hit clears every laser slot after the leg that hit. -/
theorem shoot_laser_of_hit (L : Libm K) (s : Game K) (i j k : Nat)
    (h : (shootScan L s i).min = some j) (h1 : i < k) (h2 : k < 10) :
    (shoot L s i).laser k = false := by
  have : i + 1 ≤ k := h1
  simp [shoot, h, createLaser, createRectangle, this, h2]

/-- After a hit the slot of the leg is set. -/
theorem shoot_laser_self (L : Libm K) (s : Game K) (i j : Nat)
    (h : (shootScan L s i).min = some j) : (shoot L s i).laser i = true := by
  simp [shoot, h, createLaser, createRectangle]

/-- The stored leg after a hit: origin, angle and intercept kept, endpoint set by `createLaser` from the selected edge point. -/
theorem shoot_bullet_of_hit (L : Libm K) (s : Game K) (i j : Nat)
    (h : (shootScan L s i).min = some j) :
    (shoot L s i).bullet i =
      { x1 := (s.bullet i).x1
        x2 := if (shootScan L s i).x2 = 0 ∧ (shootScan L s i).y2 = 0
              then (s.bullet i).x1 + 100 * L.cos (s.bullet i).m else (shootScan L s i).x2
        y1 := (s.bullet i).y1
        y2 := if (shootScan L s i).x2 = 0 ∧ (shootScan L s i).y2 = 0
              then (s.bullet i).y1 + 100 * L.sin (s.bullet i).m else (shootScan L s i).y2
        m := (s.bullet i).m
        c := (s.bullet i).c } := by
  have hb : (shootScore s j).bullet = s.bullet := by
    unfold shootScore; split_ifs <;> rfl
  simp [shoot, h, createLaser, createRectangle, hb]

/-- Fields that `shoot` never writes. -/
theorem shoot_fields (L : Libm K) (s : Game K) (i : Nat) :
    (shoot L s i).bucket = s.bucket ∧ (shoot L s i).speed = s.speed ∧
    (shoot L s i).last_update_time = s.last_update_time ∧ (shoot L s i).rnd = s.rnd := by
  cases h : (shootScan L s i).min with
  | none => rw [shoot_of_miss L s i h]; exact ⟨rfl, rfl, rfl, rfl⟩
  | some j =>
    obtain ⟨h1, h2, h3⟩ := shootScore_fields s j
    obtain ⟨h4, _, _⟩ := shootScore_rnd s j
    simp [shoot, h, createLaser, createRectangle, h1, h2, h3, h4]

theorem originFired_scan :
    shootScan tableLibm originFired 0 = { x2 := 0, y2 := 0, min := some 0 } := by
  unfold shootScan
  rw [range15, scan_tail]
  · norm_num [scanBrick, scanEdge, qualifies, originFired, createLaser, fallStep, originGame,
      createMirrors, createBasket, createCannon, zeroGame, tableLibm]
  · intro k hk
    have hk1 : k ≠ 0 := by
      have := (List.mem_range'_1.mp hk).1
      omega
    have hk2 : k < 15 := by
      have := (List.mem_range'_1.mp hk).2
      omega
    norm_num [qualifies, originFired, createLaser, fallStep, originGame, createMirrors,
      createBasket, createCannon, zeroGame, tableLibm, hk1, hk2, farBrick]

/-- C4: for every call `shoot(i)` with brick colours in {0,1,2}: if no brick edge qualifies
(more generally, if no brick is selected) the whole state, hence `points`, `hit_count`,
`gameover` and the stored leg `i`, is unchanged; if the selected brick is non-black,
`hit_count` grows by exactly 1 and `points` by exactly 10; if it is black, `hit_count` grows by
exactly 5 and `points` drops by exactly 5; in both hit cases `gameover` becomes true when the
updated `hit_count` is at least 500 and is otherwise left as it was. -/
theorem shoot_scoring (L : Libm K) (s : Game K) (i : Nat)
    (hcol : ∀ j, (s.boxes j).c = 0 ∨ (s.boxes j).c = 1 ∨ (s.boxes j).c = 2) :
    ((∀ j, j < 15 →
        ¬ qualifies (L.tan (s.bullet i).m) (s.bullet i).c (s.boxes j) (s.boxes j).x1 ∧
        ¬ qualifies (L.tan (s.bullet i).m) (s.bullet i).c (s.boxes j) (s.boxes j).x2) →
      shoot L s i = s) ∧
    ((shootScan L s i).min = none → shoot L s i = s) ∧
    (∀ j, (shootScan L s i).min = some j → (s.boxes j).c ≠ 0 →
      (shoot L s i).hit_count = s.hit_count + 1 ∧
      (shoot L s i).points = s.points + 10 ∧
      (s.hit_count + 1 ≥ 500 → (shoot L s i).gameover = true) ∧
      (s.hit_count + 1 < 500 → (shoot L s i).gameover = s.gameover)) ∧
    (∀ j, (shootScan L s i).min = some j → (s.boxes j).c = 0 →
      (shoot L s i).hit_count = s.hit_count + 5 ∧
      (shoot L s i).points = s.points - 5 ∧
      (s.hit_count + 5 ≥ 500 → (shoot L s i).gameover = true) ∧
      (s.hit_count + 5 < 500 → (shoot L s i).gameover = s.gameover)) := by
  have hnone : (shootScan L s i).min = none → shoot L s i = s := by
    intro h
    simp [shoot, h]
  refine ⟨?_, hnone, ?_, ?_⟩
  · intro h
    apply hnone
    unfold shootScan
    rw [scan_none_qualify]
    intro j hj
    exact h j (List.mem_range.mp hj)
  · intro j hj hc
    have hpos : (s.boxes j).c > 0 := by
      rcases hcol j with h | h | h <;> omega
    have e : ∀ g : Bool, (shoot L s i).gameover = g ↔
        (if s.hit_count + 1 ≥ 500 then true else s.gameover) = g := by
      intro g
      simp [shoot, hj, shootScore, hpos, createLaser, createRectangle]
    refine ⟨?_, ?_, ?_, ?_⟩
    · simp [shoot, hj, shootScore, hpos, createLaser, createRectangle]
    · simp [shoot, hj, shootScore, hpos, createLaser, createRectangle]
    · intro h
      rw [e, if_pos h]
    · intro h
      rw [e, if_neg (not_le.mpr h)]
  · intro j hj hc
    have e : ∀ g : Bool, (shoot L s i).gameover = g ↔
        (if s.hit_count + 5 ≥ 500 then true else s.gameover) = g := by
      intro g
      simp [shoot, hj, shootScore, hc, createLaser, createRectangle]
    refine ⟨?_, ?_, ?_, ?_⟩
    · simp [shoot, hj, shootScore, hc, createLaser, createRectangle]
    · simp [shoot, hj, shootScore, hc, createLaser, createRectangle]
    · intro h
      rw [e, if_pos h]
    · intro h
      rw [e, if_neg (not_le.mpr h)]

/-! ## Basket scoring: `score` -/

theorem scorePair_boxes (s : Game K) (i j : Nat) : (scorePair s i j).boxes = s.boxes := by
  unfold scorePair; split_ifs <;> rfl

theorem scorePair_bucket (s : Game K) (i j : Nat) : (scorePair s i j).bucket = s.bucket := by
  unfold scorePair; split_ifs <;> rfl

/-- A pair that is not caught leaves the state as it is. -/
theorem scorePair_not_caught (s : Game K) (i j : Nat)
    (h : ¬ caught (s.boxes i) (s.bucket j)) : scorePair s i j = s := by
  simp [scorePair, h]

/-- The two basket tests of `score` for brick `k`. -/
theorem scoreBrick_eq (s : Game K) (k : Nat) :
    (List.range 2).foldl (fun s j => scorePair s k j) s = scorePair (scorePair s k 0) k 1 := by
  simp [List.range, List.range.loop]

/-- A brick caught by neither basket leaves the state as it is. -/
theorem scoreBrick_idle (s : Game K) (k : Nat)
    (h : ∀ j, j < 2 → ¬ caught (s.boxes k) (s.bucket j)) :
    scorePair (scorePair s k 0) k 1 = s := by
  have h0 : scorePair s k 0 = s := by simp [scorePair, h 0 (by decide)]
  rw [h0]
  simp [scorePair, h 1 (by decide)]

/-- Points after the brick loop of `score` when only brick `i` is caught, with `d` its effect. -/
theorem score_fold_single (B : Nat → rect K) (R : Nat → receptacle K) (i : Nat) (d : Int)
    (hi : ∀ s : Game K, s.boxes = B → s.bucket = R →
      (scorePair (scorePair s i 0) i 1).points = s.points + d)
    (hk : ∀ k, k ≠ i → ∀ j, j < 2 → ¬ caught (B k) (R j)) (l : List Nat) (s : Game K)
    (hB : s.boxes = B) (hR : s.bucket = R) :
    (l.foldl (fun s k => (List.range 2).foldl (fun s j => scorePair s k j) s) s).points
      = s.points + (l.count i : Int) * d := by
  induction l generalizing s with
  | nil => simp
  | cons k l ih =>
    rw [List.foldl_cons, scoreBrick_eq]
    by_cases hki : k = i
    · subst hki
      rw [ih _ (by simp [scorePair_boxes, hB]) (by simp [scorePair_bucket, hR]), hi s hB hR]
      simp
      ring
    · have hidle : scorePair (scorePair s k 0) k 1 = s := by
        apply scoreBrick_idle
        intro j hj
        rw [hB, hR]
        exact hk k hki j hj
      rw [hidle, ih s hB hR]
      simp [List.count_cons, hki]

/-- Points after `score` when brick `i` is the only brick caught. -/
theorem score_single_catch (s : Game K) (i : Nat) (hi : i < 15) (d : Int)
    (hpair : ∀ t : Game K, t.boxes = s.boxes → t.bucket = s.bucket →
      (scorePair (scorePair t i 0) i 1).points = t.points + d)
    (hk : ∀ k, k ≠ i → ∀ j, j < 2 → ¬ caught (s.boxes k) (s.bucket j)) :
    (score s).points = s.points + d := by
  have hcnt : (List.range 15).count i = 1 :=
    List.count_eq_one_of_mem (List.nodup_range 15) (List.mem_range.mpr hi)
  have := score_fold_single s.boxes s.bucket i d hpair hk (List.range 15) s rfl rfl
  unfold score
  rw [this, hcnt]
  simp

/-- A red brick (colour 1) caught only by basket 0 of colour 2 costs 5 points. -/
theorem score_red_in_basket0 (s : Game K) (i : Nat) (hi : i < 15)
    (c0 : (s.bucket 0).c = 2) (hc : (s.boxes i).c = 1)
    (h0 : caught (s.boxes i) (s.bucket 0)) (h1 : ¬ caught (s.boxes i) (s.bucket 1))
    (hk : ∀ k, k ≠ i → ∀ j, j < 2 → ¬ caught (s.boxes k) (s.bucket j)) :
    (score s).points = s.points - 5 := by
  have := score_single_catch s i hi (-5) (by
    intro t hB hR
    have t0 : (scorePair t i 0).points = t.points - 5 := by
      simp [scorePair, hB, hR, h0, c0, hc]
    have t1 : scorePair (scorePair t i 0) i 1 = scorePair t i 0 := by
      have : ¬ caught ((scorePair t i 0).boxes i) ((scorePair t i 0).bucket 1) := by
        rw [scorePair_boxes, scorePair_bucket, hB, hR]; exact h1
      exact scorePair_not_caught _ _ _ this
    rw [t1, t0]; ring) hk
  rw [this]; ring

/-- A red brick (colour 1) caught only by basket 1 of colour 1 earns 10 points. -/
theorem score_red_in_basket1 (s : Game K) (i : Nat) (hi : i < 15)
    (c1 : (s.bucket 1).c = 1) (hc : (s.boxes i).c = 1)
    (h1 : caught (s.boxes i) (s.bucket 1)) (h0 : ¬ caught (s.boxes i) (s.bucket 0))
    (hk : ∀ k, k ≠ i → ∀ j, j < 2 → ¬ caught (s.boxes k) (s.bucket j)) :
    (score s).points = s.points + 10 :=
  score_single_catch s i hi 10 (by
    intro t hB hR
    have t0 : scorePair t i 0 = t := by
      simp [scorePair, hB, hR, h0]
    rw [t0]
    simp [scorePair, hB, hR, h1, c1, hc]) hk

/-- With no brick caught `score` changes nothing. -/
theorem score_idle (s : Game K) (h : ∀ k, k < 15 → ∀ j, j < 2 → ¬ caught (s.boxes k) (s.bucket j)) :
    score s = s := by
  unfold score
  have : ∀ l : List Nat, (∀ k ∈ l, k < 15) →
      l.foldl (fun s k => (List.range 2).foldl (fun s j => scorePair s k j) s) s = s := by
    intro l
    induction l with
    | nil => intro _; rfl
    | cons k l ih =>
      intro hl
      rw [List.foldl_cons, scoreBrick_eq, scoreBrick_idle s k (h k (hl k (List.mem_cons_self k l)))]
      exact ih (fun k' hk' => hl k' (List.mem_cons_of_mem k hk'))
  exact this _ (fun k hk => List.mem_range.mp hk)

theorem catchGame_others (x : ℚ) :
    ∀ k, k ≠ 0 → ∀ j, j < 2 → ¬ caught ((catchGame x).boxes k) ((catchGame x).bucket j) := by
  intro k hk j _
  norm_num [caught, catchGame, hk, farBrick]

/-- C5, counterexample: in the initial basket configuration a brick of colour 1 caught by
basket 0 and not by basket 1 makes `score` subtract 5 from `points`, not add 10. -/
theorem score_red_brick_basket0 :
    (catchGame 11).bucket 0 = (createBasket (catchGame 11)).bucket 0 ∧
    (catchGame 11).bucket 1 = (createBasket (catchGame 11)).bucket 1 ∧
    ((catchGame 11).boxes 0).c = 1 ∧
    caught ((catchGame 11).boxes 0) ((catchGame 11).bucket 0) ∧
    ¬ caught ((catchGame 11).boxes 0) ((catchGame 11).bucket 1) ∧
    (score (catchGame 11)).points = (catchGame 11).points - 5 ∧
    (score (catchGame 11)).points ≠ (catchGame 11).points + 10 := by
  have h0 : caught ((catchGame 11).boxes 0) ((catchGame 11).bucket 0) := by
    norm_num [caught, catchGame, createBasket]
  have h1 : ¬ caught ((catchGame 11).boxes 0) ((catchGame 11).bucket 1) := by
    norm_num [caught, catchGame, createBasket]
  have hs := score_red_in_basket0 (catchGame 11) 0 (by decide) rfl rfl h0 h1 (catchGame_others 11)
  refine ⟨rfl, rfl, rfl, h0, h1, hs, ?_⟩
  rw [hs]
  omega

/-- C5, amended: in the initial basket configuration basket 0 has colour 2 and basket 1 has
colour 1; a brick of colour 1 that is the only brick caught makes `score` subtract 5 from
`points` when it is caught by basket 0 and not basket 1, and add 10 when it is caught by
basket 1 and not basket 0. -/
theorem score_initial_baskets (s : Game K) (i : Nat) (hi : i < 15)
    (hb0 : s.bucket 0 = (createBasket s).bucket 0) (hb1 : s.bucket 1 = (createBasket s).bucket 1)
    (hc : (s.boxes i).c = 1)
    (hk : ∀ k, k ≠ i → ∀ j, j < 2 → ¬ caught (s.boxes k) (s.bucket j)) :
    (s.bucket 0).c = 2 ∧ (s.bucket 1).c = 1 ∧
    (caught (s.boxes i) (s.bucket 0) → ¬ caught (s.boxes i) (s.bucket 1) →
      (score s).points = s.points - 5) ∧
    (caught (s.boxes i) (s.bucket 1) → ¬ caught (s.boxes i) (s.bucket 0) →
      (score s).points = s.points + 10) := by
  have c0 : (s.bucket 0).c = 2 := by rw [hb0]; simp [createBasket]
  have c1 : (s.bucket 1).c = 1 := by rw [hb1]; simp [createBasket]
  exact ⟨c0, c1, fun h0 h1 => score_red_in_basket0 s i hi c0 hc h0 h1 hk,
    fun h1 h0 => score_red_in_basket1 s i hi c1 hc h1 h0 hk⟩

/-- Witness for C5 amended: a red brick at `x = -15`, inside basket 1 only. -/
theorem score_initial_baskets_witness :
    (0 < 15) ∧
    (catchGame (-15)).bucket 0 = (createBasket (catchGame (-15))).bucket 0 ∧
    (catchGame (-15)).bucket 1 = (createBasket (catchGame (-15))).bucket 1 ∧
    ((catchGame (-15)).boxes 0).c = 1 ∧
    (∀ k, k ≠ 0 → ∀ j, j < 2 →
      ¬ caught ((catchGame (-15)).boxes k) ((catchGame (-15)).bucket j)) ∧
    caught ((catchGame (-15)).boxes 0) ((catchGame (-15)).bucket 1) ∧
    ¬ caught ((catchGame (-15)).boxes 0) ((catchGame (-15)).bucket 0) ∧
    (score (catchGame (-15))).points = (catchGame (-15)).points + 10 :=
  have h1 : caught ((catchGame (-15)).boxes 0) ((catchGame (-15)).bucket 1) := by
    norm_num [caught, catchGame, createBasket]
  have h0 : ¬ caught ((catchGame (-15)).boxes 0) ((catchGame (-15)).bucket 0) := by
    norm_num [caught, catchGame, createBasket]
  ⟨by decide, rfl, rfl, rfl, catchGame_others (-15), h1, h0,
    (score_initial_baskets (catchGame (-15)) 0 (by decide) rfl rfl rfl
      (catchGame_others (-15))).2.2.2 h1 h0⟩

/-- C6: for every brick `i` and basket `j` with basket colour 1 or 2, the body of `score` for
that pair changes the state (points, game-over flag, console lines) if and only if
`x1 >= basket.x1`, `x2 <= basket.x2` and `y2 <= -36`; when it does, a matching colour adds
exactly 10 to `points` and leaves `gameover`, a black brick sets `gameover` and leaves `points`,
and a mismatched non-black brick subtracts exactly 5 from `points` and leaves `gameover`. -/
theorem scorePair_spec (s : Game K) (i j : Nat)
    (hb : (s.bucket j).c = 1 ∨ (s.bucket j).c = 2) :
    (scorePair s i j ≠ s ↔
      ((s.boxes i).x1 ≥ (s.bucket j).x1 ∧ (s.boxes i).x2 ≤ (s.bucket j).x2 ∧
        (s.boxes i).y2 ≤ -36)) ∧
    (caught (s.boxes i) (s.bucket j) → (s.bucket j).c = (s.boxes i).c →
      (scorePair s i j).points = s.points + 10 ∧ (scorePair s i j).gameover = s.gameover) ∧
    (caught (s.boxes i) (s.bucket j) → (s.boxes i).c = 0 →
      (scorePair s i j).gameover = true ∧ (scorePair s i j).points = s.points) ∧
    (caught (s.boxes i) (s.bucket j) → (s.bucket j).c ≠ (s.boxes i).c → (s.boxes i).c ≠ 0 →
      (scorePair s i j).points = s.points - 5 ∧ (scorePair s i j).gameover = s.gameover) := by
  refine ⟨?_, ?_, ?_, ?_⟩
  · constructor
    · intro h
      by_contra hn
      apply h
      have : ¬ caught (s.boxes i) (s.bucket j) := hn
      simp [scorePair, this]
    · intro h hs
      have hcg : caught (s.boxes i) (s.bucket j) := h
      have := congrArg Game.out hs
      unfold scorePair at this
      rw [if_pos hcg] at this
      split_ifs at this <;> simp at this
  · intro h1 h2
    simp [scorePair, h1, h2]
  · intro h1 h2
    have h3 : (s.bucket j).c ≠ 0 := by rcases hb with h | h <;> omega
    simp [scorePair, h1, h2, h3]
  · intro h1 h2 h3
    simp [scorePair, h1, h2, h3]

/-- Witness for C6: the red brick of `catchGame 11` and basket 0. -/
theorem scorePair_spec_witness :
    (((catchGame 11).bucket 0).c = 1 ∨ ((catchGame 11).bucket 0).c = 2) ∧
    (scorePair (catchGame 11) 0 0 ≠ catchGame 11 ↔
      (((catchGame 11).boxes 0).x1 ≥ ((catchGame 11).bucket 0).x1 ∧
        ((catchGame 11).boxes 0).x2 ≤ ((catchGame 11).bucket 0).x2 ∧
        ((catchGame 11).boxes 0).y2 ≤ -36)) :=
  ⟨Or.inr rfl, (scorePair_spec (catchGame 11) 0 0 (Or.inr rfl)).1⟩

/-! ## One firing event over several frames -/

/-- With no live brick below the catch line the respawn loop changes nothing. -/
theorem respawn_idle (s : Game K)
    (h : ∀ k, k < 15 → ¬ ((s.boxes k).y2 < -36 ∧ (s.boxes k).alive = true)) :
    respawn s = s := by
  unfold respawn
  have : ∀ l : List Nat, (∀ k ∈ l, k < 15) → l.foldl respawnStep s = s := by
    intro l
    induction l with
    | nil => intro _; rfl
    | cons k l ih =>
      intro hl
      have e : respawnStep s k = s := by
        unfold respawnStep
        rw [if_neg (h k (hl k (List.mem_cons_self k l)))]
      rw [List.foldl_cons, e]
      exact ih (fun k' hk' => hl k' (List.mem_cons_of_mem k hk'))
  exact this _ (fun k hk => List.mem_range.mp hk)

/-- A frame with no movement or speed key, no catch and no respawn is the call of `draw`. -/
theorem frame_idle (L : Libm K) (fuel : Nat) (k : Keys) (t1 t2 : K) (s : Game K)
    (h1 : k.left_control = false) (h2 : k.left_alt = false) (h3 : k.s = false)
    (h4 : k.f = false) (h5 : k.a = false) (h6 : k.d = false) (h7 : k.n = false)
    (h8 : k.m = false)
    (hc : ∀ i, i < 15 → ∀ j, j < 2 → ¬ caught (s.boxes i) (s.bucket j))
    (hr : ∀ i, i < 15 → ¬ ((s.boxes i).y2 < -36 ∧ (s.boxes i).alive = true)) :
    frame L fuel k t1 t2 s = draw L fuel k t1 t2 s := by
  have e1 : translateBaskets k s = s := by simp [translateBaskets, h1, h2]
  have e2 : translateCannon k s = s := by simp [translateCannon, h3, h4]
  have e3 : rotateCannon k s = s := by simp [rotateCannon, h5, h6]
  have e4 : block_speed k s = s := by simp [block_speed, h7, h8]
  unfold frame
  rw [e1, score_idle s hc, e2, e3, respawn_idle s hr, e4]

/-- The laser loop stops at once when the next slot is empty. -/
theorem laserLoop_stop (L : Libm K) (s : Game K) (a n : Nat) (h : a + n ≤ 10)
    (hl : ∀ k, a ≤ k → k < 10 → s.laser k = false) :
    laserLoop L (List.range' a n) s = s := by
  cases n with
  | zero => rfl
  | succ n =>
    have : s.laser a = false := hl a (le_refl a) (by omega)
    simp [List.range', laserLoop, this]

/-- The laser loop over consecutive slots changes at most one brick. -/
theorem laserLoop_one_brick (L : Libm K) (n : Nat) :
    ∀ (a : Nat) (s : Game K), a + n ≤ 10 →
      ∃ j, ∀ k, k ≠ j → (laserLoop L (List.range' a n) s).boxes k = s.boxes k := by
  induction n with
  | zero => intro a s _; exact ⟨0, fun k _ => rfl⟩
  | succ n ih =>
    intro a s h
    by_cases hl : s.laser a = true
    · cases hm : (shootScan L s a).min with
      | none =>
        have e : laserLoop L (List.range' a (n + 1)) s = laserLoop L (List.range' (a + 1) n) s := by
          simp [List.range', laserLoop, hl, shoot_of_miss L s a hm]
        rw [e]
        exact ih (a + 1) s (by omega)
      | some j =>
        have e : laserLoop L (List.range' a (n + 1)) s = shoot L s a := by
          simp only [List.range', laserLoop, hl, if_true]
          apply laserLoop_stop L _ (a + 1) n (by omega)
          intro k hk1 hk2
          exact shoot_laser_of_hit L s a j k hm (by omega) hk2
        rw [e]
        exact ⟨j, fun k hk => shoot_boxes_of_hit L s a j k hm hk⟩
    · have e : laserLoop L (List.range' a (n + 1)) s = s := by
        simp [List.range', laserLoop, hl]
      rw [e]
      exact ⟨0, fun k _ => rfl⟩

/-- If leg 0 is active and hits, the laser loop is that one call of `shoot`. -/
theorem resolveLasers_hit0 (L : Libm K) (s : Game K) (j : Nat) (hl : s.laser 0 = true)
    (h : (shootScan L s 0).min = some j) : resolveLasers L s = shoot L s 0 := by
  unfold resolveLasers
  rw [List.range_eq_range']
  simp only [List.range', laserLoop, hl, if_true]
  apply laserLoop_stop L _ (0 + 1) 9 (by omega)
  intro k hk1 hk2
  exact shoot_laser_of_hit L s 0 j k h (by omega) hk2

/-- `draw` in a frame that fires and whose laser is active. -/
theorem draw_fire (L : Libm K) (fuel : Nat) (k : Keys) (t1 t2 : K) (s g : Game K)
    (ht : t1 - s.last_update_time ≥ 1) (hk : k.space = true)
    (hf : fire L fuel (fallStep s) = some g) (ht2 : t2 - t1 < 1 / 5) :
    draw L fuel k t1 t2 s = some (resolveLasers L { g with last_update_time := t1 }) := by
  have ht' : t1 - (fallStep s).last_update_time ≥ 1 := ht
  simp only [draw, if_pos ht', hk, if_true, hf, Option.map_some', ht2]

/-- `draw` in a frame that does not fire and whose laser is active. -/
theorem draw_no_fire (L : Libm K) (fuel : Nat) (k : Keys) (t1 t2 : K) (s : Game K)
    (ht : t1 - s.last_update_time < 1) (ht2 : t2 - s.last_update_time < 1 / 5) :
    draw L fuel k t1 t2 s = some (resolveLasers L (fallStep s)) := by
  have ht' : ¬ t1 - (fallStep s).last_update_time ≥ 1 := not_le.mpr ht
  have ht2' : t2 - (fallStep s).last_update_time < 1 / 5 := ht2
  simp only [draw, if_neg ht', Option.map_some', if_pos ht2']

theorem twoHit_fire : fire tableLibm 2 (fallStep twoHitGame) =
    some (createLaser tableLibm (fallStep twoHitGame) (-31) (-10) 0 0 0 (-10) 0) := by
  have h := fire_of_miss_all tableLibm (fallStep twoHitGame) 0
    (by norm_num [hits, inSpan, hitX, fdiv, fallStep, twoHitGame, moveGun, createMirrors,
          mirrorInit, createBasket, createCannon, zeroGame, tableLibm])
    (by norm_num [hits, inSpan, hitX, fdiv, fallStep, twoHitGame, moveGun, createMirrors,
          mirrorInit, createBasket, createCannon, zeroGame, tableLibm])
    (by norm_num [hits, inSpan, hitX, fdiv, fallStep, twoHitGame, moveGun, createMirrors,
          mirrorInit, createBasket, createCannon, zeroGame, tableLibm])
  rw [h]
  norm_num [rayC, fallStep, twoHitGame, moveGun, createMirrors,
          mirrorInit, createBasket, createCannon, zeroGame, tableLibm]

theorem twoHit_frame1_draw :
    frame tableLibm 2 spaceKey 1 1 twoHitGame = some (resolveLasers tableLibm twoHitFired) := by
  rw [frame_idle tableLibm 2 spaceKey 1 1 twoHitGame rfl rfl rfl rfl rfl rfl rfl rfl]
  · rw [draw_fire tableLibm 2 spaceKey 1 1 twoHitGame _ (by norm_num [twoHitGame, moveGun, createMirrors, createBasket, createCannon, zeroGame]) rfl twoHit_fire (by norm_num)]
    rfl
  · intro i _ j _
    by_cases h0 : i = 0
    · subst h0; norm_num [caught, twoHitGame]
    · by_cases h1 : i = 1
      · subst h1; norm_num [caught, twoHitGame]
      · norm_num [caught, twoHitGame, h0, h1, farBrick]
  · intro i _
    by_cases h0 : i = 0
    · subst h0; norm_num [twoHitGame]
    · by_cases h1 : i = 1
      · subst h1; norm_num [twoHitGame]
      · norm_num [twoHitGame, h0, h1, farBrick]

theorem twoHitFired_scan :
    shootScan tableLibm twoHitFired 0 = { x2 := 5, y2 := -10, min := some 0 } := by
  unfold shootScan
  rw [scan_two]
  · norm_num [scanBrick, scanEdge, qualifies, twoHitFired, createLaser, fallStep, twoHitGame,
      moveGun, createMirrors, createBasket, createCannon, zeroGame, tableLibm]
  · intro k hk
    have hk1 := (List.mem_range'_1.mp hk)
    have h0 : k ≠ 0 := by omega
    have h1 : k ≠ 1 := by omega
    have h2 : k < 15 := by omega
    norm_num [qualifies, twoHitFired, createLaser, fallStep, twoHitGame, moveGun,
      createMirrors, createBasket, createCannon, zeroGame, tableLibm, h0, h1, h2, farBrick]

theorem twoHit_frame1 :
    frame tableLibm 2 spaceKey 1 1 twoHitGame = some twoHitAfter1 := by
  rw [twoHit_frame1_draw, resolveLasers_hit0 tableLibm twoHitFired 0 (by simp [twoHitFired, createLaser])
    (by rw [twoHitFired_scan])]
  rfl

theorem twoHitAfter1_boxes (k : Nat) :
    twoHitAfter1.boxes k =
      if k = 0 then
        { x1 := -20, x2 := -(37 / 2), y1 := 42, y2 := 89 / 2, translation := 0, c := 0,
          alive := true }
      else (fallStep twoHitGame).boxes k := by
  by_cases h : k = 0
  · subst h
    unfold twoHitAfter1
    rw [shoot_boxes_self tableLibm twoHitFired 0 0 (by rw [twoHitFired_scan])]
    norm_num [twoHitFired, createLaser, fallStep, twoHitGame, moveGun, createMirrors,
      createBasket, createCannon, zeroGame]
  · rw [if_neg h]
    unfold twoHitAfter1
    rw [shoot_boxes_of_hit tableLibm twoHitFired 0 0 k (by rw [twoHitFired_scan]) h]
    rfl

theorem twoHitAfter1_bullet :
    twoHitAfter1.bullet 0 = { x1 := -31, x2 := 5, y1 := -10, y2 := -10, m := 0, c := -10 } := by
  unfold twoHitAfter1
  rw [shoot_bullet_of_hit tableLibm twoHitFired 0 0 (by rw [twoHitFired_scan]), twoHitFired_scan]
  norm_num [twoHitFired, createLaser]

theorem twoHitAfter1_fields :
    twoHitAfter1.bucket = twoHitGame.bucket ∧ twoHitAfter1.speed = 3 / 10 ∧
    twoHitAfter1.last_update_time = 1 ∧ twoHitAfter1.rnd = (fun _ => 0) ∧
    twoHitAfter1.laser 0 = true := by
  obtain ⟨h1, h2, h3, h4⟩ := shoot_fields tableLibm twoHitFired 0
  refine ⟨?_, ?_, ?_, ?_, ?_⟩
  · unfold twoHitAfter1; rw [h1]; rfl
  · unfold twoHitAfter1; rw [h2]
    norm_num [twoHitFired, createLaser, fallStep, twoHitGame, moveGun, createMirrors,
      createBasket, createCannon, zeroGame]
  · unfold twoHitAfter1; rw [h3]; rfl
  · unfold twoHitAfter1; rw [h4]; rfl
  · exact shoot_laser_self tableLibm twoHitFired 0 0 (by rw [twoHitFired_scan])

theorem twoHit_frame2_draw :
    frame tableLibm 2 noKeys (61 / 60) (61 / 60) twoHitAfter1
      = some (resolveLasers tableLibm (fallStep twoHitAfter1)) := by
  obtain ⟨hb, hs, ht, hr, hl⟩ := twoHitAfter1_fields
  rw [frame_idle tableLibm 2 noKeys (61 / 60) (61 / 60) twoHitAfter1 rfl rfl rfl rfl rfl rfl rfl rfl]
  · rw [draw_no_fire tableLibm 2 noKeys (61 / 60) (61 / 60) twoHitAfter1
      (by rw [ht]; norm_num) (by rw [ht]; norm_num)]
  · intro i hi j _
    rw [twoHitAfter1_boxes]
    by_cases h0 : i = 0
    · subst h0; norm_num [caught]
    · by_cases h1 : i = 1
      · subst h1
        norm_num [caught, fallStep, twoHitGame, moveGun, createMirrors, createBasket,
          createCannon, zeroGame]
      · norm_num [caught, fallStep, twoHitGame, h0, h1, hi, farBrick, moveGun, createMirrors,
          createBasket, createCannon, zeroGame]
  · intro i hi
    rw [twoHitAfter1_boxes]
    by_cases h0 : i = 0
    · subst h0; norm_num
    · by_cases h1 : i = 1
      · subst h1
        norm_num [fallStep, twoHitGame, moveGun, createMirrors, createBasket, createCannon,
          zeroGame]
      · norm_num [fallStep, twoHitGame, h0, h1, hi, farBrick, moveGun, createMirrors,
          createBasket, createCannon, zeroGame]

theorem twoHit_scan2 :
    shootScan tableLibm (fallStep twoHitAfter1) 0 = { x2 := -15, y2 := -10, min := some 1 } := by
  obtain ⟨_, hs, _, _, _⟩ := twoHitAfter1_fields
  have hbul : (fallStep twoHitAfter1).bullet 0 = twoHitAfter1.bullet 0 := rfl
  unfold shootScan
  rw [hbul, twoHitAfter1_bullet, scan_two]
  · norm_num [scanBrick, scanEdge, qualifies, fallStep, twoHitAfter1_boxes, hs, twoHitGame,
      moveGun, createMirrors, createBasket, createCannon, zeroGame, tableLibm]
  · intro k hk
    have hk1 := (List.mem_range'_1.mp hk)
    have h0 : k ≠ 0 := by omega
    have h1 : k ≠ 1 := by omega
    have h2 : k < 15 := by omega
    norm_num [qualifies, fallStep, twoHitAfter1_boxes, hs, twoHitGame, moveGun,
      createMirrors, createBasket, createCannon, zeroGame, tableLibm, h0, h1, h2, farBrick]

theorem twoHit_frame2 :
    frame tableLibm 2 noKeys (61 / 60) (61 / 60) twoHitAfter1
      = some (shoot tableLibm (fallStep twoHitAfter1) 0) := by
  rw [twoHit_frame2_draw, resolveLasers_hit0 tableLibm (fallStep twoHitAfter1) 1
    twoHitAfter1_fields.2.2.2.2 (by rw [twoHit_scan2])]

theorem originGame_fire :
    fire tableLibm 2 (fallStep originGame) =
      some (createLaser tableLibm
        (createLaser tableLibm (fallStep originGame) (-31) 0 (2679 / 17321) 0 0 0 0)
        (2679 / 17321) 0 0 0 (1309 / 625) (1160007 / 4330250) 1) := by
  have hX : meetX tableLibm ((fallStep originGame).mirror 0) (-31) 0 0 = 2679 / 17321 := by
    norm_num [meetX, rayC, fallStep, originGame, createMirrors, mirrorInit, tableLibm]
  have hY : meetY tableLibm ((fallStep originGame).mirror 0) (-31) 0 0 = 0 := by
    rw [meetY, hX]
    norm_num [rayC, tableLibm]
  have hA : 2 * ((fallStep originGame).mirror 0).m - 0 = (1309 / 625 : ℚ) := by
    norm_num [fallStep, originGame, createMirrors, mirrorInit, tableLibm]
  have h := fire_of_hit0_miss1 tableLibm (fallStep originGame) 0 (-31) 0 0
    (by norm_num [fallStep, originGame, createMirrors, createBasket, createCannon, zeroGame,
          tableLibm])
    (by norm_num [fallStep, originGame, createMirrors, createBasket, createCannon, zeroGame,
          tableLibm])
    (by norm_num [fallStep, originGame, createMirrors, createBasket, createCannon, zeroGame])
    (by norm_num [hits, inSpan, hitX, fdiv, fallStep, originGame, createMirrors, mirrorInit,
          tableLibm])
    (by rw [hX, hY, hA]
        norm_num [hits, inSpan, hitX, fdiv, fallStep, originGame, createMirrors, mirrorInit,
          tableLibm])
  rw [h, hX, hY, hA]
  have hc0 : rayC tableLibm (-31) 0 0 = 0 := by norm_num [rayC, tableLibm]
  have hc1 : rayC tableLibm (2679 / 17321) 0 (1309 / 625) = 1160007 / 4330250 := by
    norm_num [rayC, tableLibm]
  rw [hc0, hc1]
  rfl

theorem originGame_frame :
    frame tableLibm 2 spaceKey 1 1 originGame = some (shoot tableLibm originFired 0) := by
  rw [frame_idle tableLibm 2 spaceKey 1 1 originGame rfl rfl rfl rfl rfl rfl rfl rfl]
  · rw [draw_fire tableLibm 2 spaceKey 1 1 originGame _
      (by norm_num [originGame, createMirrors, createBasket, createCannon, zeroGame]) rfl
      originGame_fire (by norm_num)]
    exact congrArg some (resolveLasers_hit0 tableLibm originFired 0
      (by simp [originFired, createLaser]) (by rw [originFired_scan]))
  · intro i _ j _
    by_cases h0 : i = 0
    · subst h0; norm_num [caught, originGame]
    · norm_num [caught, originGame, h0, farBrick]
  · intro i _
    by_cases h0 : i = 0
    · subst h0; norm_num [originGame]
    · norm_num [originGame, h0, farBrick]

/-- C7 (refuted on the code): from `originGame` (the game as initialised, brick 0 at `x = 0`)
one frame with space pressed fires along `y = 0`; `shoot(0)` selects brick 0 at the edge point
`(0,0)` and retires it, yet the stored leg 0 keeps its origin `(-31,0)` and ends at `(69,0)`,
the sentinel extension of `createLaser`, not at the edge point. -/
theorem shoot_origin_edge :
    ∃ s1 : Game ℚ,
      frame tableLibm 2 spaceKey 1 1 originGame = some s1 ∧
      s1 = shoot tableLibm originFired 0 ∧
      shootScan tableLibm originFired 0 = { x2 := 0, y2 := 0, min := some 0 } ∧
      s1.bullet 0 = { x1 := -31, x2 := 69, y1 := 0, y2 := 0, m := 0, c := 0 } ∧
      (originGame.boxes 0).x1 = 0 ∧ (s1.boxes 0).x1 = -20 ∧ s1.points = originGame.points + 10 := by
  refine ⟨_, originGame_frame, rfl, originFired_scan, ?_, ?_, ?_, ?_⟩
  · rw [shoot_bullet_of_hit tableLibm originFired 0 0 (by rw [originFired_scan]),
      originFired_scan]
    norm_num [originFired, createLaser, tableLibm]
  · norm_num [originGame]
  · rw [shoot_boxes_self tableLibm originFired 0 0 (by rw [originFired_scan])]
    norm_num [originFired, createLaser, fallStep, originGame, createMirrors, createBasket,
      createCannon, zeroGame]
  · have hcol : (originFired.boxes 0).c > 0 := by
      norm_num [originFired, createLaser, fallStep, originGame]
    simp [shoot, originFired_scan, shootScore, hcol, createLaser, createRectangle]
    rfl

/-- Witness for C4: the red brick on the ray of `twoHitFired`. -/
theorem shoot_scoring_witness :
    (∀ j, (twoHitFired.boxes j).c = 0 ∨ (twoHitFired.boxes j).c = 1 ∨
      (twoHitFired.boxes j).c = 2) ∧
    (shootScan tableLibm twoHitFired 0).min = some 0 ∧
    (twoHitFired.boxes 0).c ≠ 0 ∧
    (shoot tableLibm twoHitFired 0).hit_count = twoHitFired.hit_count + 1 ∧
    (shoot tableLibm twoHitFired 0).points = twoHitFired.points + 10 :=
  have hcol : ∀ j, (twoHitFired.boxes j).c = 0 ∨ (twoHitFired.boxes j).c = 1 ∨
      (twoHitFired.boxes j).c = 2 := by
    intro j
    by_cases h0 : j = 0
    · subst h0; right; left; norm_num [twoHitFired, createLaser, fallStep, twoHitGame]
    · by_cases h1 : j = 1
      · subst h1; right; right; norm_num [twoHitFired, createLaser, fallStep, twoHitGame]
      · left
        by_cases h2 : j < 15 <;>
          simp [twoHitFired, createLaser, fallStep, twoHitGame, h0, h1, h2, farBrick]
  have hm : (shootScan tableLibm twoHitFired 0).min = some 0 := by rw [twoHitFired_scan]
  have hc : (twoHitFired.boxes 0).c ≠ 0 := by
    norm_num [twoHitFired, createLaser, fallStep, twoHitGame]
  ⟨hcol, hm, hc, ((shoot_scoring tableLibm twoHitFired 0 hcol).2.2.1 0 hm hc).1,
    ((shoot_scoring tableLibm twoHitFired 0 hcol).2.2.1 0 hm hc).2.1⟩

/-- C8, counterexample: one firing event from `twoHitGame`; in the firing frame the laser
retires brick 0 (its abscissa goes from 5 to -20) and in the next frame, the laser still
active, it retires brick 1 (from -15 to -20). -/
theorem one_shot_two_bricks :
    ∃ s1 s2 : Game ℚ,
      frame tableLibm 2 spaceKey 1 1 twoHitGame = some s1 ∧
      frame tableLibm 2 noKeys (61 / 60) (61 / 60) s1 = some s2 ∧
      s1.laser 0 = true ∧
      (twoHitGame.boxes 0).x1 = 5 ∧ (s1.boxes 0).x1 = -20 ∧
      (twoHitGame.boxes 1).x1 = -15 ∧ (s1.boxes 1).x1 = -15 ∧
      (s2.boxes 0).x1 = -20 ∧ (s2.boxes 1).x1 = -20 := by
  refine ⟨twoHitAfter1, shoot tableLibm (fallStep twoHitAfter1) 0, twoHit_frame1, twoHit_frame2,
    twoHitAfter1_fields.2.2.2.2, ?_, ?_, ?_, ?_, ?_, ?_⟩
  · norm_num [twoHitGame]
  · rw [twoHitAfter1_boxes]; norm_num
  · norm_num [twoHitGame]
  · rw [twoHitAfter1_boxes]; norm_num [fallStep, twoHitGame]
  · rw [shoot_boxes_of_hit tableLibm _ 0 1 0 (by rw [twoHit_scan2]) (by decide)]
    norm_num [fallStep, twoHitAfter1_boxes]
  · rw [shoot_boxes_self tableLibm _ 0 1 (by rw [twoHit_scan2])]
    have hr : (fallStep twoHitAfter1).rnd = fun _ => 0 := twoHitAfter1_fields.2.2.2.1
    simp [hr]

/-- C8, amended: in each single frame the laser resolution loop (`shoot` applied to the
active legs) changes at most one brick; every other brick is left exactly as it was. -/
theorem resolveLasers_one_brick (L : Libm K) (s : Game K) :
    ∃ j, ∀ k, k ≠ j → (resolveLasers L s).boxes k = s.boxes k := by
  unfold resolveLasers
  rw [List.range_eq_range']
  exact laserLoop_one_brick L 10 0 s (by omega)

/-! ## Speed and final summary -/

/-- C9: for every key state `block_speed` maps a speed in [0.1, 0.5] to a speed in
[0.1, 0.5]; with only the decrease key pressed and speed 0.1 the speed is exactly 0.1 after any
number of calls, and with only the increase key pressed and speed 0.5 it is exactly 0.5 after
any number of calls. -/
theorem block_speed_clamped (k : Keys) (s : Game K)
    (h : 1 / 10 ≤ s.speed ∧ s.speed ≤ 1 / 2) :
    (1 / 10 ≤ (block_speed k s).speed ∧ (block_speed k s).speed ≤ 1 / 2) ∧
    (k.n = false → k.m = true → s.speed = 1 / 10 →
      ∀ n : Nat, (((block_speed k)^[n]) s).speed = 1 / 10) ∧
    (k.n = true → k.m = false → s.speed = 1 / 2 →
      ∀ n : Nat, (((block_speed k)^[n]) s).speed = 1 / 2) := by
  obtain ⟨hlo, hhi⟩ := h
  refine ⟨?_, ?_, ?_⟩
  · unfold block_speed
    cases k.n <;> cases k.m <;> simp <;> (try split_ifs) <;> (try constructor) <;>
      (try simp only [] at *) <;> linarith
  · intro hn hm hs n
    induction n generalizing s with
    | zero => simpa using hs
    | succ n ih =>
      rw [Function.iterate_succ_apply]
      have e : (block_speed k s).speed = 1 / 10 := by
        simp [block_speed, hn, hm, hs]
      exact ih _ (by rw [e]) (by rw [e]; norm_num) e
  · intro hn hm hs n
    induction n generalizing s with
    | zero => simpa using hs
    | succ n ih =>
      rw [Function.iterate_succ_apply]
      have e : (block_speed k s).speed = 1 / 2 := by
        simp [block_speed, hn, hm, hs]
      exact ih _ (by rw [e]; norm_num) (by rw [e]) e

/-- Witness for C9: the initial speed 0.1 with the decrease key pressed. -/
theorem block_speed_clamped_witness :
    ((1 : ℚ) / 10 ≤ (zeroGame (fun _ => 0) (0 : ℚ)).speed ∧
      (zeroGame (fun _ => 0) (0 : ℚ)).speed ≤ 1 / 2) ∧
    (1 / 10 ≤ (block_speed { noKeys with m := true } (zeroGame (fun _ => 0) (0 : ℚ))).speed ∧
      (block_speed { noKeys with m := true } (zeroGame (fun _ => 0) (0 : ℚ))).speed ≤ 1 / 2) :=
  ⟨by norm_num [zeroGame],
    (block_speed_clamped { noKeys with m := true } (zeroGame (fun _ => 0) (0 : ℚ))
      (by norm_num [zeroGame])).1⟩

/-- C10: for every integer `points` the end-of-game summary selects exactly one message, by
the bands `<= 0`, `1..100`, `101..200`, `201..300`, `301..400`, `401..500`, `> 500`, each band
with its own message; 0 selects "Be more careful next time", 150 "Well done. Good job" and 550
the legend message. -/
theorem finalMessage_bands (points : Int) :
    (∃! msg, finalMessage points = some msg) ∧
    (points ≤ 0 ↔ finalMessage points = some "Be more careful next time") ∧
    (1 ≤ points ∧ points ≤ 100 ↔ finalMessage points = some "Not bad, try harder next time") ∧
    (101 ≤ points ∧ points ≤ 200 ↔ finalMessage points = some "Well done. Good job") ∧
    (201 ≤ points ∧ points ≤ 300 ↔
      finalMessage points = some "You\x27re a good player already") ∧
    (301 ≤ points ∧ points ≤ 400 ↔ finalMessage points = some "Great score! Cheers") ∧
    (401 ≤ points ∧ points ≤ 500 ↔ finalMessage points = some "Whohoho! Amazing game") ∧
    (500 < points ↔ finalMessage points = some "You\x27re a legend!") ∧
    finalMessage 0 = some "Be more careful next time" ∧
    finalMessage 150 = some "Well done. Good job" ∧
    finalMessage 550 = some "You\x27re a legend!" := by
  refine ⟨?_, ?_, ?_, ?_, ?_, ?_, ?_, ?_, by decide, by decide, by decide⟩
  · unfold finalMessage
    split_ifs
    all_goals first
      | exact ⟨_, rfl, fun y hy => (Option.some.inj hy).symm⟩
      | (exfalso; omega)
  all_goals
    unfold finalMessage
    split_ifs <;> simp <;> omega

/-! ## Mirror geometry -/

/-- The intercept and the second endpoint of each mirror agree with its angle, given the three
values of the tangent. -/
theorem mirrorInit_line (L : Libm K) (h3 : L.tan (L.pi / 3) = L.sqrt 3)
    (h6 : L.tan (L.pi / 6) = 1 / L.sqrt 3) (h34 : L.tan ((3 * L.pi) / 4) = -1) (i : Nat) :
    (mirrorInit L i).c = (mirrorInit L i).y1 - L.tan (mirrorInit L i).m * (mirrorInit L i).x1 ∧
    (mirrorInit L i).y2 = L.tan (mirrorInit L i).m * (mirrorInit L i).x2 + (mirrorInit L i).c := by
  rcases i with _ | _ | i
  · simp only [mirrorInit]
    rw [h3]
    constructor <;> ring
  · simp only [mirrorInit]
    rw [h6]
    constructor <;> ring
  · simp only [mirrorInit]
    rw [h34]
    constructor <;> ring

/-- The real tangent at three quarters of a half turn. -/
theorem tan_three_pi_div_four : Real.tan ((3 * Real.pi) / 4) = -1 := by
  have h : (3 * Real.pi) / 4 = Real.pi - Real.pi / 4 := by ring
  rw [h, Real.tan_pi_sub, Real.tan_pi_div_four]

/-- C11: over the real numbers, with the real `tan`, `sqrt` and `pi`, each of the three
mirrors set up by `createMirrors` stores an intercept `c` equal to `y1 - tan(m)*x1`, and the
same line passes through the second endpoint: `y2 = tan(m)*x2 + c`. -/
theorem createMirrors_exact (s : Game ℝ) (i : Fin 3) :
    let L : Libm ℝ := ⟨Real.tan, Real.sin, Real.cos, Real.sqrt, Real.pi⟩
    let r := (createMirrors L s).mirror i
    r.c = r.y1 - Real.tan r.m * r.x1 ∧ r.y2 = Real.tan r.m * r.x2 + r.c := by
  intro L r
  have hi : (i : Nat) < 3 := i.isLt
  have e : r = mirrorInit L i := by
    simp [r, createMirrors, hi]
  rw [e]
  exact mirrorInit_line L Real.tan_pi_div_three Real.tan_pi_div_six tan_three_pi_div_four i

/-! ## Game over -/

theorem scorePair_gameover {F : Type} [LinearOrderedField F] (s : Game F) (i j : Nat)
    (h : s.gameover = true) : (scorePair s i j).gameover = true := by
  unfold scorePair
  split_ifs <;> simp [h]

theorem score_gameover (s : Game K) (h : s.gameover = true) : (score s).gameover = true := by
  unfold score
  have inner : ∀ (l : List Nat) (i : Nat) (t : Game K), t.gameover = true →
      (l.foldl (fun s j => scorePair s i j) t).gameover = true := by
    intro l i
    induction l with
    | nil => intro t ht; exact ht
    | cons j l ih => intro t ht; exact ih _ (scorePair_gameover t i j ht)
  have outer : ∀ (l : List Nat) (t : Game K), t.gameover = true →
      (l.foldl (fun s i => (List.range 2).foldl (fun s j => scorePair s i j) s) t).gameover
        = true := by
    intro l
    induction l with
    | nil => intro t ht; exact ht
    | cons i l ih => intro t ht; exact ih _ (inner _ i t ht)
  exact outer _ s h

theorem shoot_gameover (L : Libm K) (s : Game K) (i : Nat) (h : s.gameover = true) :
    (shoot L s i).gameover = true := by
  cases hm : (shootScan L s i).min with
  | none => rw [shoot_of_miss L s i hm]; exact h
  | some j =>
    have : (shootScore s j).gameover = true := by
      unfold shootScore
      split_ifs <;> simp [h]
    simp [shoot, hm, createLaser, createRectangle, this]

theorem respawnStep_gameover (s : Game K) (i : Nat) :
    (respawnStep s i).gameover = s.gameover := by
  unfold respawnStep
  dsimp only
  split_ifs <;> rfl

theorem respawn_gameover (s : Game K) : (respawn s).gameover = s.gameover := by
  unfold respawn
  have : ∀ (l : List Nat) (t : Game K), (l.foldl respawnStep t).gameover = t.gameover := by
    intro l
    induction l with
    | nil => intro t; rfl
    | cons i l ih =>
      intro t
      rw [List.foldl_cons, ih, respawnStep_gameover]
  exact this _ s

theorem laserLoop_gameover (L : Libm K) (l : List Nat) :
    ∀ s : Game K, s.gameover = true → (laserLoop L l s).gameover = true := by
  induction l with
  | nil => intro s h; exact h
  | cons i l ih =>
    intro s h
    unfold laserLoop
    split_ifs
    · exact ih _ (shoot_gameover L s i h)
    · exact h

theorem fire_gameover (L : Libm K) (fuel : Nat) (s g : Game K)
    (h : fire L fuel s = some g) : g.gameover = s.gameover := by
  simp only [fire, Option.map_eq_some'] at h
  obtain ⟨calls, _, rfl⟩ := h
  have : ∀ (l : List (LaserCall K)) (t : Game K),
      (l.foldl (applyCall L) t).gameover = t.gameover := by
    intro l
    induction l with
    | nil => intro t; rfl
    | cons k l ih => intro t; rw [List.foldl_cons, ih]; rfl
  exact this _ s

theorem draw_gameover (L : Libm K) (fuel : Nat) (k : Keys) (t1 t2 : K) (s g : Game K)
    (h : s.gameover = true) (hd : draw L fuel k t1 t2 s = some g) : g.gameover = true := by
  simp only [draw, Option.map_eq_some'] at hd
  obtain ⟨s2, hs2, rfl⟩ := hd
  have h2 : s2.gameover = true := by
    split_ifs at hs2 with c1 c2
    · simp only [Option.map_eq_some'] at hs2
      obtain ⟨g0, hg0, rfl⟩ := hs2
      have := fire_gameover L fuel _ _ hg0
      simp [this, fallStep, h]
    · simp only [Option.map_some', Option.some.injEq] at hs2
      rw [← hs2]; exact h
    · simp only [Option.some.injEq] at hs2
      rw [← hs2]; exact h
  split_ifs
  · exact laserLoop_gameover L _ _ h2
  · exact h2

/-- C12: for every state in which `gameover` is true, whatever the keys held: `score`,
`shoot(i)`, `block_speed`, the brick fall step, the respawn loop and each of its steps, the
basket and cannon movements, the laser loops of `draw` and a whole iteration of the frame loop
(when it returns) leave `gameover` true; and the frame loop `while (... && !gameover)` runs
no further iteration from such a state. -/
theorem gameover_one_way (L : Libm K) (k : Keys) (s : Game K) (h : s.gameover = true) :
    (score s).gameover = true ∧
    (∀ i, (shoot L s i).gameover = true) ∧
    (block_speed k s).gameover = true ∧
    (fallStep s).gameover = true ∧
    (respawn s).gameover = true ∧
    (∀ i, (respawnStep s i).gameover = true) ∧
    (translateBaskets k s).gameover = true ∧
    (translateCannon k s).gameover = true ∧
    (rotateCannon k s).gameover = true ∧
    (resolveLasers L s).gameover = true ∧
    (clearLasers s).gameover = true ∧
    (∀ fuel t1 t2 g, frame L fuel k t1 t2 s = some g → g.gameover = true) ∧
    (∀ fuel inputs, mainLoop L fuel inputs s = some s) := by
  have hb : ∀ t : Game K, (block_speed k t).gameover = t.gameover := by
    intro t; unfold block_speed; split_ifs <;> rfl
  have htb : ∀ t : Game K, (translateBaskets k t).gameover = t.gameover := by
    intro t; unfold translateBaskets; split_ifs <;> rfl
  have htc : ∀ t : Game K, (translateCannon k t).gameover = t.gameover := by
    intro t; unfold translateCannon; split_ifs <;> rfl
  have hrc : ∀ t : Game K, (rotateCannon k t).gameover = t.gameover := by
    intro t; unfold rotateCannon; split_ifs <;> rfl
  refine ⟨score_gameover s h, fun i => shoot_gameover L s i h, by rw [hb]; exact h, h,
    by rw [respawn_gameover]; exact h, ?_, by rw [htb]; exact h, by rw [htc]; exact h,
    by rw [hrc]; exact h, laserLoop_gameover L _ s h, h, ?_, ?_⟩
  · intro i
    rw [respawnStep_gameover]
    exact h
  · intro fuel t1 t2 g hg
    unfold frame at hg
    refine draw_gameover L fuel k t1 t2 _ g ?_ hg
    rw [hb, respawn_gameover, hrc, htc]
    exact score_gameover _ (by rw [htb]; exact h)
  · intro fuel inputs
    cases inputs with
    | nil => rfl
    | cons x rest => simp [mainLoop, h]

/-- Witness for C12: the initial globals with `gameover` set. -/
theorem gameover_one_way_witness :
    ({ zeroGame (fun _ => 0) (0 : ℚ) with gameover := true } : Game ℚ).gameover = true ∧
    (score ({ zeroGame (fun _ => 0) (0 : ℚ) with gameover := true } : Game ℚ)).gameover
      = true :=
  ⟨rfl, (gameover_one_way tableLibm noKeys
    ({ zeroGame (fun _ => 0) (0 : ℚ) with gameover := true } : Game ℚ) rfl).1⟩

/-! ## Bounds on the reflection chain -/

/-- Loop invariant while the flag is clear: `count` is the number of consumed mirrors and the
calls made so far have the indices `0 .. count-1`. -/
theorem forMirrors_invariant (L : Libm K) (mirror : Nat → reflectors K) (l : List Nat) :
    ∀ st : Locals K, (∀ i ∈ l, i < 3) → st.flag = 0 → st.count = consumed st →
      st.calls.map (fun k => k.i) = List.range st.count →
      ((forMirrors L mirror l st).flag = 0 ∧
        (forMirrors L mirror l st).count = consumed (forMirrors L mirror l st) ∧
        (forMirrors L mirror l st).calls.map (fun k => k.i)
          = List.range (forMirrors L mirror l st).count) ∨
      ((forMirrors L mirror l st).flag = 1 ∧
        (forMirrors L mirror l st).count = consumed (forMirrors L mirror l st) ∧
        (forMirrors L mirror l st).count ≤ 2 ∧
        (forMirrors L mirror l st).calls.map (fun k => k.i)
          = List.range ((forMirrors L mirror l st).count + 1)) := by
  induction l with
  | nil =>
    intro st _ hf hc hk
    left
    exact ⟨hf, hc, hk⟩
  | cons j l ih =>
    intro st hl hf hc hk
    have hj3 : j < 3 := hl j (List.mem_cons_self j l)
    have hl' : ∀ i ∈ l, i < 3 := fun i hi => hl i (List.mem_cons_of_mem j hi)
    by_cases hj : st.check j = false
    · by_cases hacc : inSpan (mirror j) (hitX L (mirror j) st.x1 st.y1 st.m1) = true
      · simp only [forMirrors, hj, hacc, if_true]
        refine ih _ hl' ?_ ?_ ?_
        · exact hf
        · have : j = 0 ∨ j = 1 ∨ j = 2 := by omega
          simp only [consumed] at hc ⊢
          rcases this with e | e | e <;> subst e <;>
            simp [Function.update, hj] at hc ⊢ <;> omega
        · simp [hk, List.range_succ]
      · by_cases hcnt : st.count > 0
        · right
          simp only [forMirrors, hj, hacc, hcnt, if_true, if_false]
          refine ⟨rfl, hc, ?_, ?_⟩
          · have : j = 0 ∨ j = 1 ∨ j = 2 := by omega
            rw [hc]
            simp only [consumed]
            rcases this with e | e | e <;> subst e <;> simp [hj] <;>
              split_ifs <;> omega
          · simp [hk, List.range_succ]
        · simp only [forMirrors, hj, hacc, hcnt, if_true, if_false]
          exact ih _ hl' hf hc hk
    · have hj' : st.check j = true := by simpa using hj
      simp only [forMirrors, hj', Bool.true_eq_false, if_false]
      exact ih st hl' hf hc hk

/-- The invariant of the loop `while (flag == 0)`: either the flag is clear, `count` is the
number of consumed mirrors and the calls have indices `0 .. count-1`; or the flag is set,
`count <= 2` holds and the calls have indices `0 .. count`. -/
theorem chainRun_invariant (L : Libm K) (mirror : Nat → reflectors K) (n : Nat) :
    ∀ st : Locals K,
      ((st.flag = 0 ∧ st.count = consumed st ∧
          st.calls.map (fun k => k.i) = List.range st.count) ∨
        (st.flag = 1 ∧ st.count = consumed st ∧ st.count ≤ 2 ∧
          st.calls.map (fun k => k.i) = List.range (st.count + 1))) →
      (((chainRun L mirror n st).flag = 0 ∧
          (chainRun L mirror n st).count = consumed (chainRun L mirror n st) ∧
          (chainRun L mirror n st).calls.map (fun k => k.i)
            = List.range (chainRun L mirror n st).count) ∨
        ((chainRun L mirror n st).flag = 1 ∧
          (chainRun L mirror n st).count = consumed (chainRun L mirror n st) ∧
          (chainRun L mirror n st).count ≤ 2 ∧
          (chainRun L mirror n st).calls.map (fun k => k.i)
            = List.range ((chainRun L mirror n st).count + 1))) := by
  induction n with
  | zero => intro st h; exact h
  | succ n ih =>
    intro st h
    rcases h with ⟨hf, hc, hk⟩ | ⟨hf, hc, h2, hk⟩
    · simp only [chainRun, hf, if_true]
      apply ih
      have hfor := forMirrors_invariant L mirror [0, 1, 2] st (by simp) hf hc hk
      unfold chainPass
      by_cases h0 : (forMirrors L mirror [0, 1, 2] st).count = 0 ∧
          (forMirrors L mirror [0, 1, 2] st).flag = 0
      · right
        rcases hfor with ⟨_, c1, k1⟩ | ⟨f1, _, _, _⟩
        · rw [if_pos h0]
          refine ⟨rfl, c1, ?_, ?_⟩
          · show (forMirrors L mirror [0, 1, 2] st).count ≤ 2
            omega
          · show ((forMirrors L mirror [0, 1, 2] st).calls ++ [_]).map
                (fun k : LaserCall K => k.i)
              = List.range ((forMirrors L mirror [0, 1, 2] st).count + 1)
            rw [List.map_append, k1, List.range_succ]
            rfl
        · omega
      · rw [if_neg h0]
        exact hfor
    · have : ¬ st.flag = 0 := by omega
      simp only [chainRun, this, if_false]
      right
      exact ⟨hf, hc, h2, hk⟩

/-- A returned loop state is the state after some number of passes. -/
theorem chainLoop_eq_chainRun (L : Libm K) (mirror : Nat → reflectors K) (fuel : Nat) :
    ∀ st st' : Locals K, chainLoop L mirror fuel st = some st' →
      st' = chainRun L mirror fuel st ∧ st'.flag ≠ 0 := by
  induction fuel with
  | zero => intro st st' h; simp [chainLoop] at h
  | succ n ih =>
    intro st st' h
    by_cases hf : st.flag = 0
    · simp only [chainLoop, hf, if_true] at h
      simp only [chainRun, hf, if_true]
      exact ih _ _ h
    · simp only [chainLoop, hf, if_false, Option.some.injEq] at h
      subst h
      refine ⟨?_, hf⟩
      cases n <;> simp [chainRun, hf]

theorem consumed_le_three {F : Type} (st : Locals F) : consumed st ≤ 3 := by
  unfold consumed
  split_ifs <;> omega

theorem chain_index_bound (L : Libm K) (mirror : Nat → reflectors K) (x1 y1 a : K) (n : Nat) :
    (chainRun L mirror n (chainInit x1 y1 a)).count
      = consumed (chainRun L mirror n (chainInit x1 y1 a)) ∧
    (chainRun L mirror n (chainInit x1 y1 a)).count ≤ 3 ∧
    (chainRun L mirror n (chainInit x1 y1 a)).calls.map (fun k => k.i)
      = List.range (chainRun L mirror n (chainInit x1 y1 a)).calls.length ∧
    (chainRun L mirror n (chainInit x1 y1 a)).calls.length ≤ 3 ∧
    (∀ k ∈ (chainRun L mirror n (chainInit x1 y1 a)).calls, k.i ≤ 2) := by
  have h := chainRun_invariant L mirror n (chainInit x1 y1 a)
    (Or.inl ⟨rfl, by simp [chainInit, consumed], by simp [chainInit]⟩)
  have h3 := consumed_le_three (chainRun L mirror n (chainInit x1 y1 a))
  have key : ∀ (c : Nat) (l : List (LaserCall K)), l.map (fun k => k.i) = List.range c →
      c ≤ 3 → l.map (fun k => k.i) = List.range l.length ∧ l.length ≤ 3 ∧ ∀ k ∈ l, k.i ≤ 2 := by
    intro c l hl hc
    have hlen : l.length = c := by
      have := congrArg List.length hl
      simpa using this
    refine ⟨by rw [hlen]; exact hl, by omega, ?_⟩
    intro k hk
    have : k.i ∈ l.map (fun k => k.i) := List.mem_map_of_mem _ hk
    rw [hl, List.mem_range] at this
    omega
  rcases h with ⟨_, hc, hk⟩ | ⟨_, hc, h2, hk⟩
  · have := key _ _ hk (by omega)
    exact ⟨hc, by omega, this.1, this.2.1, this.2.2⟩
  · have := key _ _ hk (by omega)
    exact ⟨hc, by omega, this.1, this.2.1, this.2.2⟩

/-- C14: for every firing origin and angle, at every point of the loop `count` equals the
number of consumed mirrors (each acceptance consumes one mirror not consumed before), so at
most 3 bounces are made; the calls to `createLaser` carry the indices 0, 1, 2, ... in order,
at most three calls are made and every index is at most 2, hence at most 3 and inside the
10-slot arrays.  The same bounds hold for the calls of a firing that returns. -/
theorem chain_bounces_bounded (L : Libm K) (mirror : Nat → reflectors K) (x1 y1 a : K) :
    (∀ n,
      (chainRun L mirror n (chainInit x1 y1 a)).count
        = consumed (chainRun L mirror n (chainInit x1 y1 a)) ∧
      (chainRun L mirror n (chainInit x1 y1 a)).count ≤ 3 ∧
      (chainRun L mirror n (chainInit x1 y1 a)).calls.length ≤ 3 ∧
      (∀ k ∈ (chainRun L mirror n (chainInit x1 y1 a)).calls, k.i ≤ 2 ∧ k.i ≤ 3 ∧ k.i < 10)) ∧
    (∀ fuel calls, chain L mirror fuel x1 y1 a = some calls →
      calls.length ≤ 3 ∧ ∀ k ∈ calls, k.i ≤ 2 ∧ k.i ≤ 3 ∧ k.i < 10) := by
  constructor
  · intro n
    obtain ⟨h1, h2, _, h4, h5⟩ := chain_index_bound L mirror x1 y1 a n
    exact ⟨h1, h2, h4, fun k hk => ⟨h5 k hk, by have := h5 k hk; omega,
      by have := h5 k hk; omega⟩⟩
  · intro fuel calls h
    simp only [chain, Option.map_eq_some'] at h
    obtain ⟨st, hst, rfl⟩ := h
    obtain ⟨e, _⟩ := chainLoop_eq_chainRun L mirror fuel _ _ hst
    obtain ⟨_, _, _, h4, h5⟩ := chain_index_bound L mirror x1 y1 a fuel
    rw [← e] at h4 h5
    exact ⟨h4, fun k hk => ⟨h5 k hk, by have := h5 k hk; omega, by have := h5 k hk; omega⟩⟩

/-- Witness for C14: the single call of the firing from the tip `(-31,50)` at angle 0. -/
theorem chain_bounces_bounded_witness :
    chain tableLibm (mirrorInit tableLibm) 2 (-31) 50 0 =
      some [⟨-31, 50, 0, 0, 0, rayC tableLibm (-31) 50 0, 0⟩] ∧
    ([⟨-31, 50, 0, 0, 0, rayC tableLibm (-31) 50 0, 0⟩] : List (LaserCall ℚ)).length ≤ 3 :=
  have h : chain tableLibm (mirrorInit tableLibm) 2 (-31) 50 0 =
      some [⟨-31, 50, 0, 0, 0, rayC tableLibm (-31) 50 0, 0⟩] :=
    chain_miss_all tableLibm (mirrorInit tableLibm) (-31) 50 0
      (by norm_num [hits, inSpan, hitX, fdiv, mirrorInit, tableLibm])
      (by norm_num [hits, inSpan, hitX, fdiv, mirrorInit, tableLibm])
      (by norm_num [hits, inSpan, hitX, fdiv, mirrorInit, tableLibm]) 0
  ⟨h, ((chain_bounces_bounded tableLibm (mirrorInit tableLibm) (-31) 50 0).2 2 _ h).1⟩

/-- A ray parallel to mirror `r` is refused by the acceptance test. -/
theorem hits_parallel (L : Libm K) (r : reflectors K) (x y m : K) (h : L.tan m = L.tan r.m) :
    hits L r x y m = false := by
  simp [hits, hitX, fdiv, h, inSpan]

/-- C17: for every ray whose slope equals the slope of a not-yet-consumed mirror `i`, the
loop body for that mirror does not accept it: the acceptance test is false, and the step is
the refusal branch, which leaves `check` (so mirror `i` stays unconsumed) and `count` as they
were and emits no leg ending on the mirror: after a bounce it emits the final unbounded leg
(sentinel endpoint) and sets the flag, before any bounce it goes on to the next mirror. -/
theorem parallel_mirror_refused (L : Libm K) (mirror : Nat → reflectors K) (i : Nat)
    (rest : List Nat) (st : Locals K) (hc : st.check i = false)
    (hp : L.tan st.m1 = L.tan (mirror i).m) :
    hits L (mirror i) st.x1 st.y1 st.m1 = false ∧
    forMirrors L mirror (i :: rest) st =
      (if st.count > 0 then
        { st with c1 := rayC L st.x1 st.y1 st.m1, flag := 1,
                  calls := st.calls ++
                    [⟨st.x1, st.y1, 0, 0, st.m1, rayC L st.x1 st.y1 st.m1, st.count⟩] }
      else forMirrors L mirror rest { st with c1 := rayC L st.x1 st.y1 st.m1 }) ∧
    (forMirrors L mirror [i] st).check = st.check ∧
    (forMirrors L mirror [i] st).count = st.count ∧
    (forMirrors L mirror [i] st).x1 = st.x1 ∧ (forMirrors L mirror [i] st).m1 = st.m1 := by
  have h := hits_parallel L (mirror i) st.x1 st.y1 st.m1 hp
  have h' : inSpan (mirror i) (hitX L (mirror i) st.x1 st.y1 st.m1) = false := h
  refine ⟨h, ?_, ?_, ?_, ?_, ?_⟩
  · simp only [forMirrors, hc, h', if_true, Bool.false_eq_true, if_false, rayC]
  all_goals
    simp only [forMirrors, hc, h', if_true, Bool.false_eq_true, if_false]
    split_ifs <;> rfl

/-- Witness for C17: a ray at the angle of mirror 1 itself, from the cannon tip. -/
theorem parallel_mirror_refused_witness :
    (chainInit (-31 : ℚ) 0 (1309 / 1250)).check 0 = false ∧
    tableLibm.tan (chainInit (-31 : ℚ) 0 (1309 / 1250)).m1
      = tableLibm.tan (mirrorInit tableLibm 0).m ∧
    hits tableLibm (mirrorInit tableLibm 0) (-31) 0 (1309 / 1250) = false :=
  ⟨rfl, by norm_num [chainInit, mirrorInit, tableLibm],
    (parallel_mirror_refused tableLibm (mirrorInit tableLibm) 0 [1, 2]
      (chainInit (-31) 0 (1309 / 1250)) rfl
      (by norm_num [chainInit, mirrorInit, tableLibm])).1⟩
/-! ## The final leg after a bounce -/

/-- Mirrors 0 and 1 refuse the fired ray, mirror 2 accepts it, and mirror 0 refuses the
reflected ray: the loop returns after two passes with two calls to `createLaser`; mirror 1 is
not tested against the reflected ray and stays unconsumed. -/
theorem chainLoop_hit2_miss0 (L : Libm K) (mirror : Nat → reflectors K) (x1 y1 a : K)
    (h0 : hits L (mirror 0) x1 y1 a = false)
    (h1 : hits L (mirror 1) x1 y1 a = false)
    (h2 : hits L (mirror 2) x1 y1 a = true)
    (h0' : hits L (mirror 0) (meetX L (mirror 2) x1 y1 a) (meetY L (mirror 2) x1 y1 a)
            (2 * (mirror 2).m - a) = false) (n : Nat) :
    chainLoop L mirror (n + 3) (chainInit x1 y1 a) =
      some { x1 := meetX L (mirror 2) x1 y1 a, y1 := meetY L (mirror 2) x1 y1 a,
             m1 := 2 * (mirror 2).m - a,
             c1 := rayC L (meetX L (mirror 2) x1 y1 a) (meetY L (mirror 2) x1 y1 a)
                    (2 * (mirror 2).m - a),
             check := Function.update (fun _ => false) 2 true,
             count := 1, flag := 1,
             calls := [⟨x1, y1, meetX L (mirror 2) x1 y1 a, meetY L (mirror 2) x1 y1 a, a,
                        rayC L x1 y1 a, 0⟩,
                       ⟨meetX L (mirror 2) x1 y1 a, meetY L (mirror 2) x1 y1 a, 0, 0,
                        2 * (mirror 2).m - a,
                        rayC L (meetX L (mirror 2) x1 y1 a) (meetY L (mirror 2) x1 y1 a)
                          (2 * (mirror 2).m - a), 1⟩] } := by
  have e2 := hitX_of_hits L _ _ _ _ h2
  have h2' : inSpan (mirror 2) (hitX L (mirror 2) x1 y1 a) = true := h2
  rw [e2] at h2'
  unfold hits at h0 h1 h0'
  simp [chainLoop, chainPass, forMirrors, chainInit, e2, h2', h0, h1, meetY, rayC] at h0' ⊢
  simp [h0', Function.update]

/-- The firing block in that case: two calls of `createLaser`. -/
theorem fire_of_hit2_miss0 (L : Libm K) (s : Game K) (n : Nat) (x1 y1 a : K)
    (hx : (s.gun 0).x + ((s.gun 1).x - (s.gun 0).x) * L.cos (s.gun 1).rotate = x1)
    (hy : (s.gun 1).y + ((s.gun 1).x - (s.gun 0).x) * L.sin (s.gun 1).rotate = y1)
    (ha : (s.gun 1).rotate = a)
    (h0 : hits L (s.mirror 0) x1 y1 a = false)
    (h1 : hits L (s.mirror 1) x1 y1 a = false)
    (h2 : hits L (s.mirror 2) x1 y1 a = true)
    (h0' : hits L (s.mirror 0) (meetX L (s.mirror 2) x1 y1 a) (meetY L (s.mirror 2) x1 y1 a)
            (2 * (s.mirror 2).m - a) = false) :
    fire L (n + 3) s =
      some (applyCall L
        (applyCall L s ⟨x1, y1, meetX L (s.mirror 2) x1 y1 a, meetY L (s.mirror 2) x1 y1 a, a,
          rayC L x1 y1 a, 0⟩)
        ⟨meetX L (s.mirror 2) x1 y1 a, meetY L (s.mirror 2) x1 y1 a, 0, 0,
          2 * (s.mirror 2).m - a,
          rayC L (meetX L (s.mirror 2) x1 y1 a) (meetY L (s.mirror 2) x1 y1 a)
            (2 * (s.mirror 2).m - a), 1⟩) := by
  subst hx hy ha
  simp only [fire, chain]
  rw [chainLoop_hit2_miss0 L s.mirror _ _ _ h0 h1 h2 h0' n]
  rfl

/-- The cannon and the mirrors of `highGame`. -/
theorem highGame_cannon :
    highGame.mirror 0 = mirrorInit tableLibm2 0 ∧ highGame.mirror 1 = mirrorInit tableLibm2 1 ∧
    highGame.mirror 2 = mirrorInit tableLibm2 2 ∧
    (highGame.gun 0).x = -39 ∧ (highGame.gun 1).x = -31 ∧ (highGame.gun 1).y = 61 / 2 ∧
    (highGame.gun 1).rotate = -(1 / 20) := by
  obtain ⟨r1, r2, r3, r4, r5⟩ := rotateCannon_iterate
    ((translateCannon sKey)^[61] (initGL tableLibm2 (zeroGame (fun _ => 0) (0 : ℚ)))) 5
  obtain ⟨t1, t2, t3, t4, t5⟩ := translateCannon_iterate
    (initGL tableLibm2 (zeroGame (fun _ => 0) (0 : ℚ))) 61
  unfold highGame
  refine ⟨?_, ?_, ?_, ?_, ?_, ?_, ?_⟩
  · rw [r1, t1]; exact initGL_mirror _ _ 0 (by decide)
  · rw [r1, t1]; exact initGL_mirror _ _ 1 (by decide)
  · rw [r1, t1]; exact initGL_mirror _ _ 2 (by decide)
  · rw [r2, t2]; norm_num [initGL_gun, createCannon]
  · rw [r3, t3]; norm_num [initGL_gun, createCannon]
  · rw [r4, t5]; norm_num [initGL_gun, createCannon]
  · rw [r5, t4]; norm_num [initGL_gun, createCannon, zeroGame]

/-- The cannon tip of `highGame`. -/
theorem highGame_tip :
    (highGame.gun 0).x + ((highGame.gun 1).x - (highGame.gun 0).x)
        * tableLibm2.cos (highGame.gun 1).rotate = -(19381 / 625) ∧
    (highGame.gun 1).y + ((highGame.gun 1).x - (highGame.gun 0).x)
        * tableLibm2.sin (highGame.gun 1).rotate = 301 / 10 := by
  obtain ⟨_, _, _, g0, g1, gy, gr⟩ := highGame_cannon
  rw [g0, g1, gy, gr]
  norm_num [tableLibm2]

/-- The tabulated mirrors. -/
theorem table2_mirrors :
    mirrorInit tableLibm2 0 = ⟨-1, 4, -2, -2 + 5 * (17321 / 10000), 1309 / 1250, -(2679 / 10000)⟩ ∧
    mirrorInit tableLibm2 1 = ⟨28, 36, -25, -25 + 8 / (17321 / 10000), 1309 / 2500,
      -(102918 / 2500)⟩ ∧
    mirrorInit tableLibm2 2 = ⟨25, 32, 32, 25, 11781 / 5000, 57⟩ := by
  refine ⟨?_, ?_, ?_⟩ <;> norm_num [mirrorInit, tableLibm2, tableLibm]

/-- The ray fired from `highGame`: mirrors 0 and 1 refuse it, mirror 2 accepts it at
`(29.9479, 27.0521)`. -/
theorem high_pass1 :
    hits tableLibm2 (mirrorInit tableLibm2 0) (-(19381 / 625)) (301 / 10) (-(1 / 20)) = false ∧
    hits tableLibm2 (mirrorInit tableLibm2 1) (-(19381 / 625)) (301 / 10) (-(1 / 20)) = false ∧
    hits tableLibm2 (mirrorInit tableLibm2 2) (-(19381 / 625)) (301 / 10) (-(1 / 20)) = true ∧
    meetX tableLibm2 (mirrorInit tableLibm2 2) (-(19381 / 625)) (301 / 10) (-(1 / 20))
      = 355631 / 11875 ∧
    meetY tableLibm2 (mirrorInit tableLibm2 2) (-(19381 / 625)) (301 / 10) (-(1 / 20))
      = 321244 / 11875 ∧
    2 * (mirrorInit tableLibm2 2).m - (-(1 / 20)) = (5953 / 1250 : ℚ) := by
  obtain ⟨m0, m1, m2⟩ := table2_mirrors
  rw [m0, m1, m2]
  refine ⟨?_, ?_, ?_, ?_, ?_, ?_⟩ <;>
    norm_num [hits, inSpan, hitX, fdiv, meetX, meetY, rayC, tableLibm2, tableLibm]

/-- The reflected ray, from `(29.9479, 27.0521)` at angle `4.7624`: mirror 0 refuses it,
and its line meets mirror 1 at `x = 32.4253`, strictly inside the span `(28, 36)`. -/
theorem high_pass2 :
    hits tableLibm2 (mirrorInit tableLibm2 0) (355631 / 11875) (321244 / 11875) (5953 / 1250)
      = false ∧
    hits tableLibm2 (mirrorInit tableLibm2 1) (355631 / 11875) (321244 / 11875) (5953 / 1250)
      = true ∧
    meetX tableLibm2 (mirrorInit tableLibm2 1) (355631 / 11875) (321244 / 11875) (5953 / 1250)
      = 26384068953 / 813686875 ∧
    meetY tableLibm2 (mirrorInit tableLibm2 1) (355631 / 11875) (321244 / 11875) (5953 / 1250)
      = -(91315244535189 / 4068434375000) ∧
    rayC tableLibm2 (355631 / 11875) (321244 / 11875) (5953 / 1250)
      = 74263601859 / 118750000 := by
  obtain ⟨m0, m1, m2⟩ := table2_mirrors
  rw [m0, m1]
  refine ⟨?_, ?_, ?_, ?_, ?_⟩ <;>
    norm_num [hits, inSpan, hitX, fdiv, meetX, meetY, rayC, tableLibm2, tableLibm]

/-- The loop state returned for the firing from `highGame`. -/
theorem high_chainLoop (n : Nat) :
    chainLoop tableLibm2 highGame.mirror (n + 3)
        (chainInit (-(19381 / 625)) (301 / 10) (-(1 / 20))) =
      some { x1 := 355631 / 11875, y1 := 321244 / 11875, m1 := 5953 / 1250,
             c1 := 74263601859 / 118750000,
             check := Function.update (fun _ => false) 2 true, count := 1, flag := 1,
             calls := [⟨-(19381 / 625), 301 / 10, 355631 / 11875, 321244 / 11875, -(1 / 20),
                        356869 / 12500, 0⟩,
                       ⟨355631 / 11875, 321244 / 11875, 0, 0, 5953 / 1250,
                        74263601859 / 118750000, 1⟩] } := by
  obtain ⟨e0, e1, e2, _⟩ := highGame_cannon
  obtain ⟨p0, p1, p2, px, py, pa⟩ := high_pass1
  obtain ⟨q0, _, _, _, qc⟩ := high_pass2
  have h := chainLoop_hit2_miss0 tableLibm2 highGame.mirror (-(19381 / 625)) (301 / 10)
    (-(1 / 20)) (by rw [e0]; exact p0) (by rw [e1]; exact p1) (by rw [e2]; exact p2)
    (by rw [e0, e2, px, py, pa]; exact q0) n
  rw [e2, px, py, pa, qc] at h
  rw [h]
  have : rayC tableLibm2 (-(19381 / 625)) (301 / 10) (-(1 / 20)) = 356869 / 12500 := by
    norm_num [rayC, tableLibm2]
  rw [this]

/-- C13 (refuted on the code): from the game as initialised, `S` held for 61 frames and `D`
for 5 frames bring the cannon to `y = 30.5`, angle `-0.05`.  The ray fired from the tip
`(-31.0096, 30.1)` is refused by `mirror[0]` and `mirror[1]` and accepted by `mirror[2]` at
`(29.9479, 27.0521)`.  In the next pass `mirror[0]` refuses the reflected ray and, a bounce
having been made, the loop emits the final unbounded leg (index 1, sentinel endpoint) and
stops: `flag = 1`, `count = 1`, `mirror[1]` still unconsumed and never tested against the
reflected ray.  Yet the line of the reflected ray strikes `mirror[1]` at `x = 32.4253`,
strictly inside its span `(28, 36)` and ahead of the ray, which travels towards larger `x`
(`cos 4.7624 > 0`). -/
theorem final_leg_skips_struck_mirror :
    ∃ st : Locals ℚ,
      chainLoop tableLibm2 highGame.mirror 3
        (chainInit
          ((highGame.gun 0).x + ((highGame.gun 1).x - (highGame.gun 0).x)
            * tableLibm2.cos (highGame.gun 1).rotate)
          ((highGame.gun 1).y + ((highGame.gun 1).x - (highGame.gun 0).x)
            * tableLibm2.sin (highGame.gun 1).rotate)
          (highGame.gun 1).rotate) = some st ∧
      st.flag = 1 ∧ 0 < st.count ∧
      st.calls.getLast? = some ⟨st.x1, st.y1, 0, 0, st.m1, st.c1, 1⟩ ∧
      st.check 1 = false ∧
      hits tableLibm2 (highGame.mirror 1) st.x1 st.y1 st.m1 = true ∧
      (highGame.mirror 1).x1 < meetX tableLibm2 (highGame.mirror 1) st.x1 st.y1 st.m1 ∧
      meetX tableLibm2 (highGame.mirror 1) st.x1 st.y1 st.m1 < (highGame.mirror 1).x2 ∧
      st.x1 < meetX tableLibm2 (highGame.mirror 1) st.x1 st.y1 st.m1 ∧
      0 < tableLibm2.cos st.m1 := by
  obtain ⟨_, e1, _, _, _, _, gr⟩ := highGame_cannon
  obtain ⟨tx, ty⟩ := highGame_tip
  obtain ⟨_, q1, qx, _, _⟩ := high_pass2
  obtain ⟨_, m1, _⟩ := table2_mirrors
  rw [tx, ty, gr]
  refine ⟨_, high_chainLoop 0, rfl, by decide, rfl, by simp [Function.update], ?_, ?_, ?_, ?_, ?_⟩
  · rw [e1]; exact q1
  · rw [e1]; show _ < meetX tableLibm2 (mirrorInit tableLibm2 1) (355631 / 11875) (321244 / 11875) (5953 / 1250)
    rw [qx, m1]; norm_num
  · rw [e1]; show meetX tableLibm2 (mirrorInit tableLibm2 1) (355631 / 11875) (321244 / 11875) (5953 / 1250) < _
    rw [qx, m1]; norm_num
  · rw [e1]; show _ < meetX tableLibm2 (mirrorInit tableLibm2 1) (355631 / 11875) (321244 / 11875) (5953 / 1250)
    rw [qx]; norm_num
  · norm_num [tableLibm2]
/-! ## Order of the mirror tests -/

/-- The `for` loop only appends calls and never clears a `check` entry. -/
theorem forMirrors_extends (L : Libm K) (mirror : Nat → reflectors K) (l : List Nat) :
    ∀ st : Locals K,
      (∃ rest, (forMirrors L mirror l st).calls = st.calls ++ rest) ∧
      (∀ k, st.check k = true → (forMirrors L mirror l st).check k = true) := by
  induction l with
  | nil => intro st; exact ⟨⟨[], by simp [forMirrors]⟩, fun k h => h⟩
  | cons j l ih =>
    intro st
    by_cases hj : st.check j = false
    · by_cases hacc : inSpan (mirror j) (hitX L (mirror j) st.x1 st.y1 st.m1) = true
      · have key : ∀ st' : Locals K, (∃ c, st'.calls = st.calls ++ [c]) →
            (∀ k, k = j ∨ st.check k = true → st'.check k = true) →
            ((∃ rest, (forMirrors L mirror l st').calls = st.calls ++ rest) ∧
              (∀ k, st.check k = true → (forMirrors L mirror l st').check k = true)) := by
          intro st' hc hk
          obtain ⟨c, hc⟩ := hc
          obtain ⟨⟨rest, hr⟩, hk'⟩ := ih st'
          refine ⟨⟨c :: rest, ?_⟩, fun k h => hk' k (hk k (Or.inr h))⟩
          rw [hr, hc]; simp
        simp only [forMirrors, hj, hacc, if_true]
        refine key _ ⟨_, rfl⟩ ?_
        intro k h
        by_cases e : k = j
        · subst e; simp
        · rcases h with h | h
          · exact absurd h e
          · simp [Function.update, e, h]
      · by_cases hc : st.count > 0
        · simp only [forMirrors, hj, hacc, hc, if_true, Bool.false_eq_true, if_false]
          exact ⟨⟨_, rfl⟩, fun k h => h⟩
        · simp only [forMirrors, hj, hacc, hc, if_true, Bool.false_eq_true, if_false]
          exact ih _
    · have hj' : st.check j = true := by simpa using hj
      simp only [forMirrors, hj', Bool.true_eq_false, if_false]
      exact ih st

/-- A pass of the loop only appends calls and never clears a `check` entry. -/
theorem chainPass_extends (L : Libm K) (mirror : Nat → reflectors K) (st : Locals K) :
    (∃ rest, (chainPass L mirror st).calls = st.calls ++ rest) ∧
    (∀ k, st.check k = true → (chainPass L mirror st).check k = true) := by
  obtain ⟨⟨rest, hr⟩, hk⟩ := forMirrors_extends L mirror [0, 1, 2] st
  unfold chainPass
  dsimp only
  split_ifs
  · exact ⟨⟨rest ++ [⟨(forMirrors L mirror [0, 1, 2] st).x1,
      (forMirrors L mirror [0, 1, 2] st).y1, 0, 0, (forMirrors L mirror [0, 1, 2] st).m1,
      (forMirrors L mirror [0, 1, 2] st).c1, (forMirrors L mirror [0, 1, 2] st).count⟩],
      by simp [hr]⟩, hk⟩
  · exact ⟨⟨rest, hr⟩, hk⟩

/-- The `for` loop does not read a consumed mirror. -/
theorem forMirrors_consumed_unread (L : Libm K) (mirror : Nat → reflectors K) (k : Nat)
    (r : reflectors K) (l : List Nat) :
    ∀ st : Locals K, st.check k = true →
      forMirrors L (Function.update mirror k r) l st = forMirrors L mirror l st := by
  induction l with
  | nil => intro st _; rfl
  | cons j l ih =>
    intro st hk
    by_cases hj : st.check j = false
    · have hjk : j ≠ k := by
        intro e; rw [e, hk] at hj; exact Bool.noConfusion hj
      have em : Function.update mirror k r j = mirror j := Function.update_noteq hjk r mirror
      by_cases hacc : inSpan (mirror j) (hitX L (mirror j) st.x1 st.y1 st.m1) = true
      · simp only [forMirrors, hj, em, hacc, if_true]
        apply ih
        simp [Function.update, hk]
      · by_cases hc : st.count > 0
        · simp only [forMirrors, hj, em, hacc, hc, if_true, Bool.false_eq_true, if_false]
        · simp only [forMirrors, hj, em, hacc, hc, if_true, Bool.false_eq_true, if_false]
          exact ih _ hk
    · have hj' : st.check j = true := by simpa using hj
      simp only [forMirrors, hj', Bool.true_eq_false, if_false]
      exact ih st hk

/-- A pass of the loop does not read a consumed mirror. -/
theorem chainPass_consumed_unread (L : Libm K) (mirror : Nat → reflectors K) (k : Nat)
    (r : reflectors K) (st : Locals K) (hk : st.check k = true) :
    chainPass L (Function.update mirror k r) st = chainPass L mirror st := by
  unfold chainPass
  rw [forMirrors_consumed_unread L mirror k r [0, 1, 2] st hk]

/-- The rest of the loop does not read a consumed mirror. -/
theorem chainLoop_consumed_unread (L : Libm K) (mirror : Nat → reflectors K) (k : Nat)
    (r : reflectors K) (fuel : Nat) :
    ∀ st : Locals K, st.check k = true →
      chainLoop L (Function.update mirror k r) fuel st = chainLoop L mirror fuel st := by
  induction fuel with
  | zero => intro st _; rfl
  | succ n ih =>
    intro st hk
    simp only [chainLoop]
    rw [chainPass_consumed_unread L mirror k r st hk,
      ih _ ((chainPass_extends L mirror st).2 k hk)]

/-- A mirror that is consumed, or that refuses the ray before any bounce, is passed over:
only the scratch variable `c1` may change. -/
theorem forMirrors_skip (L : Libm K) (mirror : Nat → reflectors K) (k : Nat) (rest : List Nat)
    (st : Locals K)
    (h : st.check k = true ∨ (hits L (mirror k) st.x1 st.y1 st.m1 = false ∧ st.count = 0)) :
    ∃ c, forMirrors L mirror (k :: rest) st = forMirrors L mirror rest { st with c1 := c } := by
  by_cases hk : st.check k = true
  · exact ⟨st.c1, by simp [forMirrors, hk]⟩
  · have hk' : st.check k = false := by simpa using hk
    rcases h with h | ⟨h, hc⟩
    · exact absurd h hk
    · have h' : inSpan (mirror k) (hitX L (mirror k) st.x1 st.y1 st.m1) = false := h
      exact ⟨st.y1 - L.tan st.m1 * st.x1, by simp [forMirrors, hk', h', hc]⟩

/-- An unconsumed mirror that accepts the ray: the next call ends on it. -/
theorem forMirrors_accept (L : Libm K) (mirror : Nat → reflectors K) (i : Nat) (rest : List Nat)
    (st : Locals K) (ci : st.check i = false)
    (hi : hits L (mirror i) st.x1 st.y1 st.m1 = true) :
    (∃ tail, (forMirrors L mirror (i :: rest) st).calls =
      st.calls ++ ⟨st.x1, st.y1, meetX L (mirror i) st.x1 st.y1 st.m1,
        meetY L (mirror i) st.x1 st.y1 st.m1, st.m1, rayC L st.x1 st.y1 st.m1, st.count⟩
        :: tail) ∧
    (forMirrors L mirror (i :: rest) st).check i = true := by
  have e := hitX_of_hits L _ _ _ _ hi
  have hi' : inSpan (mirror i) (hitX L (mirror i) st.x1 st.y1 st.m1) = true := hi
  simp only [forMirrors, ci, hi', if_true]
  rw [e]
  obtain ⟨⟨tail, ht⟩, hk⟩ := forMirrors_extends L mirror rest
    { x1 := (some (meetX L (mirror i) st.x1 st.y1 st.m1)).getD 0,
      y1 := L.tan st.m1 * (some (meetX L (mirror i) st.x1 st.y1 st.m1)).getD 0
              + (st.y1 - L.tan st.m1 * st.x1),
      m1 := 2 * (mirror i).m - st.m1,
      c1 := L.tan st.m1 * (some (meetX L (mirror i) st.x1 st.y1 st.m1)).getD 0
              + (st.y1 - L.tan st.m1 * st.x1)
            - L.tan (2 * (mirror i).m - st.m1)
              * (some (meetX L (mirror i) st.x1 st.y1 st.m1)).getD 0,
      check := Function.update st.check i true,
      count := st.count + 1, flag := st.flag,
      calls := st.calls ++ [⟨st.x1, st.y1, (some (meetX L (mirror i) st.x1 st.y1 st.m1)).getD 0,
        L.tan st.m1 * (some (meetX L (mirror i) st.x1 st.y1 st.m1)).getD 0
          + (st.y1 - L.tan st.m1 * st.x1), st.m1, st.y1 - L.tan st.m1 * st.x1, st.count⟩] }
  refine ⟨⟨tail, ?_⟩, hk i (by simp)⟩
  rw [ht]
  simp [meetY, rayC]

/-- C18: at the start of a pass of a firing (any state the loop reaches with the flag clear),
if the line of the ray strikes two not-yet-consumed mirrors `i < j` strictly inside their
spans, and no unconsumed mirror before `i` is struck, then the leg emitted next (the first
call of the next pass) ends on mirror `i`, at its intersection with the ray line, and mirror
`i` is consumed; no hypothesis on the distances is made, so this holds whichever of the two
is nearer to the origin.  A consumed mirror is never tested again: replacing it by any other
mirror changes neither the `for` loop nor the rest of the chain. -/
theorem lower_index_mirror_first (L : Libm K) (mirror : Nat → reflectors K) (x0 y0 a : K)
    (n i j : Nat)
    (hf : (chainRun L mirror n (chainInit x0 y0 a)).flag = 0)
    (hij : i < j) (hj3 : j < 3)
    (ci : (chainRun L mirror n (chainInit x0 y0 a)).check i = false)
    (cj : (chainRun L mirror n (chainInit x0 y0 a)).check j = false)
    (hi : hits L (mirror i) (chainRun L mirror n (chainInit x0 y0 a)).x1
      (chainRun L mirror n (chainInit x0 y0 a)).y1
      (chainRun L mirror n (chainInit x0 y0 a)).m1 = true)
    (hj : hits L (mirror j) (chainRun L mirror n (chainInit x0 y0 a)).x1
      (chainRun L mirror n (chainInit x0 y0 a)).y1
      (chainRun L mirror n (chainInit x0 y0 a)).m1 = true)
    (hlow : ∀ k, k < i → (chainRun L mirror n (chainInit x0 y0 a)).check k = true ∨
      hits L (mirror k) (chainRun L mirror n (chainInit x0 y0 a)).x1
        (chainRun L mirror n (chainInit x0 y0 a)).y1
        (chainRun L mirror n (chainInit x0 y0 a)).m1 = false) :
    (∃ tail, (chainRun L mirror 1 (chainRun L mirror n (chainInit x0 y0 a))).calls =
      (chainRun L mirror n (chainInit x0 y0 a)).calls ++
        ⟨(chainRun L mirror n (chainInit x0 y0 a)).x1,
          (chainRun L mirror n (chainInit x0 y0 a)).y1,
          meetX L (mirror i) (chainRun L mirror n (chainInit x0 y0 a)).x1
            (chainRun L mirror n (chainInit x0 y0 a)).y1
            (chainRun L mirror n (chainInit x0 y0 a)).m1,
          meetY L (mirror i) (chainRun L mirror n (chainInit x0 y0 a)).x1
            (chainRun L mirror n (chainInit x0 y0 a)).y1
            (chainRun L mirror n (chainInit x0 y0 a)).m1,
          (chainRun L mirror n (chainInit x0 y0 a)).m1,
          rayC L (chainRun L mirror n (chainInit x0 y0 a)).x1
            (chainRun L mirror n (chainInit x0 y0 a)).y1
            (chainRun L mirror n (chainInit x0 y0 a)).m1,
          (chainRun L mirror n (chainInit x0 y0 a)).count⟩ :: tail) ∧
    (chainRun L mirror 1 (chainRun L mirror n (chainInit x0 y0 a))).check i = true ∧
    (∀ (k : Nat) (r : reflectors K) (st : Locals K), st.check k = true →
      (∀ l, forMirrors L (Function.update mirror k r) l st = forMirrors L mirror l st) ∧
      (∀ fuel, chainLoop L (Function.update mirror k r) fuel st = chainLoop L mirror fuel st)) := by
  have hinv := (chain_index_bound L mirror x0 y0 a n).1
  generalize chainRun L mirror n (chainInit x0 y0 a) = st at *
  have key : (∃ tail, (forMirrors L mirror [0, 1, 2] st).calls =
      st.calls ++ ⟨st.x1, st.y1, meetX L (mirror i) st.x1 st.y1 st.m1,
        meetY L (mirror i) st.x1 st.y1 st.m1, st.m1, rayC L st.x1 st.y1 st.m1, st.count⟩
        :: tail) ∧
      (forMirrors L mirror [0, 1, 2] st).check i = true := by
    have hi01 : i = 0 ∨ i = 1 := by omega
    rcases hi01 with e | e
    · subst e
      exact forMirrors_accept L mirror 0 [1, 2] st ci hi
    · subst e
      have hj2 : j = 2 := by omega
      subst hj2
      have hs : st.check 0 = true ∨
          (hits L (mirror 0) st.x1 st.y1 st.m1 = false ∧ st.count = 0) := by
        by_cases c0 : st.check 0 = true
        · exact Or.inl c0
        · right
          have c0' : st.check 0 = false := by simpa using c0
          rcases hlow 0 (by decide) with h | h
          · exact absurd h c0
          · refine ⟨h, ?_⟩
            rw [hinv]
            simp [consumed, c0', ci, cj]
      obtain ⟨c, hc⟩ := forMirrors_skip L mirror 0 [1, 2] st hs
      rw [hc]
      exact forMirrors_accept L mirror 1 [2] { st with c1 := c } ci hi
  have hrun : chainRun L mirror 1 st = chainPass L mirror st := by
    simp [chainRun, hf]
  rw [hrun]
  refine ⟨?_, ?_, ?_⟩
  · obtain ⟨⟨tail, ht⟩, _⟩ := key
    unfold chainPass
    dsimp only
    split_ifs
    · exact ⟨tail ++ [⟨(forMirrors L mirror [0, 1, 2] st).x1,
        (forMirrors L mirror [0, 1, 2] st).y1, 0, 0, (forMirrors L mirror [0, 1, 2] st).m1,
        (forMirrors L mirror [0, 1, 2] st).c1, (forMirrors L mirror [0, 1, 2] st).count⟩],
        by simp [ht]⟩
    · exact ⟨tail, ht⟩
  · unfold chainPass
    dsimp only
    split_ifs
    · exact key.2
    · exact key.2
  · intro k r st' hk
    exact ⟨fun l => forMirrors_consumed_unread L mirror k r l st' hk,
      fun fuel => chainLoop_consumed_unread L mirror k r fuel st' hk⟩

/-- Witness for C18: a ray from `(20,20)` at angle `M_PI/4`; its line strikes `mirror[0]` at
`x = 0.366` and `mirror[2]` at `x = 28.5`, which is the nearer one. -/
theorem lower_index_mirror_first_witness :
    hits tableLibm2 (mirrorInit tableLibm2 0) 20 20 (3927 / 5000) = true ∧
    hits tableLibm2 (mirrorInit tableLibm2 2) 20 20 (3927 / 5000) = true ∧
    |meetX tableLibm2 (mirrorInit tableLibm2 2) 20 20 (3927 / 5000) - 20|
      < |meetX tableLibm2 (mirrorInit tableLibm2 0) 20 20 (3927 / 5000) - 20| ∧
    (chainRun tableLibm2 (mirrorInit tableLibm2) 1
      (chainRun tableLibm2 (mirrorInit tableLibm2) 0 (chainInit 20 20 (3927 / 5000)))).check 0
      = true :=
  have h0 : hits tableLibm2 (mirrorInit tableLibm2 0) 20 20 (3927 / 5000) = true := by
    rw [table2_mirrors.1]
    norm_num [hits, inSpan, hitX, fdiv, tableLibm2, tableLibm]
  have h2 : hits tableLibm2 (mirrorInit tableLibm2 2) 20 20 (3927 / 5000) = true := by
    rw [table2_mirrors.2.2]
    norm_num [hits, inSpan, hitX, fdiv, tableLibm2, tableLibm]
  ⟨h0, h2, by
    rw [table2_mirrors.1, table2_mirrors.2.2]
    norm_num [meetX, rayC, tableLibm2, tableLibm, abs_lt, lt_abs],
    (lower_index_mirror_first tableLibm2 (mirrorInit tableLibm2) 20 20 (3927 / 5000) 0 0 2
      rfl (by decide) (by decide) rfl rfl h0 h2
      (fun k hk => absurd hk (Nat.not_lt_zero k))).2.1⟩
/-! ## The scan of `shoot` -/

/-- One edge of the scan: the running `x2` never grows, ends at or below a qualifying edge,
and either nothing changes (the edge does not qualify below `x2`) or the edge is taken. -/
theorem scanEdge_spec (m c : K) (b : rect K) (x : K) (j : Nat) (a : Scan K) :
    (scanEdge m c b x j a).x2 ≤ a.x2 ∧
    (qualifies m c b x → (scanEdge m c b x j a).x2 ≤ x) ∧
    ((scanEdge m c b x j a = a ∧ ¬ (qualifies m c b x ∧ x < a.x2)) ∨
      (scanEdge m c b x j a = ⟨x, m * x + c, some j⟩ ∧ qualifies m c b x ∧ x < a.x2)) := by
  unfold scanEdge
  by_cases hq : qualifies m c b x
  · by_cases hx : x < a.x2
    · rw [if_pos hq, if_pos hx]
      exact ⟨le_of_lt hx, fun _ => le_refl _, Or.inr ⟨rfl, hq, hx⟩⟩
    · rw [if_pos hq, if_neg hx]
      exact ⟨le_refl _, fun _ => not_lt.mp hx, Or.inl ⟨rfl, fun h => hx h.2⟩⟩
  · rw [if_neg hq]
    exact ⟨le_refl _, fun h => absurd h hq, Or.inl ⟨rfl, fun h => hq h.1⟩⟩

/-- Invariant of the scan over a list of bricks, started from the locals `a`: the result `x2`
is at most `a.x2` and at most every qualifying edge of a listed brick; either the locals are
unchanged and no listed brick has a qualifying edge below `a.x2`, or `min` is a listed brick
and `(x2, y2)` is the point of one of its edges, qualifying and below `a.x2`. -/
theorem scan_invariant (m c : K) (boxes : Nat → rect K) (l : List Nat) :
    ∀ a : Scan K,
      (l.foldl (scanBrick m c boxes) a).x2 ≤ a.x2 ∧
      (∀ k ∈ l, ∀ x, (x = (boxes k).x1 ∨ x = (boxes k).x2) → qualifies m c (boxes k) x →
        (l.foldl (scanBrick m c boxes) a).x2 ≤ x) ∧
      ((l.foldl (scanBrick m c boxes) a = a ∧
          ∀ k ∈ l, ∀ x, (x = (boxes k).x1 ∨ x = (boxes k).x2) → qualifies m c (boxes k) x →
            ¬ x < a.x2) ∨
        (∃ j ∈ l, (l.foldl (scanBrick m c boxes) a).min = some j ∧
          ((l.foldl (scanBrick m c boxes) a).x2 = (boxes j).x1 ∨
            (l.foldl (scanBrick m c boxes) a).x2 = (boxes j).x2) ∧
          qualifies m c (boxes j) (l.foldl (scanBrick m c boxes) a).x2 ∧
          (l.foldl (scanBrick m c boxes) a).x2 < a.x2 ∧
          (l.foldl (scanBrick m c boxes) a).y2
            = m * (l.foldl (scanBrick m c boxes) a).x2 + c)) := by
  induction l with
  | nil =>
    intro a
    exact ⟨le_refl _, fun k hk => absurd hk (List.not_mem_nil k),
      Or.inl ⟨rfl, fun k hk => absurd hk (List.not_mem_nil k)⟩⟩
  | cons j l ih =>
    intro a
    obtain ⟨e1, q1, d1⟩ := scanEdge_spec m c (boxes j) (boxes j).x1 j a
    obtain ⟨e2, q2, d2⟩ := scanEdge_spec m c (boxes j) (boxes j).x2 j
      (scanEdge m c (boxes j) (boxes j).x1 j a)
    have hb : scanBrick m c boxes a j = scanEdge m c (boxes j) (boxes j).x2 j
      (scanEdge m c (boxes j) (boxes j).x1 j a) := rfl
    rw [← hb] at e2 q2 d2
    obtain ⟨i1, i2, i3⟩ := ih (scanBrick m c boxes a j)
    rw [List.foldl_cons]
    have hle : (scanBrick m c boxes a j).x2 ≤ a.x2 := le_trans e2 e1
    refine ⟨le_trans i1 hle, ?_, ?_⟩
    · intro k hk x hx hq
      rcases List.mem_cons.mp hk with e | e
      · subst e
        rcases hx with hx | hx
        · subst hx; exact le_trans i1 (le_trans e2 (q1 hq))
        · subst hx; exact le_trans i1 (q2 hq)
      · exact i2 k e x hx hq
    · have hj : (scanBrick m c boxes a j = a ∧
            ∀ x, (x = (boxes j).x1 ∨ x = (boxes j).x2) → qualifies m c (boxes j) x →
              ¬ x < a.x2) ∨
          ((scanBrick m c boxes a j).min = some j ∧
            ((scanBrick m c boxes a j).x2 = (boxes j).x1 ∨
              (scanBrick m c boxes a j).x2 = (boxes j).x2) ∧
            qualifies m c (boxes j) (scanBrick m c boxes a j).x2 ∧
            (scanBrick m c boxes a j).x2 < a.x2 ∧
            (scanBrick m c boxes a j).y2 = m * (scanBrick m c boxes a j).x2 + c) := by
        rcases d2 with ⟨u2, n2⟩ | ⟨u2, g2, l2⟩
        · rcases d1 with ⟨u1, n1⟩ | ⟨u1, g1, l1⟩
          · left
            refine ⟨by rw [u2, u1], ?_⟩
            intro x hx hq hlt
            rcases hx with hx | hx
            · subst hx; exact n1 ⟨hq, hlt⟩
            · subst hx; rw [u1] at n2; exact n2 ⟨hq, hlt⟩
          · right
            rw [u2, u1]
            exact ⟨rfl, Or.inl rfl, g1, l1, rfl⟩
        · right
          rw [u2]
          exact ⟨rfl, Or.inr rfl, g2, lt_of_lt_of_le l2 e1, rfl⟩
      rcases i3 with ⟨u, nq⟩ | ⟨k, hk, hm, he, hq, hlt, hy⟩
      · rcases hj with ⟨uj, nj⟩ | ⟨mj, ej, qj, lj, yj⟩
        · left
          refine ⟨by rw [u, uj], ?_⟩
          intro k hk x hx hq
          rcases List.mem_cons.mp hk with e | e
          · subst e; exact nj x hx hq
          · rw [uj] at nq; exact nq k e x hx hq
        · right
          rw [u]
          exact ⟨j, List.mem_cons_self j l, mj, ej, qj, lj, yj⟩
      · right
        exact ⟨k, List.mem_cons_of_mem j hk, hm, he, hq, lt_of_lt_of_le hlt hle, hy⟩

/-- C15: in every call `shoot(i)`, an edge `x` of a brick qualifies exactly when
`y = tan(bullet[i].m)*x + bullet[i].c` satisfies `y1 <= y <= y2`, `y1 < 40` and `y2 > -36`;
no brick is selected (`min` stays -1 and `shoot` changes nothing) exactly when no edge of the
15 bricks qualifies with `x` strictly less than the stored far-x `bullet[i].x2`; and when
brick `j` is selected, `j < 15`, the final `(x2, y2)` is the point of one of its two edges on
the leg line, that edge qualifies, is strictly less than the far-x, and is the smallest of
all qualifying edges of the 15 bricks. -/
theorem shootScan_smallest_edge (L : Libm K) (s : Game K) (i : Nat) :
    (∀ (b : rect K) (x : K), qualifies (L.tan (s.bullet i).m) (s.bullet i).c b x ↔
      (b.y1 ≤ L.tan (s.bullet i).m * x + (s.bullet i).c ∧
        L.tan (s.bullet i).m * x + (s.bullet i).c ≤ b.y2 ∧ b.y1 < 40 ∧ b.y2 > -36)) ∧
    ((shootScan L s i).min = none ↔
      ∀ k, k < 15 → ∀ x, (x = (s.boxes k).x1 ∨ x = (s.boxes k).x2) →
        qualifies (L.tan (s.bullet i).m) (s.bullet i).c (s.boxes k) x →
        ¬ x < (s.bullet i).x2) ∧
    ((shootScan L s i).min = none → shoot L s i = s) ∧
    (∀ j, (shootScan L s i).min = some j →
      j < 15 ∧
      ((shootScan L s i).x2 = (s.boxes j).x1 ∨ (shootScan L s i).x2 = (s.boxes j).x2) ∧
      (shootScan L s i).y2 = L.tan (s.bullet i).m * (shootScan L s i).x2 + (s.bullet i).c ∧
      qualifies (L.tan (s.bullet i).m) (s.bullet i).c (s.boxes j) (shootScan L s i).x2 ∧
      (shootScan L s i).x2 < (s.bullet i).x2 ∧
      ∀ k, k < 15 → ∀ x, (x = (s.boxes k).x1 ∨ x = (s.boxes k).x2) →
        qualifies (L.tan (s.bullet i).m) (s.bullet i).c (s.boxes k) x →
        (shootScan L s i).x2 ≤ x) := by
  obtain ⟨_, h2, h3⟩ := scan_invariant (L.tan (s.bullet i).m) (s.bullet i).c s.boxes
    (List.range 15) ⟨(s.bullet i).x2, (s.bullet i).y2, none⟩
  have hs : shootScan L s i = (List.range 15).foldl
      (scanBrick (L.tan (s.bullet i).m) (s.bullet i).c s.boxes)
      ⟨(s.bullet i).x2, (s.bullet i).y2, none⟩ := rfl
  rw [← hs] at h2 h3
  refine ⟨?_, ?_, ?_, ?_⟩
  · intro b x
    unfold qualifies
    exact Iff.rfl
  · constructor
    · intro hn k hk x hx hq
      rcases h3 with ⟨_, nq⟩ | ⟨j, _, hm, _⟩
      · exact nq k (List.mem_range.mpr hk) x hx hq
      · rw [hn] at hm; exact Option.noConfusion hm
    · intro hall
      rcases h3 with ⟨u, _⟩ | ⟨j, hj, _, he, hq, hlt, _⟩
      · rw [u]
      · exact absurd hlt (hall j (List.mem_range.mp hj) _ he hq)
  · intro hn
    simp only [shoot, hn]
  · intro j hj
    rcases h3 with ⟨u, _⟩ | ⟨k, hk, hm, he, hq, hlt, hy⟩
    · rw [u] at hj; exact Option.noConfusion hj
    · rw [hj] at hm
      have e : j = k := Option.some.inj hm
      subst e
      exact ⟨List.mem_range.mp hk, he, hy, hq, hlt,
        fun k hk x hx hq => h2 k (List.mem_range.mpr hk) x hx hq⟩
/-! ## The selected edge and the origin of the leg -/

/-- If leg 0 is active and misses, and leg 1 is active and hits, the laser loop is the call
`shoot(1)`. -/
theorem resolveLasers_miss0_hit1 (L : Libm K) (s : Game K) (j : Nat) (hl0 : s.laser 0 = true)
    (h0 : (shootScan L s 0).min = none) (hl1 : s.laser 1 = true)
    (h1 : (shootScan L s 1).min = some j) : resolveLasers L s = shoot L s 1 := by
  unfold resolveLasers
  rw [List.range_eq_range']
  simp only [List.range', laserLoop, hl0, if_true, shoot_of_miss L s 0 h0, hl1]
  apply laserLoop_stop L _ (0 + 1 + 1) 8 (by omega)
  intro k hk1 hk2
  exact shoot_laser_of_hit L s 1 j k h1 (by omega) hk2

theorem behindGame_cannon :
    (fallStep behindGame).mirror 0 = mirrorInit tableLibm2 0 ∧
    (fallStep behindGame).mirror 1 = mirrorInit tableLibm2 1 ∧
    (fallStep behindGame).mirror 2 = mirrorInit tableLibm2 2 ∧
    ((fallStep behindGame).gun 0).x = -39 ∧ ((fallStep behindGame).gun 1).x = -31 ∧
    ((fallStep behindGame).gun 1).y = 61 / 2 ∧
    ((fallStep behindGame).gun 1).rotate = -(1 / 20) := by
  refine ⟨?_, ?_, ?_, ?_, ?_, ?_, ?_⟩ <;>
    norm_num [fallStep, behindGame, turnGun, moveGun, createMirrors, createBasket, createCannon,
      zeroGame]

theorem behindGame_fire :
    fire tableLibm2 3 (fallStep behindGame) =
      some (createLaser tableLibm2
        (createLaser tableLibm2 (fallStep behindGame) (-(19381 / 625)) (301 / 10)
          (355631 / 11875) (321244 / 11875) (-(1 / 20)) (356869 / 12500) 0)
        (355631 / 11875) (321244 / 11875) 0 0 (5953 / 1250) (74263601859 / 118750000) 1) := by
  obtain ⟨e0, e1, e2, g0, g1, gy, gr⟩ := behindGame_cannon
  obtain ⟨p0, p1, p2, px, py, pa⟩ := high_pass1
  obtain ⟨q0, _, _, _, qc⟩ := high_pass2
  have h := fire_of_hit2_miss0 tableLibm2 (fallStep behindGame) 0 (-(19381 / 625)) (301 / 10)
    (-(1 / 20))
    (by rw [g0, g1, gr]; norm_num [tableLibm2])
    (by rw [g0, g1, gy, gr]; norm_num [tableLibm2])
    gr (by rw [e0]; exact p0) (by rw [e1]; exact p1) (by rw [e2]; exact p2)
    (by rw [e0, e2, px, py, pa]; exact q0)
  rw [h, e2, px, py, pa, qc]
  have hc0 : rayC tableLibm2 (-(19381 / 625)) (301 / 10) (-(1 / 20)) = 356869 / 12500 := by
    norm_num [rayC, tableLibm2]
  rw [hc0]
  rfl

theorem behindFired_bullets :
    behindFired.bullet 0 = ⟨-(19381 / 625), 355631 / 11875, 301 / 10, 321244 / 11875,
      -(1 / 20), 356869 / 12500⟩ ∧
    behindFired.bullet 1 = ⟨355631 / 11875, 415006 / 11875, 321244 / 11875,
      -(3458849 / 47500), 5953 / 1250, 74263601859 / 118750000⟩ ∧
    behindFired.laser 0 = true ∧ behindFired.laser 1 = true := by
  refine ⟨?_, ?_, ?_, ?_⟩ <;> norm_num [behindFired, createLaser, tableLibm2]

theorem behindFired_boxes (k : Nat) :
    behindFired.boxes k =
      if k = 0 then
        { x1 := 28, x2 := 59 / 2, y1 := 35, y2 := 375 / 10, translation := -7,
          c := 1, alive := true }
      else if k < 15 then
        { farBrick with y1 := 419 / 10, y2 := 444 / 10, translation := -(1 / 10) }
      else farBrick := by
  have e : behindFired.boxes k = (fallStep behindGame).boxes k := by
    simp [behindFired, createLaser]
  rw [e]
  by_cases h0 : k = 0
  · subst h0
    norm_num [fallStep, behindGame, turnGun, moveGun, createMirrors, createBasket, createCannon,
      zeroGame]
  · by_cases h1 : k < 15
    · norm_num [fallStep, behindGame, turnGun, moveGun, createMirrors, createBasket,
        createCannon, zeroGame, h0, h1, farBrick]
    · norm_num [fallStep, behindGame, h0, h1, farBrick]

theorem behindFired_scan0 : (shootScan tableLibm2 behindFired 0).min = none := by
  unfold shootScan
  rw [scan_none_qualify]
  intro j _
  rw [behindFired_bullets.1, behindFired_boxes]
  by_cases h0 : j = 0
  · subst h0; norm_num [qualifies, tableLibm2]
  · by_cases h1 : j < 15
    · norm_num [qualifies, tableLibm2, h0, h1, farBrick]
    · norm_num [qualifies, tableLibm2, h0, h1, farBrick]

theorem behindFired_scan1 :
    shootScan tableLibm2 behindFired 1
      = { x2 := 59 / 2, y2 := 8550035593 / 237500000, min := some 0 } := by
  unfold shootScan
  rw [range15, scan_tail]
  · rw [behindFired_bullets.2.1]
    simp only [scanBrick, behindFired_boxes]
    norm_num [scanEdge, qualifies, tableLibm2]
  · intro k hk
    have hk1 := (List.mem_range'_1.mp hk)
    have h0 : k ≠ 0 := by omega
    have h2 : k < 15 := by omega
    rw [behindFired_bullets.2.1, behindFired_boxes]
    norm_num [qualifies, tableLibm2, h0, h2, farBrick]

theorem behindGame_frame :
    frame tableLibm2 3 spaceKey 1 1 behindGame = some (shoot tableLibm2 behindFired 1) := by
  rw [frame_idle tableLibm2 3 spaceKey 1 1 behindGame rfl rfl rfl rfl rfl rfl rfl rfl]
  · rw [draw_fire tableLibm2 3 spaceKey 1 1 behindGame _
      (by norm_num [behindGame, turnGun, moveGun, createMirrors, createBasket, createCannon,
        zeroGame]) rfl behindGame_fire (by norm_num)]
    exact congrArg some (resolveLasers_miss0_hit1 tableLibm2 behindFired 0
      behindFired_bullets.2.2.1 behindFired_scan0 behindFired_bullets.2.2.2
      (by rw [behindFired_scan1]))
  · intro i _ j _
    by_cases h0 : i = 0
    · subst h0; norm_num [caught, behindGame]
    · norm_num [caught, behindGame, h0, farBrick]
  · intro i _
    by_cases h0 : i = 0
    · subst h0; norm_num [behindGame]
    · norm_num [behindGame, h0, farBrick]

/-- C16, counterexample: from `behindGame` one frame with space pressed fires a ray that
`mirror[2]` reflects at `(29.9479, 27.0521)`; leg 1 starts there and travels towards larger `x`
(`cos 4.7624 > 0`, stored far point at `x = 34.9479`).  `shoot(0)` selects nothing; `shoot(1)`
selects brick 0 at its right edge `x = 29.5`, where the line of leg 1 passes at `y = 36.0001`:
that edge is to the left of the origin of leg 1, behind the firing point, not between the
origin and the terminal point.  The brick is retired and 10 points are scored. -/
theorem shoot_edge_behind_origin :
    ∃ s1 : Game ℚ,
      frame tableLibm2 3 spaceKey 1 1 behindGame = some s1 ∧
      s1 = shoot tableLibm2 behindFired 1 ∧
      shootScan tableLibm2 behindFired 1
        = { x2 := 59 / 2, y2 := 8550035593 / 237500000, min := some 0 } ∧
      (behindFired.bullet 1).x1 = 355631 / 11875 ∧
      (behindFired.bullet 1).x2 = 415006 / 11875 ∧
      0 < tableLibm2.cos (behindFired.bullet 1).m ∧
      (shootScan tableLibm2 behindFired 1).x2 < (behindFired.bullet 1).x1 ∧
      (behindFired.bullet 1).x1 < (behindFired.bullet 1).x2 ∧
      (behindGame.boxes 0).x2 = 59 / 2 ∧ (s1.boxes 0).x1 = -20 ∧
      s1.points = behindGame.points + 10 := by
  obtain ⟨_, hb, _, _⟩ := behindFired_bullets
  refine ⟨_, behindGame_frame, rfl, behindFired_scan1, ?_, ?_, ?_, ?_, ?_, ?_, ?_, ?_⟩
  · rw [hb]
  · rw [hb]
  · rw [hb]; norm_num [tableLibm2]
  · rw [behindFired_scan1, hb]; norm_num
  · rw [hb]; norm_num
  · norm_num [behindGame]
  · rw [shoot_boxes_self tableLibm2 behindFired 1 0 (by rw [behindFired_scan1])]
    norm_num [behindFired, createLaser, fallStep, behindGame, turnGun, moveGun, createMirrors,
      createBasket, createCannon, zeroGame]
  · have hcol : (behindFired.boxes 0).c > 0 := by
      rw [behindFired_boxes]; norm_num
    simp [shoot, behindFired_scan1, shootScore, hcol, createLaser, createRectangle]
    rfl

/-! ## The bricks over the frame loop -/

theorem foldl_preserves {α β : Type} (f : α → β → α) (P : α → Prop)
    (h : ∀ a b, P a → P (f a b)) (l : List β) : ∀ a, P a → P (l.foldl f a) := by
  induction l with
  | nil => intro a ha; exact ha
  | cons b l ih => intro a ha; exact ih _ (h a b ha)

theorem spawnedFrom_refl {F : Type} [LinearOrderedField F] (s : Game F) (h : 0 ≤ s.y) :
    spawnedFrom s s :=
  ⟨rfl, h, fun _ => Or.inl rfl⟩

theorem spawnedFrom_trans {F : Type} [LinearOrderedField F] (s t u : Game F)
    (h1 : spawnedFrom s t) (h2 : spawnedFrom t u) : spawnedFrom s u := by
  obtain ⟨a1, _, c1⟩ := h1
  obtain ⟨a2, b2, c2⟩ := h2
  refine ⟨a2.trans a1, b2, fun k => ?_⟩
  rcases c2 k with e | e
  · rcases c1 k with e' | e'
    · left; rw [e, e']
    · right; unfold fresh at e' ⊢; rw [e]; exact e'
  · right; exact e

/-- The brick spawned by `createRectangle` is alive, at height `44.5 + y`; `y` does not
decrease, the other bricks and the speed are untouched. -/
theorem createRectangle_spec {F : Type} [LinearOrderedField F] (s : Game F) (i : Nat) :
    ((createRectangle s i).boxes i).alive = true ∧
    ((createRectangle s i).boxes i).y2 = 89 / 2 + (((createRectangle s i).y : Int) : F) ∧
    s.y ≤ (createRectangle s i).y ∧
    (∀ k, k ≠ i → (createRectangle s i).boxes k = s.boxes k) ∧
    (createRectangle s i).speed = s.speed := by
  refine ⟨by simp [createRectangle], by simp [createRectangle], ?_, ?_, rfl⟩
  · simp only [createRectangle]
    have : (0 : Int) ≤ (s.rnd (s.rpos + 1) : Int) % 20 := Int.emod_nonneg _ (by decide)
    omega
  · intro k hk
    simp [createRectangle, Function.update, hk]

/-- A spawned brick is fresh when the offset `y` was nonnegative. -/
theorem createRectangle_fresh {F : Type} [LinearOrderedField F] (s : Game F) (i : Nat)
    (h : 0 ≤ s.y) : 0 ≤ (createRectangle s i).y ∧
      ((createRectangle s i).boxes i).alive = true ∧
      (89 / 2 : F) ≤ ((createRectangle s i).boxes i).y2 := by
  obtain ⟨h1, h2, h3, _, _⟩ := @createRectangle_spec F _ s i
  have hy : 0 ≤ (createRectangle s i).y := le_trans h h3
  refine ⟨hy, h1, ?_⟩
  rw [h2]
  have : (0 : F) ≤ (((createRectangle s i).y : Int) : F) := by exact_mod_cast hy
  linarith

/-- One step of the respawn loop: the speed is kept, `y` stays nonnegative, every brick is
kept or fresh, brick `i` is no longer due, and a brick that was not due stays so. -/
theorem respawnStep_spec {F : Type} [LinearOrderedField F] (s : Game F) (i : Nat)
    (h : 0 ≤ s.y) :
    spawnedFrom s (respawnStep s i) ∧
    ¬ (((respawnStep s i).boxes i).y2 < -36 ∧ ((respawnStep s i).boxes i).alive = true) ∧
    (∀ k, ¬ ((s.boxes k).y2 < -36 ∧ (s.boxes k).alive = true) →
      ¬ (((respawnStep s i).boxes k).y2 < -36 ∧ ((respawnStep s i).boxes k).alive = true)) := by
  by_cases hd : (s.boxes i).y2 < -36 ∧ (s.boxes i).alive = true
  · have hy1 : (0 : Int) ≤ ({ s with
        count := s.count + 1
        boxes := Function.update s.boxes i { s.boxes i with alive := false } } : Game F).y := h
    obtain ⟨f1, f2, f3⟩ := createRectangle_fresh _ i hy1
    obtain ⟨_, _, _, f4, f5⟩ := createRectangle_spec { s with
        count := s.count + 1
        boxes := Function.update s.boxes i { s.boxes i with alive := false } } i
    have hb : (respawnStep s i).boxes = (createRectangle { s with
        count := s.count + 1
        boxes := Function.update s.boxes i { s.boxes i with alive := false } } i).boxes := by
      unfold respawnStep
      rw [if_pos hd]
      dsimp only
      split_ifs <;> rfl
    have hs : (respawnStep s i).speed = s.speed := by
      unfold respawnStep
      rw [if_pos hd]
      dsimp only
      split_ifs <;> rfl
    have hy : 0 ≤ (respawnStep s i).y := by
      unfold respawnStep
      rw [if_pos hd]
      dsimp only
      split_ifs
      · exact le_refl _
      · exact f1
    have hk : ∀ k, k ≠ i → (respawnStep s i).boxes k = s.boxes k := by
      intro k hk
      rw [hb, f4 k hk]
      simp [Function.update, hk]
    have hi : fresh 0 (respawnStep s i) i := by
      unfold fresh
      rw [hb]
      exact ⟨f2, by linarith⟩
    refine ⟨⟨hs, hy, fun k => ?_⟩, ?_, fun k hnd => ?_⟩
    · by_cases e : k = i
      · subst e; exact Or.inr hi
      · exact Or.inl (hk k e)
    · intro hc
      have := hi.2
      linarith [hc.1]
    · by_cases e : k = i
      · subst e; exact absurd hd hnd
      · rw [hk k e]; exact hnd
  · have e : respawnStep s i = s := by
      unfold respawnStep
      rw [if_neg hd]
    rw [e]
    exact ⟨spawnedFrom_refl s h, hd, fun k hk => hk⟩

/-- The respawn loop: the speed is kept, `y` stays nonnegative, and each of the bricks 0..14
is either fresh or kept and was not due (`y2 >= -36` or not alive). -/
theorem respawn_spec {F : Type} [LinearOrderedField F] (s : Game F) (h : 0 ≤ s.y) :
    spawnedFrom s (respawn s) ∧
    ∀ i, i < 15 → ¬ (((respawn s).boxes i).y2 < -36 ∧ ((respawn s).boxes i).alive = true) := by
  have key : ∀ (l : List Nat) (t : Game F), 0 ≤ t.y →
      spawnedFrom t (l.foldl respawnStep t) ∧
      (∀ k, ¬ ((t.boxes k).y2 < -36 ∧ (t.boxes k).alive = true) →
        ¬ (((l.foldl respawnStep t).boxes k).y2 < -36 ∧
          ((l.foldl respawnStep t).boxes k).alive = true)) ∧
      (∀ i ∈ l, ¬ (((l.foldl respawnStep t).boxes i).y2 < -36 ∧
          ((l.foldl respawnStep t).boxes i).alive = true)) := by
    intro l
    induction l with
    | nil =>
      intro t ht
      exact ⟨spawnedFrom_refl t ht, fun k hk => hk, fun i hi => absurd hi (List.not_mem_nil i)⟩
    | cons j l ih =>
      intro t ht
      obtain ⟨a1, a2, a3⟩ := respawnStep_spec t j ht
      obtain ⟨b1, b2, b3⟩ := ih (respawnStep t j) a1.2.1
      rw [List.foldl_cons]
      refine ⟨spawnedFrom_trans _ _ _ a1 b1, fun k hk => b2 k (a3 k hk), fun i hi => ?_⟩
      rcases List.mem_cons.mp hi with e | e
      · subst e; exact b2 i a2
      · exact b3 i e
  obtain ⟨k1, _, k3⟩ := key (List.range 15) s h
  exact ⟨k1, fun i hi => k3 i (List.mem_range.mpr hi)⟩

/-- The function `score` writes neither the bricks, nor the speed, nor `y`. -/
theorem score_bricks {F : Type} [LinearOrderedField F] (s : Game F) :
    (score s).boxes = s.boxes ∧ (score s).speed = s.speed ∧ (score s).y = s.y := by
  have hp : ∀ (t : Game F) (i j : Nat),
      (t.boxes = s.boxes ∧ t.speed = s.speed ∧ t.y = s.y) →
      ((scorePair t i j).boxes = s.boxes ∧ (scorePair t i j).speed = s.speed ∧
        (scorePair t i j).y = s.y) := by
    intro t i j ht
    unfold scorePair
    split_ifs <;> exact ht
  unfold score
  apply foldl_preserves _ (fun t : Game F => t.boxes = s.boxes ∧ t.speed = s.speed ∧ t.y = s.y)
  · intro t i ht
    exact foldl_preserves _
      (fun t : Game F => t.boxes = s.boxes ∧ t.speed = s.speed ∧ t.y = s.y)
      (fun a j ha => hp a i j ha) _ t ht
  · exact ⟨rfl, rfl, rfl⟩

/-- The basket and cannon movements write neither the bricks, nor the speed, nor `y`. -/
theorem moves_bricks {F : Type} [LinearOrderedField F] (k : Keys) (s : Game F) :
    ((translateBaskets k s).boxes = s.boxes ∧ (translateBaskets k s).speed = s.speed ∧
      (translateBaskets k s).y = s.y) ∧
    ((translateCannon k s).boxes = s.boxes ∧ (translateCannon k s).speed = s.speed ∧
      (translateCannon k s).y = s.y) ∧
    ((rotateCannon k s).boxes = s.boxes ∧ (rotateCannon k s).speed = s.speed ∧
      (rotateCannon k s).y = s.y) := by
  refine ⟨?_, ?_, ?_⟩
  · unfold translateBaskets; split_ifs <;> exact ⟨rfl, rfl, rfl⟩
  · unfold translateCannon; split_ifs <;> exact ⟨rfl, rfl, rfl⟩
  · unfold rotateCannon; split_ifs <;> exact ⟨rfl, rfl, rfl⟩

/-- The function `block_speed` writes neither the bricks nor `y` and keeps the speed within
`[0.1, 0.5]`. -/
theorem block_speed_bricks {F : Type} [LinearOrderedField F] (k : Keys) (s : Game F)
    (h1 : 1 / 10 ≤ s.speed) (h2 : s.speed ≤ 1 / 2) :
    (block_speed k s).boxes = s.boxes ∧ (block_speed k s).y = s.y ∧
    1 / 10 ≤ (block_speed k s).speed ∧ (block_speed k s).speed ≤ 1 / 2 := by
  unfold block_speed
  dsimp only
  split_ifs <;> refine ⟨rfl, rfl, ?_, ?_⟩ <;> dsimp only <;> linarith

/-- The function `createLaser` writes neither the bricks, nor the speed, nor `y`. -/
theorem createLaser_bricks (L : Libm K) (s : Game K) (x1 y1 x2 y2 m c : K) (i : Nat) :
    (createLaser L s x1 y1 x2 y2 m c i).boxes = s.boxes ∧
    (createLaser L s x1 y1 x2 y2 m c i).speed = s.speed ∧
    (createLaser L s x1 y1 x2 y2 m c i).y = s.y :=
  ⟨rfl, rfl, rfl⟩

/-- The firing block writes neither the bricks, nor the speed, nor `y`. -/
theorem fire_bricks (L : Libm K) (fuel : Nat) (s g : Game K) (h : fire L fuel s = some g) :
    g.boxes = s.boxes ∧ g.speed = s.speed ∧ g.y = s.y := by
  simp only [fire, Option.map_eq_some'] at h
  obtain ⟨calls, _, rfl⟩ := h
  exact foldl_preserves (applyCall L)
    (fun t : Game K => t.boxes = s.boxes ∧ t.speed = s.speed ∧ t.y = s.y)
    (fun a b ha => ha) calls s ⟨rfl, rfl, rfl⟩

/-- One call of `shoot`: the speed is kept, `y` stays nonnegative, every brick is kept or
fresh. -/
theorem shoot_spawnedFrom (L : Libm K) (s : Game K) (i : Nat) (h : 0 ≤ s.y) :
    spawnedFrom s (shoot L s i) := by
  cases hm : (shootScan L s i).min with
  | none => rw [shoot_of_miss L s i hm]; exact spawnedFrom_refl s h
  | some j =>
    obtain ⟨_, _, hy⟩ := shootScore_rnd s j
    have hnn : (0 : Int) ≤ (s.rnd (s.rpos + 1) : Int) % 20 := Int.emod_nonneg _ (by decide)
    have hy' : (shoot L s i).y = s.y + (s.rnd (s.rpos + 1) : Int) % 20 := by
      obtain ⟨h1, h2, h3⟩ := shootScore_rnd s j
      simp [shoot, hm, createLaser, createRectangle, h1, h2, h3]
    refine ⟨(shoot_fields L s i).2.1, by rw [hy']; omega, fun k => ?_⟩
    by_cases e : k = j
    · subst e
      right
      unfold fresh
      rw [shoot_boxes_self L s i k hm]
      refine ⟨rfl, ?_⟩
      have : (0 : K) ≤ ((s.y + (s.rnd (s.rpos + 1) : Int) % 20 : Int) : K) := by
        exact_mod_cast (by omega : (0 : Int) ≤ s.y + (s.rnd (s.rpos + 1) : Int) % 20)
      show 89 / 2 - 0 ≤ 89 / 2 + ((s.y + (s.rnd (s.rpos + 1) : Int) % 20 : Int) : K)
      linarith
    · left
      exact shoot_boxes_of_hit L s i j k hm e

/-- The laser loop: the speed is kept, `y` stays nonnegative, every brick is kept or fresh. -/
theorem laserLoop_spawnedFrom (L : Libm K) (l : List Nat) :
    ∀ s : Game K, 0 ≤ s.y → spawnedFrom s (laserLoop L l s) := by
  induction l with
  | nil => intro s h; exact spawnedFrom_refl s h
  | cons i l ih =>
    intro s h
    by_cases hl : s.laser i = true
    · simp only [laserLoop, hl, if_true]
      have h1 := shoot_spawnedFrom L s i h
      exact spawnedFrom_trans _ _ _ h1 (ih _ h1.2.1)
    · simp only [laserLoop, hl, if_false]
      exact spawnedFrom_refl s h

/-- The game logic of `draw`: the speed is kept, `y` stays nonnegative, and every brick is the
brick after the fall step or a fresh one. -/
theorem draw_spawnedFrom (L : Libm K) (fuel : Nat) (k : Keys) (t1 t2 : K) (s g : Game K)
    (h : 0 ≤ s.y) (hd : draw L fuel k t1 t2 s = some g) : spawnedFrom (fallStep s) g := by
  simp only [draw, Option.map_eq_some'] at hd
  obtain ⟨s2, h2, rfl⟩ := hd
  have hs2 : s2.boxes = (fallStep s).boxes ∧ s2.speed = (fallStep s).speed ∧
      s2.y = (fallStep s).y := by
    split_ifs at h2 with ht hk
    · simp only [Option.map_eq_some'] at h2
      obtain ⟨g', hg', rfl⟩ := h2
      exact fire_bricks L fuel (fallStep s) g' hg'
    · simp only [Option.map_some', Option.some.injEq] at h2
      rw [← h2]
      exact ⟨rfl, rfl, rfl⟩
    · simp only [Option.some.injEq] at h2
      rw [← h2]
      exact ⟨rfl, rfl, rfl⟩
  obtain ⟨e1, e2, e3⟩ := hs2
  have hy2 : 0 ≤ s2.y := by rw [e3]; exact h
  have hbase : spawnedFrom (fallStep s) s2 := ⟨e2, hy2, fun k => Or.inl (by rw [e1])⟩
  split_ifs
  · exact spawnedFrom_trans _ _ _ hbase (laserLoop_spawnedFrom L _ s2 hy2)
  · exact spawnedFrom_trans _ _ _ hbase ⟨rfl, hy2, fun k => Or.inl rfl⟩

/-- One iteration of the frame loop, brick by brick: with `y >= 0` and the speed within
`[0.1, 0.5]` at its start, the same holds at its end, and each of the bricks 0..14 is then
either alive with `y2 >= 44` (respawned or shot in this tick), or the brick it was, one fall
step lower, and it was not due for respawn (`y2 >= -36` or not alive). -/
theorem frame_brick (L : Libm K) (fuel : Nat) (k : Keys) (t1 t2 : K) (s g : Game K)
    (hy : 0 ≤ s.y) (h1 : 1 / 10 ≤ s.speed) (h2 : s.speed ≤ 1 / 2)
    (hf : frame L fuel k t1 t2 s = some g) :
    0 ≤ g.y ∧ 1 / 10 ≤ g.speed ∧ g.speed ≤ 1 / 2 ∧
    ∀ i, i < 15 →
      ((g.boxes i).alive = true ∧ 44 ≤ (g.boxes i).y2) ∨
      ((g.boxes i).alive = (s.boxes i).alive ∧ (g.boxes i).y2 = (s.boxes i).y2 - g.speed ∧
        ¬ ((s.boxes i).y2 < -36 ∧ (s.boxes i).alive = true)) := by
  unfold frame at hf
  obtain ⟨a1, a2, a3⟩ := (moves_bricks k s).1
  obtain ⟨b1, b2, b3⟩ := score_bricks (translateBaskets k s)
  obtain ⟨c1, c2, c3⟩ := (moves_bricks k (score (translateBaskets k s))).2.1
  obtain ⟨d1, d2, d3⟩ := (moves_bricks k
    (translateCannon k (score (translateBaskets k s)))).2.2
  have e1 : (rotateCannon k (translateCannon k (score (translateBaskets k s)))).boxes
      = s.boxes := by rw [d1, c1, b1, a1]
  have e2 : (rotateCannon k (translateCannon k (score (translateBaskets k s)))).speed
      = s.speed := by rw [d2, c2, b2, a2]
  have e3 : (rotateCannon k (translateCannon k (score (translateBaskets k s)))).y
      = s.y := by rw [d3, c3, b3, a3]
  generalize rotateCannon k (translateCannon k (score (translateBaskets k s))) = s1 at *
  obtain ⟨⟨r1, r2, r3⟩, r4⟩ := respawn_spec s1 (by rw [e3]; exact hy)
  obtain ⟨q1, q2, q3, q4⟩ := block_speed_bricks k (respawn s1)
    (by rw [r1, e2]; exact h1) (by rw [r1, e2]; exact h2)
  obtain ⟨p1, p2, p3⟩ := draw_spawnedFrom L fuel k t1 t2 _ g (by rw [q2]; exact r2) hf
  have hsp : g.speed = (block_speed k (respawn s1)).speed := p1
  refine ⟨p2, by rw [hsp]; exact q3, by rw [hsp]; exact q4, fun i hi => ?_⟩
  rcases p3 i with e | e
  · have hfall : (fallStep (block_speed k (respawn s1))).boxes i =
        { (respawn s1).boxes i with
          y1 := ((respawn s1).boxes i).y1 - g.speed
          y2 := ((respawn s1).boxes i).y2 - g.speed
          translation := ((respawn s1).boxes i).translation - g.speed } := by
      simp only [fallStep, hi, if_true, q1, hsp]
    rw [hfall] at e
    rcases r3 i with o | n
    · right
      rw [e1] at o
      rw [e, o]
      refine ⟨rfl, rfl, ?_⟩
      have := r4 i hi
      rw [o] at this
      exact this
    · left
      rw [e]
      obtain ⟨n1, n2⟩ := n
      refine ⟨n1, ?_⟩
      show 44 ≤ ((respawn s1).boxes i).y2 - g.speed
      have : g.speed ≤ 1 / 2 := by rw [hsp]; exact q4
      linarith
  · left
    obtain ⟨n1, n2⟩ := e
    exact ⟨n1, by linarith⟩

/-- The bricks spawned by a run of `createRectangle` are fresh. -/
theorem foldl_createRectangle_fresh {F : Type} [LinearOrderedField F] (l : List Nat) :
    ∀ t : Game F, 0 ≤ t.y →
      0 ≤ (l.foldl createRectangle t).y ∧ (l.foldl createRectangle t).speed = t.speed ∧
      (∀ i, fresh 0 t i → fresh 0 (l.foldl createRectangle t) i) ∧
      (∀ i ∈ l, fresh 0 (l.foldl createRectangle t) i) := by
  induction l with
  | nil =>
    intro t ht
    exact ⟨ht, rfl, fun i h => h, fun i hi => absurd hi (List.not_mem_nil i)⟩
  | cons j l ih =>
    intro t ht
    obtain ⟨f1, f2, f3⟩ := createRectangle_fresh t j ht
    obtain ⟨_, _, _, f4, f5⟩ := createRectangle_spec t j
    obtain ⟨i1, i2, i3, i4⟩ := ih (createRectangle t j) f1
    have hj : fresh 0 (createRectangle t j) j := ⟨f2, by linarith⟩
    rw [List.foldl_cons]
    refine ⟨i1, i2.trans f5, fun i hi => i3 i ?_, fun i hi => ?_⟩
    · by_cases e : i = j
      · subst e; exact hj
      · unfold fresh at hi ⊢; rw [f4 i e]; exact hi
    · rcases List.mem_cons.mp hi with e | e
      · subst e; exact i3 i hj
      · exact i4 i e

/-- The field invariant holds in the game as initialised. -/
theorem initGL_fieldInv (L : Libm K) (rnd : Nat → Nat) (t0 : K) :
    fieldInv (initGL L (zeroGame rnd t0)) := by
  obtain ⟨h1, h2, _, h4⟩ := foldl_createRectangle_fresh (List.range 15)
    (createBasket (createCannon (zeroGame rnd t0))) (le_refl _)
  have hb : (initGL L (zeroGame rnd t0)).boxes = ((List.range 15).foldl createRectangle
      (createBasket (createCannon (zeroGame rnd t0)))).boxes := rfl
  have hy : (initGL L (zeroGame rnd t0)).y = ((List.range 15).foldl createRectangle
      (createBasket (createCannon (zeroGame rnd t0)))).y := rfl
  have hs : (initGL L (zeroGame rnd t0)).speed = 1 / 10 := by
    show ((List.range 15).foldl createRectangle
      (createBasket (createCannon (zeroGame rnd t0)))).speed = 1 / 10
    rw [h2]; rfl
  refine ⟨fun i hi => ?_, by rw [hy]; exact h1, by rw [hs], by rw [hs]; norm_num⟩
  obtain ⟨a, b⟩ := h4 i (List.mem_range.mpr hi)
  rw [hb]
  exact ⟨a, by linarith⟩

/-- One iteration of the frame loop keeps the field invariant. -/
theorem frame_fieldInv (L : Libm K) (fuel : Nat) (k : Keys) (t1 t2 : K) (s g : Game K)
    (hs : fieldInv s) (hf : frame L fuel k t1 t2 s = some g) : fieldInv g := by
  obtain ⟨hb, hy, h1, h2⟩ := hs
  obtain ⟨g1, g2, g3, g4⟩ := frame_brick L fuel k t1 t2 s g hy h1 h2 hf
  refine ⟨fun i hi => ?_, g1, g2, g3⟩
  obtain ⟨al, lo⟩ := hb i hi
  rcases g4 i hi with ⟨a, b⟩ | ⟨a, b, c⟩
  · exact ⟨a, by linarith⟩
  · refine ⟨by rw [a]; exact al, ?_⟩
    have : -36 ≤ (s.boxes i).y2 := by
      by_contra hlt
      exact c ⟨not_le.mp hlt, al⟩
    rw [b]
    linarith

/-- The field invariant holds whenever the frame loop has run some frames. -/
theorem mainLoop_fieldInv (L : Libm K) (fuel : Nat) (inputs : List (Keys × K × K)) :
    ∀ s g : Game K, fieldInv s → mainLoop L fuel inputs s = some g → fieldInv g := by
  induction inputs with
  | nil =>
    intro s g hs h
    simp only [mainLoop, Option.some.injEq] at h
    rw [← h]; exact hs
  | cons x rest ih =>
    intro s g hs h
    obtain ⟨k, t1, t2⟩ := x
    simp only [mainLoop] at h
    split_ifs at h
    · simp only [Option.some.injEq] at h
      rw [← h]; exact hs
    · simp only [Option.bind_eq_some] at h
      obtain ⟨s1, hs1, hg⟩ := h
      exact ih s1 g (frame_fieldInv L fuel k t1 t2 s s1 hs hs1) hg

/-- C19: in the frame loop started from the game as initialised, whatever the keys held,
the clock readings and the values of `rand()`, at the start of every tick (each time `score`
is entered) the bricks 0..14 are alive with `y2 >= -36 - 0.5`, and the speed is within
`[0.1, 0.5]`.  This invariant is kept by every tick, in which a brick with `y2 < -36` is
respawned: at the start of the next tick it is above the field (`y2 >= 44`).  Hence a brick
that satisfies `y2 <= -36` at the start of two consecutive ticks has been respawned by the
start of the third; and a brick that was not respawned or shot during a tick had
`y2 >= -36` at its start and is at least 0.1 lower at its end. -/
theorem bricks_respawn_within_two_ticks (L : Libm K) (fuel : Nat) (rnd : Nat → Nat) (t0 : K) :
    (∀ inputs g, mainLoop L fuel inputs (initGL L (zeroGame rnd t0)) = some g → fieldInv g) ∧
    (∀ (s g : Game K) (k : Keys) (t1 t2 : K), fieldInv s →
      frame L fuel k t1 t2 s = some g →
      fieldInv g ∧
      (∀ i, i < 15 → (s.boxes i).y2 < -36 → 44 ≤ (g.boxes i).y2) ∧
      (∀ i, i < 15 → (g.boxes i).y2 < 44 →
        -36 ≤ (s.boxes i).y2 ∧ (g.boxes i).y2 ≤ (s.boxes i).y2 - 1 / 10)) ∧
    (∀ (s g g' : Game K) (k k' : Keys) (t1 t2 t1' t2' : K), fieldInv s →
      frame L fuel k t1 t2 s = some g → frame L fuel k' t1' t2' g = some g' →
      ∀ i, i < 15 → (s.boxes i).y2 ≤ -36 → (g.boxes i).y2 ≤ -36 → 44 ≤ (g'.boxes i).y2) := by
  have step : ∀ (s g : Game K) (k : Keys) (t1 t2 : K), fieldInv s →
      frame L fuel k t1 t2 s = some g →
      (∀ i, i < 15 → (s.boxes i).y2 < -36 → 44 ≤ (g.boxes i).y2) ∧
      (∀ i, i < 15 → (g.boxes i).y2 < 44 →
        -36 ≤ (s.boxes i).y2 ∧ (g.boxes i).y2 ≤ (s.boxes i).y2 - 1 / 10) := by
    intro s g k t1 t2 hs hf
    obtain ⟨hb, hy, h1, h2⟩ := hs
    obtain ⟨_, g2, _, g4⟩ := frame_brick L fuel k t1 t2 s g hy h1 h2 hf
    constructor
    · intro i hi hlt
      rcases g4 i hi with ⟨_, b⟩ | ⟨_, _, c⟩
      · exact b
      · exact absurd ⟨hlt, (hb i hi).1⟩ c
    · intro i hi hlt
      rcases g4 i hi with ⟨_, b⟩ | ⟨_, b, c⟩
      · exact absurd hlt (not_lt.mpr b)
      · have : -36 ≤ (s.boxes i).y2 := by
          by_contra hn
          exact c ⟨not_le.mp hn, (hb i hi).1⟩
        exact ⟨this, by rw [b]; linarith⟩
  refine ⟨fun inputs g h => mainLoop_fieldInv L fuel inputs _ g (initGL_fieldInv L rnd t0) h,
    fun s g k t1 t2 hs hf => ⟨frame_fieldInv L fuel k t1 t2 s g hs hf, step s g k t1 t2 hs hf⟩,
    ?_⟩
  intro s g g' k k' t1 t2 t1' t2' hs hf hf' i hi h0 h1
  have hg := frame_fieldInv L fuel k t1 t2 s g hs hf
  obtain ⟨_, s2⟩ := step s g k t1 t2 hs hf
  obtain ⟨s1', _⟩ := step g g' k' t1' t2' hg hf'
  apply s1' i hi
  have := (s2 i hi (by linarith)).2
  linarith

/-- A frame in which space is not pressed returns. -/
theorem frame_returns (L : Libm K) (fuel : Nat) (k : Keys) (t1 t2 : K) (s : Game K)
    (hk : k.space = false) : ∃ g, frame L fuel k t1 t2 s = some g := by
  unfold frame draw
  simp only [hk, Bool.false_eq_true, if_false]
  split_ifs <;> exact ⟨_, rfl⟩

/-- Witness for C19: in `catchGame 11` brick 0 is below the catch line (`y2 = -36.1`); the
next tick respawns it above the field. -/
theorem bricks_respawn_within_two_ticks_witness :
    fieldInv (catchGame 11) ∧ ((catchGame 11).boxes 0).y2 < -36 ∧
    ∃ g, frame tableLibm 2 noKeys 0 0 (catchGame 11) = some g ∧ 44 ≤ (g.boxes 0).y2 :=
  have hinv : fieldInv (catchGame 11) := by
    refine ⟨fun i _ => ?_, by norm_num [catchGame, createBasket, zeroGame],
      by norm_num [catchGame, createBasket, zeroGame],
      by norm_num [catchGame, createBasket, zeroGame]⟩
    by_cases h0 : i = 0
    · subst h0; norm_num [catchGame]
    · norm_num [catchGame, h0, farBrick]
  have hlow : ((catchGame 11).boxes 0).y2 < -36 := by norm_num [catchGame]
  ⟨hinv, hlow,
    (frame_returns tableLibm 2 noKeys 0 0 (catchGame 11) rfl).elim fun g hg =>
      ⟨g, hg, ((bricks_respawn_within_two_ticks tableLibm 2 (fun _ => 0) 0).2.1
        (catchGame 11) g noKeys 0 0 hinv hg).2.1 0 (by decide) hlow⟩⟩

/-! ## The origin of leg 0 -/

/-- The property `cannonLeg` reads only the brick edges, the cannon abscissas and leg 0. -/
theorem cannonLeg_of_eq {F : Type} [LinearOrderedField F] (s t : Game F)
    (hb : ∀ k, k < 15 → (t.boxes k).x1 = (s.boxes k).x1 ∧ (t.boxes k).x2 = (s.boxes k).x2)
    (hg0 : (t.gun 0).x = (s.gun 0).x) (hg1 : (t.gun 1).x = (s.gun 1).x)
    (hl : t.laser 0 = s.laser 0) (hbul : (t.bullet 0).x1 = (s.bullet 0).x1)
    (h : cannonLeg s) : cannonLeg t := by
  obtain ⟨h1, h2, h3, h4⟩ := h
  refine ⟨fun k hk => ?_, by rw [hg0]; exact h2, by rw [hg1]; exact h3, ?_⟩
  · rw [(hb k hk).1, (hb k hk).2]; exact h1 k hk
  · intro ht
    rw [hbul]
    exact h4 (by rw [← hl]; exact ht)

/-- A brick spawned by `createRectangle` has `x1 >= -20` and `x2 = x1 + 1.5`. -/
theorem createRectangle_cannonLeg {F : Type} [LinearOrderedField F] (s : Game F) (i : Nat)
    (h : cannonLeg s) : cannonLeg (createRectangle s i) := by
  obtain ⟨h1, h2, h3, h4⟩ := h
  refine ⟨fun k hk => ?_, h2, h3, h4⟩
  by_cases e : k = i
  · subst e
    have hx : (-20 : Int) ≤ (s.rnd s.rpos : Int) % 50 - 20 := by
      have : (0 : Int) ≤ (s.rnd s.rpos : Int) % 50 := Int.emod_nonneg _ (by decide)
      omega
    have hx' : (-20 : F) ≤ (((s.rnd s.rpos : Int) % 50 - 20 : Int) : F) := by
      exact_mod_cast hx
    simp only [createRectangle, Function.update_same]
    constructor
    · exact hx'
    · linarith
  · have : (createRectangle s i).boxes k = s.boxes k := by
      simp [createRectangle, Function.update, e]
    rw [this]
    exact h1 k hk

/-- The steps of the frame loop before `draw` keep `cannonLeg`. -/
theorem preDraw_cannonLeg {F : Type} [LinearOrderedField F] (k : Keys) (s : Game F)
    (h : cannonLeg s) : cannonLeg (preDraw k s) := by
  have hsp : ∀ (t : Game F) (i j : Nat), cannonLeg t → cannonLeg (scorePair t i j) := by
    intro t i j ht
    unfold scorePair
    split_ifs
    · exact cannonLeg_of_eq t _ (fun _ _ => ⟨rfl, rfl⟩) rfl rfl rfl rfl ht
    · exact cannonLeg_of_eq t _ (fun _ _ => ⟨rfl, rfl⟩) rfl rfl rfl rfl ht
    · exact cannonLeg_of_eq t _ (fun _ _ => ⟨rfl, rfl⟩) rfl rfl rfl rfl ht
    · exact ht
  have hscore : ∀ t : Game F, cannonLeg t → cannonLeg (score t) := by
    intro t ht
    unfold score
    exact foldl_preserves _ cannonLeg
      (fun a i ha => foldl_preserves _ cannonLeg (fun b j hb => hsp b i j hb) _ a ha) _ t ht
  have htb : ∀ t : Game F, cannonLeg t → cannonLeg (translateBaskets k t) := by
    intro t ht
    unfold translateBaskets
    split_ifs
    · exact cannonLeg_of_eq t _ (fun _ _ => ⟨rfl, rfl⟩) rfl rfl rfl rfl ht
    · exact cannonLeg_of_eq t _ (fun _ _ => ⟨rfl, rfl⟩) rfl rfl rfl rfl ht
    · exact cannonLeg_of_eq t _ (fun _ _ => ⟨rfl, rfl⟩) rfl rfl rfl rfl ht
    · exact cannonLeg_of_eq t _ (fun _ _ => ⟨rfl, rfl⟩) rfl rfl rfl rfl ht
    · exact ht
  have hmg : ∀ (t : Game F) (d : F), cannonLeg t → cannonLeg (moveGun t d) := by
    intro t d ht
    exact cannonLeg_of_eq t _ (fun _ _ => ⟨rfl, rfl⟩) (by simp [moveGun]) (by simp [moveGun])
      rfl rfl ht
  have htg : ∀ (t : Game F) (d : F), cannonLeg t → cannonLeg (turnGun t d) := by
    intro t d ht
    exact cannonLeg_of_eq t _ (fun _ _ => ⟨rfl, rfl⟩) (by simp [turnGun]) (by simp [turnGun])
      rfl rfl ht
  have htc : ∀ t : Game F, cannonLeg t → cannonLeg (translateCannon k t) := by
    intro t ht
    unfold translateCannon
    split_ifs
    · exact hmg t _ ht
    · exact hmg t _ ht
    · exact ht
  have hrc : ∀ t : Game F, cannonLeg t → cannonLeg (rotateCannon k t) := by
    intro t ht
    unfold rotateCannon
    split_ifs
    · exact htg t _ ht
    · exact htg t _ ht
    · exact ht
  have hrs : ∀ (t : Game F) (i : Nat), cannonLeg t → cannonLeg (respawnStep t i) := by
    intro t i ht
    unfold respawnStep
    split_ifs with hd
    · have h1 : cannonLeg ({ t with
          count := t.count + 1
          boxes := Function.update t.boxes i { t.boxes i with alive := false } } : Game F) := by
        refine cannonLeg_of_eq t _ (fun j _ => ?_) rfl rfl rfl rfl ht
        by_cases e : j = i
        · subst e; simp
        · simp [Function.update, e]
      have h2 := createRectangle_cannonLeg _ i h1
      dsimp only
      split_ifs
      · exact cannonLeg_of_eq _ _ (fun _ _ => ⟨rfl, rfl⟩) rfl rfl rfl rfl h2
      · exact h2
    · exact ht
  have hr : ∀ t : Game F, cannonLeg t → cannonLeg (respawn t) := by
    intro t ht
    unfold respawn
    exact foldl_preserves _ cannonLeg hrs _ t ht
  have hbs : ∀ t : Game F, cannonLeg t → cannonLeg (block_speed k t) := by
    intro t ht
    unfold block_speed
    dsimp only
    split_ifs <;> exact cannonLeg_of_eq t _ (fun _ _ => ⟨rfl, rfl⟩) rfl rfl rfl rfl ht
  unfold preDraw
  exact hbs _ (hr _ (hrc _ (htc _ (hscore _ (htb _ h)))))

/-- In the `for` loop a call with index 0 starts at the firing point: `x1` changes only when
a bounce is counted. -/
theorem forMirrors_origin (L : Libm K) (mirror : Nat → reflectors K) (x0 : K) (l : List Nat) :
    ∀ st : Locals K,
      ((st.count = 0 → st.x1 = x0) ∧ ∀ k ∈ st.calls, k.i = 0 → k.x1 = x0) →
      (((forMirrors L mirror l st).count = 0 → (forMirrors L mirror l st).x1 = x0) ∧
        ∀ k ∈ (forMirrors L mirror l st).calls, k.i = 0 → k.x1 = x0) := by
  induction l with
  | nil => intro st h; exact h
  | cons j l ih =>
    intro st h
    obtain ⟨h1, h2⟩ := h
    by_cases hj : st.check j = false
    · by_cases hacc : inSpan (mirror j) (hitX L (mirror j) st.x1 st.y1 st.m1) = true
      · simp only [forMirrors, hj, hacc, if_true]
        apply ih
        refine ⟨fun hc => absurd hc (Nat.succ_ne_zero _), fun k hk hi => ?_⟩
        rcases List.mem_append.mp hk with hk | hk
        · exact h2 k hk hi
        · rw [List.mem_singleton] at hk
          subst hk
          exact h1 hi
      · by_cases hc : st.count > 0
        · simp only [forMirrors, hj, hacc, hc, if_true, Bool.false_eq_true, if_false]
          refine ⟨h1, fun k hk hi => ?_⟩
          rcases List.mem_append.mp hk with hk | hk
          · exact h2 k hk hi
          · rw [List.mem_singleton] at hk
            subst hk
            exact h1 hi
        · simp only [forMirrors, hj, hacc, hc, if_true, Bool.false_eq_true, if_false]
          exact ih _ ⟨h1, h2⟩
    · have hj' : st.check j = true := by simpa using hj
      simp only [forMirrors, hj', Bool.true_eq_false, if_false]
      exact ih st ⟨h1, h2⟩

/-- Every call with index 0 made by a returning chain starts at the firing point. -/
theorem chain_origin (L : Libm K) (mirror : Nat → reflectors K) (fuel : Nat) (x1 y1 a : K)
    (calls : List (LaserCall K)) (h : chain L mirror fuel x1 y1 a = some calls) :
    ∀ k ∈ calls, k.i = 0 → k.x1 = x1 := by
  have hpass : ∀ st : Locals K,
      ((st.count = 0 → st.x1 = x1) ∧ ∀ k ∈ st.calls, k.i = 0 → k.x1 = x1) →
      (((chainPass L mirror st).count = 0 → (chainPass L mirror st).x1 = x1) ∧
        ∀ k ∈ (chainPass L mirror st).calls, k.i = 0 → k.x1 = x1) := by
    intro st hst
    obtain ⟨f1, f2⟩ := forMirrors_origin L mirror x1 [0, 1, 2] st hst
    unfold chainPass
    dsimp only
    split_ifs with hc
    · refine ⟨f1, fun k hk hi => ?_⟩
      rcases List.mem_append.mp hk with hk | hk
      · exact f2 k hk hi
      · rw [List.mem_singleton] at hk
        subst hk
        exact f1 hc.1
    · exact ⟨f1, f2⟩
  have hloop : ∀ (n : Nat) (st st' : Locals K),
      ((st.count = 0 → st.x1 = x1) ∧ ∀ k ∈ st.calls, k.i = 0 → k.x1 = x1) →
      chainLoop L mirror n st = some st' → ∀ k ∈ st'.calls, k.i = 0 → k.x1 = x1 := by
    intro n
    induction n with
    | zero => intro st st' _ h; simp [chainLoop] at h
    | succ n ih =>
      intro st st' hst h
      simp only [chainLoop] at h
      split_ifs at h
      · exact ih _ st' (hpass st hst) h
      · simp only [Option.some.injEq] at h
        rw [← h]; exact hst.2
  simp only [chain, Option.map_eq_some'] at h
  obtain ⟨st, hst, rfl⟩ := h
  exact hloop fuel _ st ⟨fun _ => rfl, fun k hk => absurd hk (List.not_mem_nil k)⟩ hst

/-- The firing block keeps `cannonLeg`: leg 0 starts at the cannon tip, at `x <= -31` as soon
as `cos <= 1`. -/
theorem fire_cannonLeg (L : Libm K) (hcos : ∀ x, L.cos x ≤ 1) (fuel : Nat) (s g : Game K)
    (h : cannonLeg s) (hf : fire L fuel s = some g) : cannonLeg g := by
  obtain ⟨h1, h2, h3, h4⟩ := h
  simp only [fire, Option.map_eq_some'] at hf
  obtain ⟨calls, hc, rfl⟩ := hf
  have ho := chain_origin L s.mirror fuel _ _ _ calls hc
  have htip : (s.gun 0).x + ((s.gun 1).x - (s.gun 0).x) * L.cos (s.gun 1).rotate ≤ -31 := by
    rw [h2, h3]
    have := hcos (s.gun 1).rotate
    linarith
  have key : ∀ (l : List (LaserCall K)) (t : Game K),
      (∀ k ∈ l, k.i = 0 → k.x1 ≤ -31) → cannonLeg t → cannonLeg (l.foldl (applyCall L) t) := by
    intro l
    induction l with
    | nil => intro t _ ht; exact ht
    | cons c l ih =>
      intro t hl ht
      rw [List.foldl_cons]
      apply ih _ (fun k hk => hl k (List.mem_cons_of_mem c hk))
      obtain ⟨t1, t2, t3, t4⟩ := ht
      refine ⟨t1, t2, t3, ?_⟩
      by_cases e : c.i = 0
      · intro _
        have := hl c (List.mem_cons_self c l) e
        simp [applyCall, createLaser, e, this]
      · intro hlas
        have e' : (0 : Nat) ≠ c.i := fun h => e h.symm
        have hl0 : (applyCall L t c).laser 0 = t.laser 0 := by
          simp [applyCall, createLaser, Function.update, e']
        have hb0 : (applyCall L t c).bullet 0 = t.bullet 0 := by
          simp [applyCall, createLaser, Function.update, e']
        rw [hb0]
        exact t4 (by rw [← hl0]; exact hlas)
  apply key calls s _ ⟨h1, h2, h3, h4⟩
  intro k hk hi
  rw [ho k hk hi]
  exact htip

/-- The fall step and the firing block of `draw` keep `cannonLeg`. -/
theorem drawFired_cannonLeg (L : Libm K) (hcos : ∀ x, L.cos x ≤ 1) (fuel : Nat) (k : Keys)
    (t1 : K) (s s2 : Game K) (h : cannonLeg s) (hd : drawFired L fuel k t1 s = some s2) :
    cannonLeg s2 := by
  have hfall : cannonLeg (fallStep s) := by
    refine cannonLeg_of_eq s _ (fun j hj => ?_) rfl rfl rfl rfl h
    simp [fallStep, hj]
  simp only [drawFired] at hd
  split_ifs at hd with ht hk
  · simp only [Option.map_eq_some'] at hd
    obtain ⟨g, hg, rfl⟩ := hd
    have := fire_cannonLeg L hcos fuel (fallStep s) g hfall hg
    exact cannonLeg_of_eq g _ (fun _ _ => ⟨rfl, rfl⟩) rfl rfl rfl rfl this
  · simp only [Option.map_some', Option.some.injEq] at hd
    rw [← hd]
    exact cannonLeg_of_eq (fallStep s) _ (fun _ _ => ⟨rfl, rfl⟩) rfl rfl rfl rfl hfall
  · simp only [Option.some.injEq] at hd
    rw [← hd]; exact hfall

/-- The game logic of `draw` is the laser loops run on the state `drawFired`, and the laser
loop calls `shoot(0)` on that state when `laser[0]` is set. -/
theorem draw_eq_drawFired (L : Libm K) (fuel : Nat) (k : Keys) (t1 t2 : K) (s : Game K) :
    frame L fuel k t1 t2 s =
      (drawFired L fuel k t1 (preDraw k s)).map (fun s2 =>
        if t2 - s2.last_update_time < 1 / 5 then resolveLasers L s2 else clearLasers s2) ∧
    ∀ s2 : Game K, s2.laser 0 = true →
      resolveLasers L s2 = laserLoop L (List.range' 1 9) (shoot L s2 0) := by
  refine ⟨rfl, fun s2 h => ?_⟩
  unfold resolveLasers
  rw [List.range_eq_range']
  simp only [List.range', laserLoop, h, if_true]

theorem shootScore_cannon {F : Type} (s : Game F) (j : Nat) :
    (shootScore s j).gun = s.gun ∧ (shootScore s j).bullet = s.bullet := by
  unfold shootScore; split_ifs <;> exact ⟨rfl, rfl⟩

/-- A call `shoot(i)` on an active leg keeps `cannonLeg`. -/
theorem shoot_cannonLeg (L : Libm K) (s : Game K) (i : Nat) (hl : s.laser i = true)
    (h : cannonLeg s) : cannonLeg (shoot L s i) := by
  cases hm : (shootScan L s i).min with
  | none => rw [shoot_of_miss L s i hm]; exact h
  | some j =>
    obtain ⟨g1, g2⟩ := shootScore_cannon s j
    have hb := shootScore_boxes s j
    have hla := shootScore_laser s j
    have e : shoot L s i = createRectangle
        { createLaser L (shootScore s j) ((shootScore s j).bullet i).x1
            ((shootScore s j).bullet i).y1 (shootScan L s i).x2 (shootScan L s i).y2
            ((shootScore s j).bullet i).m ((shootScore s j).bullet i).c i with
          laser := fun k => if i + 1 ≤ k ∧ k < 10 then false
            else (createLaser L (shootScore s j) ((shootScore s j).bullet i).x1
              ((shootScore s j).bullet i).y1 (shootScan L s i).x2 (shootScan L s i).y2
              ((shootScore s j).bullet i).m ((shootScore s j).bullet i).c i).laser k } j := by
      simp only [shoot, hm]
    rw [e]
    apply createRectangle_cannonLeg
    refine cannonLeg_of_eq s _ (fun k _ => ?_) ?_ ?_ ?_ ?_ h
    · simp [createLaser, hb]
    · simp [createLaser, g1]
    · simp [createLaser, g1]
    · by_cases e0 : i = 0
      · subst e0; simp [createLaser, hl]
      · have e' : (0 : Nat) ≠ i := fun h => e0 h.symm
        simp [createLaser, Function.update, e', hla]
    · by_cases e0 : i = 0
      · subst e0; simp [createLaser, g2]
      · have e' : (0 : Nat) ≠ i := fun h => e0 h.symm
        simp [createLaser, Function.update, e', g2]

/-- The laser loops of `draw` keep `cannonLeg`. -/
theorem laserLoop_cannonLeg (L : Libm K) (l : List Nat) :
    ∀ s : Game K, cannonLeg s → cannonLeg (laserLoop L l s) := by
  induction l with
  | nil => intro s h; exact h
  | cons i l ih =>
    intro s h
    by_cases hl : s.laser i = true
    · simp only [laserLoop, hl, if_true]
      exact ih _ (shoot_cannonLeg L s i hl h)
    · simp only [laserLoop, hl, if_false]
      exact h

/-- One iteration of the frame loop keeps `cannonLeg`. -/
theorem frame_cannonLeg (L : Libm K) (hcos : ∀ x, L.cos x ≤ 1) (fuel : Nat) (k : Keys)
    (t1 t2 : K) (s g : Game K) (h : cannonLeg s) (hf : frame L fuel k t1 t2 s = some g) :
    cannonLeg g := by
  rw [(draw_eq_drawFired L fuel k t1 t2 s).1, Option.map_eq_some'] at hf
  obtain ⟨s2, hs2, rfl⟩ := hf
  have h2 := drawFired_cannonLeg L hcos fuel k t1 _ s2 (preDraw_cannonLeg k s h) hs2
  split_ifs
  · exact laserLoop_cannonLeg L _ s2 h2
  · obtain ⟨a, b, c, _⟩ := h2
    exact ⟨a, b, c, fun hl => by simp [clearLasers] at hl⟩

/-- The game as initialised satisfies `cannonLeg`. -/
theorem initGL_cannonLeg (L : Libm K) (rnd : Nat → Nat) (t0 : K) :
    cannonLeg (initGL L (zeroGame rnd t0)) := by
  have h0 : cannonLeg (createBasket (createCannon (zeroGame rnd t0)) : Game K) := by
    refine ⟨fun k _ => ?_, ?_, ?_, ?_⟩
    · simp [createBasket, createCannon, zeroGame]
    · simp [createBasket, createCannon]
    · simp [createBasket, createCannon]
    · intro hl; simp [createBasket, createCannon, zeroGame] at hl
  have h1 := foldl_preserves createRectangle cannonLeg
    (fun a i ha => createRectangle_cannonLeg a i ha) (List.range 15) _ h0
  exact cannonLeg_of_eq _ _ (fun _ _ => ⟨rfl, rfl⟩) rfl rfl rfl rfl h1

/-- The property `cannonLeg` holds whenever the frame loop has run some frames. -/
theorem mainLoop_cannonLeg (L : Libm K) (hcos : ∀ x, L.cos x ≤ 1) (fuel : Nat)
    (inputs : List (Keys × K × K)) :
    ∀ s g : Game K, cannonLeg s → mainLoop L fuel inputs s = some g → cannonLeg g := by
  induction inputs with
  | nil =>
    intro s g hs h
    simp only [mainLoop, Option.some.injEq] at h
    rw [← h]; exact hs
  | cons x rest ih =>
    intro s g hs h
    obtain ⟨k, t1, t2⟩ := x
    simp only [mainLoop] at h
    split_ifs at h
    · simp only [Option.some.injEq] at h
      rw [← h]; exact hs
    · simp only [Option.bind_eq_some] at h
      obtain ⟨s1, hs1, hg⟩ := h
      exact ih s1 g (frame_cannonLeg L hcos fuel k t1 t2 s s1 hs hs1) hg

/-- The edge selected for leg 0 in a state with `cannonLeg` lies strictly between the origin
of the leg and its stored far-x. -/
theorem shoot0_ahead (L : Libm K) (s : Game K) (j : Nat) (hc : cannonLeg s)
    (hl : s.laser 0 = true) (h : (shootScan L s 0).min = some j) :
    (s.bullet 0).x1 ≤ -31 ∧ -20 ≤ (shootScan L s 0).x2 ∧
    (s.bullet 0).x1 < (shootScan L s 0).x2 ∧ (shootScan L s 0).x2 < (s.bullet 0).x2 := by
  obtain ⟨c1, _, _, c4⟩ := hc
  obtain ⟨_, _, h3⟩ := scan_invariant (L.tan (s.bullet 0).m) (s.bullet 0).c s.boxes
    (List.range 15) ⟨(s.bullet 0).x2, (s.bullet 0).y2, none⟩
  have hs : shootScan L s 0 = (List.range 15).foldl
      (scanBrick (L.tan (s.bullet 0).m) (s.bullet 0).c s.boxes)
      ⟨(s.bullet 0).x2, (s.bullet 0).y2, none⟩ := rfl
  rw [← hs] at h3
  have ho := c4 hl
  rcases h3 with ⟨u, _⟩ | ⟨k, hk, _, he, _, hlt, _⟩
  · rw [u] at h; exact Option.noConfusion h
  · obtain ⟨b1, b2⟩ := c1 k (List.mem_range.mp hk)
    have hsel : -20 ≤ (shootScan L s 0).x2 := by
      rcases he with e | e
      · rw [e]; exact b1
      · rw [e]; linarith
    exact ⟨ho, hsel, by linarith, hlt⟩

/-- C16 (amended): for every call `shoot(i)` that selects a brick, the selected edge abscissa
is strictly less than the stored far-x `bullet[i].x2` of the leg and is the smallest of all
qualifying edges of the 15 bricks; `shoot` does not compare it with the origin `bullet[i].x1`.
For leg 0 the selected edge does lie strictly between the origin and the far-x: in the frame
loop started from the game as initialised (mouse untouched, `cos <= 1`), in every frame the
state on which the laser loop of `draw` calls `shoot(0)` has the cannon parts at `x = -39` and
`x = -31`, leg 0 starting at the cannon tip at `x <= -31`, and every brick at `x1 >= -20`
(property `cannonLeg`), so a selected edge `x` satisfies `bullet[0].x1 <= -31 < -20 <= x <
bullet[0].x2`. -/
theorem shoot_edge_before_far (L : Libm K) (hcos : ∀ x, L.cos x ≤ 1) :
    (∀ (s : Game K) (i j : Nat), (shootScan L s i).min = some j →
      (shootScan L s i).x2 < (s.bullet i).x2 ∧
      ∀ k, k < 15 → ∀ x, (x = (s.boxes k).x1 ∨ x = (s.boxes k).x2) →
        qualifies (L.tan (s.bullet i).m) (s.bullet i).c (s.boxes k) x →
        (shootScan L s i).x2 ≤ x) ∧
    (∀ (s : Game K) (j : Nat), cannonLeg s → s.laser 0 = true →
      (shootScan L s 0).min = some j →
      (s.bullet 0).x1 ≤ -31 ∧ -20 ≤ (shootScan L s 0).x2 ∧
      (s.bullet 0).x1 < (shootScan L s 0).x2 ∧ (shootScan L s 0).x2 < (s.bullet 0).x2) ∧
    (∀ (fuel : Nat) (rnd : Nat → Nat) (t0 : K) (inputs : List (Keys × K × K)) (s s2 : Game K)
        (k : Keys) (t1 t2 : K),
      mainLoop L fuel inputs (initGL L (zeroGame rnd t0)) = some s →
      drawFired L fuel k t1 (preDraw k s) = some s2 →
      cannonLeg s2 ∧
      frame L fuel k t1 t2 s = some
        (if t2 - s2.last_update_time < 1 / 5 then resolveLasers L s2 else clearLasers s2) ∧
      (s2.laser 0 = true →
        resolveLasers L s2 = laserLoop L (List.range' 1 9) (shoot L s2 0) ∧
        ∀ j, (shootScan L s2 0).min = some j →
          (s2.bullet 0).x1 < (shootScan L s2 0).x2 ∧
          (shootScan L s2 0).x2 < (s2.bullet 0).x2)) := by
  refine ⟨fun s i j h => ?_, fun s j hc hl h => shoot0_ahead L s j hc hl h, ?_⟩
  · obtain ⟨_, h2, h3⟩ := scan_invariant (L.tan (s.bullet i).m) (s.bullet i).c s.boxes
      (List.range 15) ⟨(s.bullet i).x2, (s.bullet i).y2, none⟩
    have hs : shootScan L s i = (List.range 15).foldl
        (scanBrick (L.tan (s.bullet i).m) (s.bullet i).c s.boxes)
        ⟨(s.bullet i).x2, (s.bullet i).y2, none⟩ := rfl
    rw [← hs] at h2 h3
    rcases h3 with ⟨u, _⟩ | ⟨k, _, _, _, _, hlt, _⟩
    · rw [u] at h; exact Option.noConfusion h
    · exact ⟨hlt, fun k hk x hx hq => h2 k (List.mem_range.mpr hk) x hx hq⟩
  · intro fuel rnd t0 inputs s s2 k t1 t2 hm hd
    have hs := mainLoop_cannonLeg L hcos fuel inputs _ s (initGL_cannonLeg L rnd t0) hm
    have h2 := drawFired_cannonLeg L hcos fuel k t1 _ s2 (preDraw_cannonLeg k s hs) hd
    refine ⟨h2, ?_, fun hl => ⟨(draw_eq_drawFired L fuel k t1 t2 s).2 s2 hl, fun j hj => ?_⟩⟩
    · rw [(draw_eq_drawFired L fuel k t1 t2 s).1, hd]
      rfl
    · obtain ⟨_, _, a, b⟩ := shoot0_ahead L s2 j h2 hl hj
      exact ⟨a, b⟩

/-- The tabulated cosine is at most 1. -/
theorem tableLibm_cos_le (x : ℚ) : tableLibm.cos x ≤ 1 := by
  simp only [tableLibm]
  split_ifs <;> norm_num

/-- The state `twoHitFired` satisfies `cannonLeg`. -/
theorem twoHitFired_cannonLeg : cannonLeg twoHitFired := by
  refine ⟨fun k hk => ?_, ?_, ?_, fun _ => ?_⟩
  · by_cases h0 : k = 0
    · subst h0; norm_num [twoHitFired, createLaser, fallStep, twoHitGame]
    · by_cases h1 : k = 1
      · subst h1; norm_num [twoHitFired, createLaser, fallStep, twoHitGame]
      · norm_num [twoHitFired, createLaser, fallStep, twoHitGame, h0, h1, hk, farBrick]
  · norm_num [twoHitFired, createLaser, fallStep, twoHitGame, moveGun, createMirrors,
      createBasket, createCannon]
  · norm_num [twoHitFired, createLaser, fallStep, twoHitGame, moveGun, createMirrors,
      createBasket, createCannon]
  · norm_num [twoHitFired, createLaser]

/-- Witness for C16 (amended): leg 0 of `twoHitFired`, fired from `(-31,-10)` along
`y = -10`, selects the left edge `x = 5` of brick 0, between the origin `x = -31` and the far
point `x = 69`. -/
theorem shoot_edge_before_far_witness :
    (∀ x, tableLibm.cos x ≤ 1) ∧ cannonLeg twoHitFired ∧ twoHitFired.laser 0 = true ∧
    (shootScan tableLibm twoHitFired 0).min = some 0 ∧
    (twoHitFired.bullet 0).x1 < (shootScan tableLibm twoHitFired 0).x2 ∧
    (shootScan tableLibm twoHitFired 0).x2 < (twoHitFired.bullet 0).x2 :=
  have hl : twoHitFired.laser 0 = true := by simp [twoHitFired, createLaser]
  have hm : (shootScan tableLibm twoHitFired 0).min = some 0 := by rw [twoHitFired_scan]
  ⟨tableLibm_cos_le, twoHitFired_cannonLeg, hl, hm,
    ((shoot_edge_before_far tableLibm tableLibm_cos_le).2.1 twoHitFired 0
      twoHitFired_cannonLeg hl hm).2.2⟩

end BrickBreaker
